import Mathlib

/-!
Iterative node lookup of `maidsafe/kademlia/nodeimpl.cc`.

A shallow embedding of the lookup engine of `NodeImpl` (`CompareContact`,
`SortContactList`, `AddContactsToContainer`, `MarkResponse`, `NodesPending`,
`HandleIterationStructure`, `FindNodes`, `IterativeSearch`,
`IterativeSearchResponse`) together with theorems about it, followed by the
listening functions and the connection bookkeeping of `rudp::Transport`
(`maidsafe/rudp/transport.cc`) in the namespace `rudp`.

Conventions of the embedding.

* The session object `FindNodesArgs` is passed explicitly: every function that
  mutates `*fna` returns the new value.  The session mutex is not modelled; a
  call of `HandleIterationStructure` is one atomic step.
* Out-parameters (`nodes`, `top_nodes_done`, `calledback`, `nodes_pending`) are
  returned in a record.  `top_nodes_done` and `calledback` are written on some
  paths only, so the values they hold on entry are arguments of the model.
* `std::list::back()` on an empty list is undefined behaviour; the model
  returns `none` there.
* Counters (`int`, `size_t`, `boost::uint16_t`) are unbounded numbers: each of
  them is bounded by the number of entries of the container.
-/

namespace kademlia

/-! ## Identifiers and contacts -/

/-- Modelled from the spec: `NodeId` is declared in the absent `nodeid.h`; an
identifier is a fixed-length value read as an unsigned big integer. -/
abbrev NodeId := Nat

/-- Modelled from the spec: the default-constructed `NodeId id;` is the all-zero
identifier. -/
def kZeroId : NodeId := 0

/-- Modelled from the spec: `NodeId::CloserToTarget(id1, id2, target)` of the
absent `nodeid.h`; the distance is the XOR metric compared as an unsigned big
integer, closer meaning numerically smaller. -/
def CloserToTarget (id1 id2 target : NodeId) : Bool :=
  decide (id1 ^^^ target < id2 ^^^ target)

/-- XOR distance of an identifier to the target key. -/
def distance (target id : NodeId) : Nat := id ^^^ target

/-- Modelled from the spec: `Contact` is declared in an absent header; it holds
the peer identifier and a network address, and equality and ordering of
contacts are by identifier. -/
structure Contact where
  node_id : NodeId
  endpoint : Nat
deriving DecidableEq, Repr

/-- The element type of the temporary list of `SortContactList`. -/
structure ContactAndTargetKey where
  contact : Contact
  target_key : NodeId
deriving DecidableEq, Repr

/-- `CompareContact` (nodeimpl.cc 62-71). -/
def CompareContact (first second : ContactAndTargetKey) : Bool :=
  if first.contact.node_id = kZeroId then true
  else if second.contact.node_id = kZeroId then false
  else CloserToTarget first.contact.node_id second.contact.node_id
    first.target_key

/-- One insertion step of the stable sort: `x` goes in front of the first
element that does not compare less than `x`. -/
def listInsert {α : Type} (comp : α → α → Bool) (x : α) : List α → List α
  | [] => [x]
  | y :: ys => if comp y x then y :: listInsert comp x ys else x :: y :: ys

/-- `std::list::sort(comp)`: a stable sort by the strict comparison `comp`.
For a comparison that is a strict weak ordering on the elements of the list
every stable sort returns the same list. -/
def listSort {α : Type} (comp : α → α → Bool) : List α → List α
  | [] => []
  | x :: xs => listInsert comp x (listSort comp xs)

/-- `SortContactList` (nodeimpl.cc 74-95). -/
def SortContactList (target_key : NodeId) (contact_list : List Contact) :
    List Contact :=
  if contact_list.isEmpty then contact_list
  else
    let temp_list : List ContactAndTargetKey :=
      contact_list.map (fun c => { contact := c, target_key := target_key })
    (listSort CompareContact temp_list).map (fun ck => ck.contact)

/-! ## The contact ledger (`NodeContainer`) -/

/-- `NodeSearchState`. -/
inductive NodeSearchState where
  | kNew
  | kSelectedAlpha
  | kContacted
  | kDown
deriving DecidableEq, Repr

/-- `SearchMarking`. -/
inductive SearchMarking where
  | SEARCH_DOWN
  | SEARCH_CONTACTED
deriving DecidableEq, Repr

open NodeSearchState SearchMarking

/-- `NodeContainerTuple`: one ledger entry. -/
structure NodeContainerTuple where
  contact : Contact
  state : NodeSearchState
  round : Int
deriving DecidableEq, Repr

/-- The parameters of the node the lookup code reads.  `K_` is a member of
`NodeImpl`; `kAlpha` and `kBeta` are constants of an absent header;
`kTupleRound` is the round tag that the constructor
`NodeContainerTuple(contact)` (absent header) gives a new entry. -/
structure NodeImpl where
  K_ : Nat
  kAlpha : Nat
  kBeta : Nat
  kTupleRound : Int
deriving DecidableEq, Repr

/-- The constructor `NodeContainerTuple nct(contact)`: state `kNew`. -/
def NodeImpl.newTuple (self : NodeImpl) (c : Contact) : NodeContainerTuple :=
  { contact := c, state := kNew, round := self.kTupleRound }

/-- Modelled from the spec: `NodeContainer` is a boost multi-index container
declared in the absent `nodeimpl.h`: one set of records with views by contact
(unique), by state and by round.  It is modelled as the list of its records in
iteration order, a new record going to the end.  The lookup code reads the
order only when it hands the live contacts to `SortContactList`, whose output
does not depend on it (`closestK_perm`). -/
abbrev NodeContainer := List NodeContainerTuple

/-- The records are keyed by contact, and contacts compare by identifier. -/
def sameContact (c : Contact) (e : NodeContainerTuple) : Bool :=
  e.contact.node_id == c.node_id

/-- `index_contact.find(contact)`. -/
def ncFind (nc : NodeContainer) (c : Contact) : Option NodeContainerTuple :=
  nc.find? (sameContact c)

/-- `nc.insert(nct)`: refused when a record with the same contact is present. -/
def ncInsert (nc : NodeContainer) (nct : NodeContainerTuple) : NodeContainer :=
  match ncFind nc nct.contact with
  | some _ => nc
  | none => nc ++ [nct]

/-- `index_contact.replace(it, nct)` where `it = index_contact.find(c)`: the
record found for `c` is overwritten in place. -/
def ncReplace (c : Contact) (nct : NodeContainerTuple) :
    NodeContainer → NodeContainer
  | [] => []
  | e :: es => if sameContact c e then nct :: es else e :: ncReplace c nct es

/-- `index_contact.erase(it)` where `it = index_contact.find(c)`. -/
def ncErase (c : Contact) : NodeContainer → NodeContainer
  | [] => []
  | e :: es => if sameContact c e then es else e :: ncErase c es

/-- Modelled from the spec: `FindNodesArgs` (absent `nodeimpl.h`), the lookup
session: target key, kth-closest watermark, ledger, completed flag and round
counter.  The mutex and the callback are not data of the model. -/
structure FindNodesArgs where
  key : NodeId
  kth_closest : NodeId
  nc : NodeContainer
  calledback : Bool
  round : Int
deriving DecidableEq, Repr

/-- Modelled from the spec: the constructor `FindNodesArgs(key, callback)`; the
watermark is a default `NodeId`, the ledger is empty, the lookup is not
completed and the round counter starts at 0. -/
def FindNodesArgs.init (key : NodeId) : FindNodesArgs :=
  { key := key, kth_closest := kZeroId, nc := [], calledback := false,
    round := 0 }

/-- `NodeImpl::AddContactsToContainer` (nodeimpl.cc 181-188). -/
def NodeImpl.AddContactsToContainer (self : NodeImpl) (contacts : List Contact)
    (fna : FindNodesArgs) : FindNodesArgs :=
  let nc := contacts.foldl (fun nc c => ncInsert nc (self.newTuple c)) fna.nc
  { fna with nc := nc }

/-- The loop of `MarkResponse` (nodeimpl.cc 194-200): the front of
`response_nodes` is inserted and popped until the list is empty.  Returns the
container and the list that is left. -/
def NodeImpl.insertResponseNodes (self : NodeImpl) :
    NodeContainer → List Contact → NodeContainer × List Contact
  | nc, [] => (nc, [])
  | nc, front :: rest =>
    self.insertResponseNodes (ncInsert nc (self.newTuple front)) rest

/-- `NodeImpl::MarkResponse` (nodeimpl.cc 190-215).  Returns the return value,
the session and what is left of `*response_nodes`. -/
def NodeImpl.MarkResponse (self : NodeImpl) (contact : Contact)
    (fna : FindNodesArgs) (mark : SearchMarking) (response_nodes : List Contact) :
    Bool × FindNodesArgs × List Contact :=
  let r := self.insertResponseNodes fna.nc response_nodes
  match ncFind r.1 contact with
  | some it =>
    let nct : NodeContainerTuple :=
      if mark = SEARCH_DOWN then { it with state := kDown }
      else { it with state := kContacted }
    (true, { fna with nc := ncReplace contact nct r.1 }, r.2)
  | none => (false, { fna with nc := r.1 }, r.2)

/-- `NodeImpl::NodesPending` (nodeimpl.cc 217-226). -/
def NodesPending (fna : FindNodesArgs) : Nat :=
  (fna.nc.filter (fun e => e.state = kSelectedAlpha)).length

/-! ## `HandleIterationStructure` -/

/-- What a call of `HandleIterationStructure` leaves behind: the return value,
the session, and the out-parameters. -/
structure IterationResult where
  ret : Bool
  fna : FindNodesArgs
  nodes : List Contact
  top_nodes_done : Bool
  calledback : Bool
  nodes_pending : Nat
deriving DecidableEq, Repr

/-- `alphas_sent`: the records of `index_car.equal_range(round)`. -/
def alphasSent (nc : NodeContainer) (round : Int) : Nat :=
  (nc.filter (fun e => e.round = round)).length

/-- `alphas_replied`: those of them in state `kContacted`. -/
def alphasReplied (nc : NodeContainer) (round : Int) : Nat :=
  ((nc.filter (fun e => e.round = round)).filter
    (fun e => e.state = kContacted)).length

/-- The condition of nodeimpl.cc 264-265. -/
def NodeImpl.roundDone (self : NodeImpl) (alphas_sent alphas_replied : Nat) :
    Bool :=
  (decide (alphas_sent > self.kBeta) && decide (alphas_replied ≥ self.kBeta)) ||
  (decide (alphas_sent ≤ self.kBeta) && decide (alphas_replied = alphas_sent))

/-- The loop of nodeimpl.cc 268-272: the contacts of the records that are not
down are pushed to the back of `nodes`. -/
def pushLive (nodes : List Contact) (nc : NodeContainer) : List Contact :=
  nodes ++ (nc.filter (fun e => e.state ≠ kDown)).map (fun e => e.contact)

/-- The truncation of nodeimpl.cc 276-277. -/
def resizeTo (n : Nat) (nodes : List Contact) : List Contact :=
  if nodes.length > n then nodes.take n else nodes

/-- The counters `new_nodes`, `contacted_nodes`, `alpha_nodes` of the loop of
nodeimpl.cc 284-297. -/
structure TopCount where
  new_nodes : Nat
  contacted_nodes : Nat
  alpha_nodes : Nat
deriving DecidableEq, Repr

/-- The loop of nodeimpl.cc 285-297. -/
def countTop (nc : NodeContainer) : List Contact → TopCount → TopCount
  | [], acc => acc
  | done_it :: rest, acc =>
    match ncFind nc done_it with
    | some contact_it =>
      if contact_it.state = kNew then
        countTop nc rest { acc with new_nodes := acc.new_nodes + 1 }
      else if contact_it.state = kSelectedAlpha then
        countTop nc rest { acc with alpha_nodes := acc.alpha_nodes + 1 }
      else if contact_it.state = kContacted then
        countTop nc rest { acc with contacted_nodes := acc.contacted_nodes + 1 }
      else countTop nc rest acc
    | none => countTop nc rest acc

/-- The loop of nodeimpl.cc 316-331: walks `nodes` while `times < kAlpha`;
a contact found in state `kNew` becomes `kSelectedAlpha` with the round
`round` and is pushed to `alphas`.  Returns the container and `alphas`. -/
def NodeImpl.selectAlphas (self : NodeImpl) (round : Int) :
    NodeContainer → List Contact → Nat → List Contact →
    NodeContainer × List Contact
  | nc, [], _, alphas => (nc, alphas)
  | nc, it_conts :: rest, times, alphas =>
    if times < self.kAlpha then
      match ncFind nc it_conts with
      | some contact_it =>
        if contact_it.state = kNew then
          let nct : NodeContainerTuple :=
            { contact_it with state := kSelectedAlpha, round := round }
          self.selectAlphas round (ncReplace it_conts nct nc) rest (times + 1)
            (alphas ++ [nct.contact])
        else self.selectAlphas round nc rest times alphas
      | none => self.selectAlphas round nc rest times alphas
    else (nc, alphas)

/-- The list `*nodes` after nodeimpl.cc 267-277: the live contacts, sorted,
cut to `K_`. -/
def NodeImpl.topNodes (self : NodeImpl) (fna : FindNodesArgs)
    (nodes : List Contact) : List Contact :=
  resizeTo self.K_ (SortContactList fna.key (pushLive nodes fna.nc))

/-- The body of the `if` of nodeimpl.cc 264-333, entered when the round is
done.  `fna` is the session after `MarkResponse`, `nodes` what `MarkResponse`
left of the list, `b` its return value. -/
def NodeImpl.nextIteration (self : NodeImpl) (b : Bool) (fna : FindNodesArgs)
    (nodes : List Contact) (top_nodes_done calledback : Bool)
    (nodes_pending : Nat) : Option IterationResult :=
  let nodes := self.topNodes fna nodes
  match nodes.getLast? with
  | none => none
  | some back =>
    let zero : TopCount := { new_nodes := 0, contacted_nodes := 0, alpha_nodes := 0 }
    let cnt := countTop fna.nc nodes zero
    if back.node_id = fna.kth_closest ∧ cnt.new_nodes = 0 ∧
        cnt.alpha_nodes = 0 ∧ nodes_pending = 0 then
      some { ret := b
             fna := { fna with calledback := true }
             nodes := nodes
             top_nodes_done := true
             calledback := fna.calledback
             nodes_pending := nodes_pending }
    else
      let round := fna.round + 1
      let r := self.selectAlphas round fna.nc nodes 0 []
      some { ret := b
             fna := { fna with kth_closest := back.node_id, round := round, nc := r.1 }
             nodes := r.2
             top_nodes_done := top_nodes_done
             calledback := calledback
             nodes_pending := nodes_pending }

/-- `NodeImpl::HandleIterationStructure` (nodeimpl.cc 228-336).  `nodes`,
`top_nodes_done` and `calledback` are the values the out-parameters hold on
entry; `none` is the undefined `nodes->back()` on an empty list. -/
def NodeImpl.HandleIterationStructure (self : NodeImpl) (contact : Contact)
    (fna : FindNodesArgs) (round : Int) (mark : SearchMarking)
    (nodes : List Contact) (top_nodes_done calledback : Bool) :
    Option IterationResult :=
  if fna.calledback then
    some { ret := true
           fna := fna
           nodes := []
           top_nodes_done := true
           calledback := true
           nodes_pending := NodesPending fna }
  else
    let m := self.MarkResponse contact fna mark nodes
    let nodes_pending := NodesPending m.2.1
    let alphas_sent := alphasSent m.2.1.nc round
    let alphas_replied := alphasReplied m.2.1.nc round
    if self.roundDone alphas_sent alphas_replied then
      self.nextIteration m.1 m.2.1 m.2.2 top_nodes_done calledback nodes_pending
    else
      some { ret := m.1
             fna := m.2.1
             nodes := m.2.2
             top_nodes_done := top_nodes_done
             calledback := calledback
             nodes_pending := nodes_pending }

/-! ## `FindNodes`, `IterativeSearch`, `IterativeSearchResponse` -/

/-- `FindNodesParams`, without the callback. -/
structure FindNodesParams where
  key : NodeId
  start_nodes : List Contact
  exclude_nodes : List Contact
  use_routingtable : Bool
deriving DecidableEq, Repr

/-- Modelled from the spec: `FindNodesRpc` (absent `nodeimpl.h`), the context of
one dispatched RPC: the contact and the round number at dispatch time.  The
session it points back to (`rpc_fna`) is passed explicitly. -/
structure FindNodesRpc where
  contact : Contact
  round : Int
deriving DecidableEq, Repr

/-- What `IterativeSearch` does to the outside: it invokes the result callback
or it sends a FindNodes RPC. -/
inductive SearchEffect where
  | callback (contacts : List Contact)
  | rpc (fnrpc : FindNodesRpc)
deriving DecidableEq, Repr

/-- `NodeImpl::IterativeSearch` (nodeimpl.cc 392-415): the effects, in order. -/
def IterativeSearch (fna : FindNodesArgs) (top_nodes_done calledback : Bool)
    (contacts : List Contact) (_nodes_pending : Nat) : List SearchEffect :=
  if top_nodes_done then
    if !calledback then [SearchEffect.callback contacts] else []
  else if contacts.isEmpty then []
  else contacts.map (fun it => SearchEffect.rpc { contact := it, round := fna.round })

/-- The loop of nodeimpl.cc 352-358. -/
def eraseExcludes (nc : NodeContainer) (exclude_nodes : List Contact) :
    NodeContainer :=
  exclude_nodes.foldl
    (fun nc c => match ncFind nc c with
      | some _ => ncErase c nc
      | none => nc) nc

/-- The loop of nodeimpl.cc 376-387. -/
def markAlphas (round : Int) (nc : NodeContainer) (alphas : List Contact) :
    NodeContainer :=
  alphas.foldl
    (fun nc c => match ncFind nc c with
      | some it =>
        ncReplace c { it with round := round, state := kSelectedAlpha } nc
      | none => nc) nc

/-- `NodeImpl::FindNodes` (nodeimpl.cc 338-390).  `FindCloseNodes` is the
routing table query `prouting_table_->FindCloseNodes(key, K_, excludes)`.
Returns the seeded session and the effects of the call of `IterativeSearch`;
`none` is the undefined `alphas.back()` on an empty list. -/
def NodeImpl.FindNodes (self : NodeImpl)
    (FindCloseNodes : NodeId → Nat → List Contact → List Contact)
    (fnp : FindNodesParams) : Option (FindNodesArgs × List SearchEffect) :=
  let excludes : List Contact := []
  let fna := FindNodesArgs.init fnp.key
  let fna :=
    if fnp.use_routingtable then
      self.AddContactsToContainer (FindCloseNodes fnp.key self.K_ excludes) fna
    else fna
  let fna :=
    if !fnp.start_nodes.isEmpty then
      self.AddContactsToContainer fnp.start_nodes fna
    else fna
  let fna :=
    if !fnp.exclude_nodes.isEmpty then
      { fna with nc := eraseExcludes fna.nc fnp.exclude_nodes }
    else fna
  let alphas := fna.nc.map (fun e => e.contact)
  let alphas := SortContactList fna.key alphas
  let alphas := resizeTo self.K_ alphas
  match alphas.getLast? with
  | none => none
  | some back =>
    let fna := { fna with kth_closest := back.node_id }
    let alphas := resizeTo self.kAlpha alphas
    let fna := { fna with nc := markAlphas fna.round fna.nc alphas }
    some (fna, IterativeSearch fna false false alphas 0)

/-- `NodeImpl::IterativeSearchResponse` (nodeimpl.cc 417-441), on the session
`fna` that `fnrpc->rpc_fna` points to. -/
def NodeImpl.IterativeSearchResponse (self : NodeImpl) (fna : FindNodesArgs)
    (result : Bool) (contacts : List Contact) (fnrpc : FindNodesRpc) :
    Option (FindNodesArgs × List SearchEffect) :=
  let mark := if !result then SEARCH_DOWN else SEARCH_CONTACTED
  let close_nodes : List Contact :=
    if mark = SEARCH_CONTACTED ∧ !contacts.isEmpty then contacts else []
  match self.HandleIterationStructure fnrpc.contact fna fnrpc.round mark
      close_nodes false false with
  | none => none
  | some r =>
    some (r.fna,
      IterativeSearch r.fna r.top_nodes_done r.calledback r.nodes r.nodes_pending)

/-! ## Runs of responses -/

/-- One delivered response: the arguments `IterativeSearchResponse` hands to
`HandleIterationStructure`. -/
structure Response where
  contact : Contact
  round : Int
  mark : SearchMarking
  nodes : List Contact
deriving DecidableEq, Repr

/-- The results of the calls of `HandleIterationStructure` for a sequence of
responses processed one after the other on one session, with the
out-parameters initialised as `IterativeSearchResponse` does.  The run stops
at a call whose behaviour is undefined. -/
def NodeImpl.runResponses (self : NodeImpl) :
    FindNodesArgs → List Response → List IterationResult
  | _, [] => []
  | fna, r :: rs =>
    match self.HandleIterationStructure r.contact fna r.round r.mark r.nodes
        false false with
    | none => []
    | some res => res :: self.runResponses res.fna rs

/-- The result of a call makes `IterativeSearch` invoke the result callback. -/
def IterationResult.fires (r : IterationResult) : Bool :=
  r.top_nodes_done && !r.calledback

/-! ## Properties stated by the specification -/

/-- The container invariant: a contact appears at most once. -/
def ncUnique (nc : NodeContainer) : Prop :=
  (nc.map (fun e => e.contact.node_id)).Nodup

instance (nc : NodeContainer) : Decidable (ncUnique nc) := by
  unfold ncUnique; infer_instance

/-- The state `MarkResponse` gives the responding contact. -/
def markState (mark : SearchMarking) : NodeSearchState :=
  match mark with
  | SEARCH_DOWN => kDown
  | SEARCH_CONTACTED => kContacted

/-- The record `x` with the state of the responding contact, when `x` is the
record of `contact`. -/
def markEntry (contact : Contact) (mark : SearchMarking)
    (x : NodeContainerTuple) : NodeContainerTuple :=
  if x.contact.node_id = contact.node_id then { x with state := markState mark }
  else x

/-- The live contacts of a container: those of the records not in state
`kDown`, in container order. -/
def liveContacts (nc : NodeContainer) : List Contact :=
  (nc.filter (fun e => e.state ≠ kDown)).map (fun e => e.contact)

/-- The distance-sorted live list cut to `K`. -/
def NodeImpl.closestK (self : NodeImpl) (key : NodeId) (nc : NodeContainer) :
    List Contact :=
  (SortContactList key (liveContacts nc)).take self.K_

/-- The contact `c` has a record in the state `s`. -/
def hasState (nc : NodeContainer) (s : NodeSearchState) (c : Contact) : Bool :=
  nc.any (fun e => decide (e.contact = c) && decide (e.state = s))

/-- The contacts are in ascending order of XOR distance to `key`. -/
def ascending (key : NodeId) (nodes : List Contact) : Prop :=
  nodes.Pairwise (fun a b => distance key a.node_id ≤ distance key b.node_id)

instance (key : NodeId) (nodes : List Contact) : Decidable (ascending key nodes) := by
  unfold ascending; infer_instance

/-- The round-advance condition as the specification words it, on the records
of the container: `sent` are those tagged `round`, `replied` those of them in
state `kContacted`. -/
def NodeImpl.roundAdvance (self : NodeImpl) (nc : NodeContainer) (round : Int) :
    Prop :=
  (nc.countP (fun e => e.round = round) > self.kBeta ∧
    nc.countP (fun e => e.round = round ∧ e.state = kContacted) ≥ self.kBeta) ∨
  (nc.countP (fun e => e.round = round) ≤ self.kBeta ∧
    nc.countP (fun e => e.round = round ∧ e.state = kContacted) =
      nc.countP (fun e => e.round = round))

instance (self : NodeImpl) (nc : NodeContainer) (round : Int) :
    Decidable (self.roundAdvance nc round) := by
  unfold NodeImpl.roundAdvance; infer_instance

/-- The termination test as the specification words it: the last contact of
the list is the watermark, no contact of the list is in state `kNew` or
`kSelectedAlpha`, and nothing is pending. -/
def converged (fna : FindNodesArgs) (top : List Contact) : Prop :=
  (∃ back, top.getLast? = some back ∧ back.node_id = fna.kth_closest) ∧
  (∀ c ∈ top, hasState fna.nc kNew c = false ∧
    hasState fna.nc kSelectedAlpha c = false) ∧
  fna.nc.countP (fun e => e.state = kSelectedAlpha) = 0

/-- The returned list holds the closest live contacts: every record that is
not down and whose contact is not in the list is no closer to the key than
every contact of the list, and the list is in ascending distance order. -/
def closestLive (key : NodeId) (nc : NodeContainer) (nodes : List Contact) :
    Prop :=
  (∀ e ∈ nc, e.state ≠ kDown → e.contact ∉ nodes →
    ∀ c ∈ nodes, distance key c.node_id ≤ distance key e.contact.node_id) ∧
  ascending key nodes

instance (key : NodeId) (nc : NodeContainer) (nodes : List Contact) :
    Decidable (closestLive key nc nodes) := by
  unfold closestLive; infer_instance

/-- The record `e` after the selection of the contacts `sel` for the round
`round`. -/
def selectEntry (round : Int) (sel : List Contact) (e : NodeContainerTuple) :
    NodeContainerTuple :=
  if e.contact ∈ sel then { e with state := kSelectedAlpha, round := round }
  else e

/-- The first `kAlpha` contacts of `top` that are in state `kNew`. -/
def NodeImpl.firstNew (self : NodeImpl) (nc : NodeContainer)
    (top : List Contact) : List Contact :=
  (top.filter (hasState nc kNew)).take self.kAlpha

/-- The place of a contact in the order of `CompareContact`: the default
identifier comes first, the others follow by distance. -/
def compareRank (key : NodeId) (c : Contact) : Nat :=
  if c.node_id = kZeroId then 0 else distance key c.node_id + 1

/-! ## Example sessions -/

/-- A node with `K = 2`, `alpha = 2`, `beta = 1`, the parameters of the
scenarios of the specification; new records carry the round tag `-1`. -/
def exNode : NodeImpl := { K_ := 2, kAlpha := 2, kBeta := 1, kTupleRound := -1 }

/-- A contact with the default (all-zero) identifier. -/
def exC0 : Contact := { node_id := 0, endpoint := 100 }

/-- Example contact 1. -/
def exC1 : Contact := { node_id := 1, endpoint := 101 }

/-- Example contact 2. -/
def exC2 : Contact := { node_id := 2, endpoint := 102 }

/-- Example contact 3. -/
def exC3 : Contact := { node_id := 3, endpoint := 103 }

/-- Example contact 5. -/
def exC5 : Contact := { node_id := 5, endpoint := 105 }

/-- Example contact 9. -/
def exC9 : Contact := { node_id := 9, endpoint := 109 }

/-- The lookup of the key 8 started from the contacts 1, 2, 3. -/
def exParams : FindNodesParams :=
  { key := 8, start_nodes := [exC1, exC2, exC3], exclude_nodes := [],
    use_routingtable := false }

/-- A routing table that knows no contact. -/
def exRoutingTable : NodeId → Nat → List Contact → List Contact :=
  fun _ _ _ => []

/-- The session `FindNodes` leaves for `exParams`: contacts 1 and 2 are
selected for round 0, the watermark is contact 2. -/
def exSeeded : FindNodesArgs :=
  { key := 8, kth_closest := 2,
    nc := [{ contact := exC1, state := kSelectedAlpha, round := 0 },
           { contact := exC2, state := kSelectedAlpha, round := 0 },
           { contact := exC3, state := kNew, round := -1 }],
    calledback := false, round := 0 }

/-- The session `exSeeded` after contact 1 has answered with no new contact:
contact 2 is still in flight. -/
def exLast : FindNodesArgs :=
  { key := 8, kth_closest := 2,
    nc := [{ contact := exC1, state := kContacted, round := 0 },
           { contact := exC2, state := kSelectedAlpha, round := 0 },
           { contact := exC3, state := kNew, round := -1 }],
    calledback := false, round := 1 }

/-- The session `exLast` after contact 2 has answered: the lookup is
completed. -/
def exDone : FindNodesArgs :=
  { key := 8, kth_closest := 2,
    nc := [{ contact := exC1, state := kContacted, round := 0 },
           { contact := exC2, state := kContacted, round := 0 },
           { contact := exC3, state := kNew, round := -1 }],
    calledback := true, round := 1 }

/-- The lookup of the key 1 started from the contacts 0 and 1. -/
def exZeroParams : FindNodesParams :=
  { key := 1, start_nodes := [exC0, exC1], exclude_nodes := [],
    use_routingtable := false }

/-- The session of `exZeroParams` after contact 0 has answered with no new
contact: contact 1 is still in flight. -/
def exZeroLast : FindNodesArgs :=
  { key := 1, kth_closest := 1,
    nc := [{ contact := exC0, state := kContacted, round := 0 },
           { contact := exC1, state := kSelectedAlpha, round := 0 }],
    calledback := false, round := 1 }

/-- The session `FindNodes` leaves for the key 1 and the start contact 5. -/
def exFive : FindNodesArgs :=
  { key := 1, kth_closest := 5,
    nc := [{ contact := exC5, state := kSelectedAlpha, round := 0 }],
    calledback := false, round := 0 }

/-- The lookup of the key 8 started from the single contact 1. -/
def exSingleParams : FindNodesParams :=
  { key := 8, start_nodes := [exC1], exclude_nodes := [],
    use_routingtable := false }

/-- The session `FindNodes` leaves for `exSingleParams`. -/
def exSingle : FindNodesArgs :=
  { key := 8, kth_closest := 1,
    nc := [{ contact := exC1, state := kSelectedAlpha, round := 0 }],
    calledback := false, round := 0 }


/-- A lookup of the key 8 with nothing to start from: no start contact, and
the routing table `exRoutingTable` knows no contact. -/
def exEmptyParams : FindNodesParams :=
  { key := 8, start_nodes := [], exclude_nodes := [exC1],
    use_routingtable := true }

/-- The session `exSingle` after the RPC to contact 1 has failed. -/
def exSingleDown : FindNodesArgs :=
  { key := 8, kth_closest := 1,
    nc := [{ contact := exC1, state := kDown, round := 0 }],
    calledback := false, round := 0 }

/-- The seeding part of `FindNodes` (nodeimpl.cc 339-359): the session after
the routing-table contacts and the start contacts have been inserted and the
excluded contacts erased. -/
def NodeImpl.seedArgs (self : NodeImpl)
    (FindCloseNodes : NodeId → Nat → List Contact → List Contact)
    (fnp : FindNodesParams) : FindNodesArgs :=
  let excludes : List Contact := []
  let fna := FindNodesArgs.init fnp.key
  let fna :=
    if fnp.use_routingtable then
      self.AddContactsToContainer (FindCloseNodes fnp.key self.K_ excludes) fna
    else fna
  let fna :=
    if !fnp.start_nodes.isEmpty then
      self.AddContactsToContainer fnp.start_nodes fna
    else fna
  if !fnp.exclude_nodes.isEmpty then
    { fna with nc := eraseExcludes fna.nc fnp.exclude_nodes }
  else fna

/-- The contacts `FindNodes` is given to seed the ledger with: the result of
the routing table, when it is used, followed by the start contacts. -/
def NodeImpl.seedCandidates (self : NodeImpl)
    (FindCloseNodes : NodeId → Nat → List Contact → List Contact)
    (fnp : FindNodesParams) : List Contact :=
  (if fnp.use_routingtable then FindCloseNodes fnp.key self.K_ [] else []) ++
    fnp.start_nodes

/-- A node with `K = 3`, `alpha = 2`, `beta = 1`. -/
def exNode3 : NodeImpl := { K_ := 3, kAlpha := 2, kBeta := 1, kTupleRound := -1 }

/-- Example contact 100. -/
def exC100 : Contact := { node_id := 100, endpoint := 200 }

/-- Five contacts, with the identifiers 1, 2, 3, 5, 9. -/
def exFresh : List Contact := [exC1, exC2, exC3, exC5, exC9]

/-- Five contacts, with the identifiers 9 to 13. -/
def exFresh8 : List Contact :=
  [exC9, { node_id := 10, endpoint := 110 }, { node_id := 11, endpoint := 111 },
   { node_id := 12, endpoint := 112 }, { node_id := 13, endpoint := 113 }]

/-- The session `FindNodes` leaves for the key 0 and the start contact 100,
for any `K ≥ 1` and `alpha ≥ 1`. -/
def exFar : FindNodesArgs :=
  { key := 0, kth_closest := 100,
    nc := [{ contact := exC100, state := kSelectedAlpha, round := 0 }],
    calledback := false, round := 0 }

/-- The session `FindNodes` leaves for the key 8 and the start contact 0,
which has the default identifier. -/
def exZeroSeed : FindNodesArgs :=
  { key := 8, kth_closest := 0,
    nc := [{ contact := exC0, state := kSelectedAlpha, round := 0 }],
    calledback := false, round := 0 }

/-- A node with `K = 6`, `alpha = 3`, `beta = 1`. -/
def exNode6 : NodeImpl := { K_ := 6, kAlpha := 3, kBeta := 1, kTupleRound := -1 }

/-- A node with `K = 1`, `alpha = 2`, `beta = 1`. -/
def exNode1 : NodeImpl := { K_ := 1, kAlpha := 2, kBeta := 1, kTupleRound := -1 }

/-- Two sessions that differ at most in the iteration order of the
container. -/
def sameSession (f g : FindNodesArgs) : Prop :=
  f.key = g.key ∧ f.kth_closest = g.kth_closest ∧ f.calledback = g.calledback ∧
  f.round = g.round ∧ f.nc.Perm g.nc

/-- Two results that differ at most in the iteration order of the
container. -/
def sameResult (r s : IterationResult) : Prop :=
  r.ret = s.ret ∧ r.nodes = s.nodes ∧ r.top_nodes_done = s.top_nodes_done ∧
  r.calledback = s.calledback ∧ r.nodes_pending = s.nodes_pending ∧
  sameSession r.fna s.fna

/-- Example contact 4. -/
def exC4 : Contact := { node_id := 4, endpoint := 104 }

/-- The lookup of the key 5 started from the contacts 0, 4, 5. -/
def exZeroThree : FindNodesParams :=
  { key := 5, start_nodes := [exC0, exC4, exC5], exclude_nodes := [],
    use_routingtable := false }

/-- The result of the call of `HandleIterationStructure` for the answer of contact 2 in
the session `exLast`: the lookup terminates with the contacts 1 and 2. -/
def exDoneResult : IterationResult :=
  { ret := true, fna := exDone, nodes := [exC1, exC2], top_nodes_done := true,
    calledback := false, nodes_pending := 0 }

/-- A session of the key 8 with `K = 3`: contact 1 has failed, contact 2 is in flight,
contact 3 is new. -/
def exOneDown : FindNodesArgs :=
  { key := 8, kth_closest := 3,
    nc := [{ contact := exC1, state := kDown, round := 0 },
           { contact := exC2, state := kSelectedAlpha, round := 0 },
           { contact := exC3, state := kNew, round := -1 }],
    calledback := false, round := 0 }

/-- The result of the call of `HandleIterationStructure` for the answer of contact 2 in
the session `exOneDown`: contact 3 is selected for round 1. -/
def exOneDownResult : IterationResult :=
  { ret := true
    fna := { key := 8, kth_closest := 3,
             nc := [{ contact := exC1, state := kDown, round := 0 },
                    { contact := exC2, state := kContacted, round := 0 },
                    { contact := exC3, state := kSelectedAlpha, round := 1 }],
             calledback := false, round := 1 }
    nodes := [exC3]
    top_nodes_done := false
    calledback := false
    nodes_pending := 0 }

/-- A session of the key 8 started from the contacts 1 and 2 in which contact 1 has
answered and contact 2 has failed: nothing is in flight and the lookup is not
completed. -/
def exStalled : FindNodesArgs :=
  { key := 8, kth_closest := 1,
    nc := [{ contact := exC1, state := kContacted, round := 0 },
           { contact := exC2, state := kDown, round := 0 }],
    calledback := false, round := 2 }

/-- The session states reachable from `FindNodes` by calls of
`HandleIterationStructure` (with the out-parameters initialised as
`IterativeSearchResponse` does) whose session and responding contact fulfil `ok`. -/
inductive NodeImpl.Reached (self : NodeImpl) (ok : FindNodesArgs → Contact → Prop)
    (FindCloseNodes : NodeId → Nat → List Contact → List Contact)
    (fnp : FindNodesParams) : FindNodesArgs → Prop where
  | seed (fna : FindNodesArgs) (effects : List SearchEffect)
      (h : self.FindNodes FindCloseNodes fnp = some (fna, effects)) :
      NodeImpl.Reached self ok FindCloseNodes fnp fna
  | response (fna : FindNodesArgs) (contact : Contact) (round : Int)
      (mark : SearchMarking) (nodes : List Contact) (res : IterationResult)
      (hprev : NodeImpl.Reached self ok FindCloseNodes fnp fna)
      (hok : ok fna contact)
      (h : self.HandleIterationStructure contact fna round mark nodes false false =
        some res) :
      NodeImpl.Reached self ok FindCloseNodes fnp res.fna

/-- The responding contact has a record in the ledger that is not in state `kNew`: the
contact has been selected in some round.  This holds of every call
`IterativeSearchResponse` makes (nodeimpl.cc 433): `fnrpc->contact` is a contact
`IterativeSearch` dispatched, which was set to `kSelectedAlpha` before (316-332,
376-387), and no record returns to `kNew`. -/
def wasSelected (fna : FindNodesArgs) (contact : Contact) : Prop :=
  ∃ e ∈ fna.nc, e.contact.node_id = contact.node_id ∧ e.state ≠ kNew

/-- The number of records tagged `r` that are not in state `kNew`. -/
def selectedInRound (nc : NodeContainer) (r : Int) : Nat :=
  nc.countP (fun e => e.round = r ∧ e.state ≠ kNew)

/-- The contacts sorted by XOR distance to `key` alone, closest first (a stable
sort). -/
def sortByDistance (key : NodeId) (l : List Contact) : List Contact :=
  listSort (fun a b => decide (distance key a.node_id < distance key b.node_id)) l

/-- The distance-sorted live list cut to `K`, as the specification words it. -/
def NodeImpl.distanceTopK (self : NodeImpl) (key : NodeId) (nc : NodeContainer) :
    List Contact :=
  (sortByDistance key (liveContacts nc)).take self.K_

/-- The number of contacts of `live` that are strictly closer to `key` than `c`. -/
def closerCount (key : NodeId) (live : List Contact) (c : Contact) : Nat :=
  live.countP (fun x => decide (distance key x.node_id < distance key c.node_id))

/-- The session `FindNodes` leaves for the key 1 and the start contact 1. -/
def exOneSeed : FindNodesArgs :=
  { key := 1, kth_closest := 1,
    nc := [{ contact := exC1, state := kSelectedAlpha, round := 0 }],
    calledback := false, round := 0 }

end kademlia

/-! ## The listening state of `rudp::Transport` -/

namespace rudp

/-- Modelled from the spec: `ReturnCode` is an enumeration of an absent header; the
codes the listening functions and their test name, and any other code. -/
inductive ReturnCode where
  | kSuccess
  | kAlreadyStarted
  | kInvalidPort
  | other (code : Int)
deriving DecidableEq, Repr

open ReturnCode

/-- Modelled from the spec: `Endpoint` is declared in an absent header; an address and
a port, built as `Endpoint(kIP, 2277)` by the test. -/
structure Endpoint where
  ip : Nat
  port : Nat
deriving DecidableEq, Repr

/-- The members of `Transport` that `StartListening` and `StopListening` read or
write.  `M` is the state of the multiplexer `*multiplexer_`, which is never null: the
constructor and `StopListening` set it to a new `Multiplexer`.  `acceptor` tells
whether `acceptor_` holds an acceptor. -/
structure Transport (M : Type) where
  listening_port : Nat
  multiplexer : M
  acceptor : Bool
  transport_details_endpoint : Endpoint
deriving DecidableEq, Repr

/-- A task handed to `strand_.dispatch` by `StopListening`. -/
inductive StrandTask where
  | CloseAcceptor
  | CloseMultiplexer
deriving DecidableEq, Repr

/-- Modelled from the spec: `Transport::StartListening` is not compiled in this
repository: transport.cc 47-65 holds it commented out, and the transports that the
test `BEH_TRANS_StartStopListening` (transportapitest.h 327-342) instantiates are
absent.  The definition follows the commented-out text.  `Open` is
`Multiplexer::Open` (absent): it returns a code and the multiplexer it leaves.
`StartAccept` and `StartDispatch` start asynchronous work and change none of the
members modelled. -/
def Transport.StartListening {M : Type} (Open : M → Endpoint → ReturnCode × M)
    (t : Transport M) (endpoint : Endpoint) : ReturnCode × Transport M :=
  if t.listening_port ≠ 0 then (kAlreadyStarted, t)
  else
    let r := Open t.multiplexer endpoint
    if r.1 ≠ kSuccess then (r.1, { t with multiplexer := r.2 })
    else
      (kSuccess,
        { listening_port := endpoint.port
          multiplexer := r.2
          acceptor := true
          transport_details_endpoint := { ip := endpoint.ip, port := endpoint.port } })

/-- Modelled from the spec: `Transport::StopListening`, commented out in
transport.cc 67-75, as `StartListening`.  `fresh` is the state of a
`new Multiplexer(asio_service_)`.  Returns the transport and the tasks dispatched on
the strand. -/
def Transport.StopListening {M : Type} (fresh : M) (t : Transport M) :
    Transport M × List StrandTask :=
  ({ t with listening_port := 0, acceptor := false, multiplexer := fresh },
    (if t.acceptor then [StrandTask.CloseAcceptor] else []) ++
      [StrandTask.CloseMultiplexer])

/-- Modelled from the spec: the transport the constructor leaves: it listens on no
port, `acceptor_` is empty and the multiplexer is new. -/
def Transport.init {M : Type} (fresh : M) : Transport M :=
  { listening_port := 0, multiplexer := fresh, acceptor := false,
    transport_details_endpoint := { ip := 0, port := 0 } }

/-- An example multiplexer, whose state tells whether it is open: `Open` refuses port 0
with `kInvalidPort` and succeeds on every other port. -/
def exOpen (m : Bool) (endpoint : Endpoint) : ReturnCode × Bool :=
  if endpoint.port = 0 then (kInvalidPort, m) else (kSuccess, true)

/-- The example transport after `StartListening(Endpoint(kIP, 2277))`. -/
def exListening : Transport Bool :=
  { listening_port := 2277, multiplexer := true, acceptor := true,
    transport_details_endpoint := { ip := 1, port := 2277 } }

/-- Modelled from the spec: `ConnectionPtr` is a shared pointer to a `Connection`
(absent `connection.h`); pointers are compared by address, which is the number. -/
abbrev ConnectionPtr := Nat

/-- The members of `Transport` that `DoInsertConnection`, `DoRemoveConnection` and
`ConnectionsCount` read or write.  Modelled from the spec: `connections_` is declared
in the absent `transport.h`; it is a set of connection pointers (`insert`, `erase` by
value, `size`, `empty`).  `managed_connections` tells whether
`managed_connections_.lock()` yields a `ManagedConnections`. -/
structure TransportConnections where
  connections : Finset ConnectionPtr
  managed_connections : Bool
deriving DecidableEq

/-- A call on the `ManagedConnections` object (absent `managed_connections.h`); the
transport argument of `InsertEndpoint` and `RemoveTransport` is `shared_from_this()`. -/
inductive ManagedCall where
  | InsertEndpoint (peer : Endpoint)
  | RemoveEndpoint (peer : Endpoint)
  | RemoveTransport
deriving DecidableEq, Repr

/-- `Transport::ConnectionsCount` (transport.cc 122-125).  `size_t` is an unbounded
number here: the size of a set in memory does not reach `2^64`. -/
def Transport.ConnectionsCount (t : TransportConnections) : Nat :=
  t.connections.card

/-- `Transport::DoInsertConnection` (transport.cc 215-223).  `RemoteEndpoint` is
`connection->Socket().RemoteEndpoint()`.  Returns the transport and the calls made on
the `ManagedConnections`. -/
def Transport.DoInsertConnection (RemoteEndpoint : ConnectionPtr → Endpoint)
    (t : TransportConnections) (connection : ConnectionPtr) :
    TransportConnections × List ManagedCall :=
  let t := { t with connections := insert connection t.connections }
  if t.managed_connections then
    (t, [ManagedCall.InsertEndpoint (RemoteEndpoint connection)])
  else (t, [])

/-- `Transport::DoRemoveConnection` (transport.cc 230-239).  Returns the transport and
the calls made on the `ManagedConnections`. -/
def Transport.DoRemoveConnection (RemoteEndpoint : ConnectionPtr → Endpoint)
    (t : TransportConnections) (connection : ConnectionPtr) :
    TransportConnections × List ManagedCall :=
  let t := { t with connections := t.connections.erase connection }
  if t.managed_connections then
    (t, [ManagedCall.RemoveEndpoint (RemoteEndpoint connection)] ++
      (if t.connections = ∅ then [ManagedCall.RemoveTransport] else []))
  else (t, [])

/-- An example socket table: the connection `c` is connected to port `5000 + c`. -/
def exRemote (c : ConnectionPtr) : Endpoint := { ip := 1, port := 5000 + c }

/-- An example transport with the connections 7 and 9, attached to a
`ManagedConnections`. -/
def exTwoConnections : TransportConnections :=
  { connections := {7, 9}, managed_connections := true }

end rudp

namespace kademlia

open NodeSearchState SearchMarking

/-! ## Auxiliary lemmas -/

theorem his_completed (self : NodeImpl) (contact : Contact) (fna : FindNodesArgs)
    (round : Int) (mark : SearchMarking) (nodes : List Contact) (d c : Bool)
    (h : fna.calledback = true) :
    self.HandleIterationStructure contact fna round mark nodes d c =
      some { ret := true, fna := fna, nodes := [], top_nodes_done := true,
             calledback := true, nodes_pending := NodesPending fna } := by
  simp [NodeImpl.HandleIterationStructure, h]

theorem markResponse_calledback (self : NodeImpl) (contact : Contact)
    (fna : FindNodesArgs) (mark : SearchMarking) (nodes : List Contact) :
    (self.MarkResponse contact fna mark nodes).2.1.calledback = fna.calledback ∧
    (self.MarkResponse contact fna mark nodes).2.1.round = fna.round ∧
    (self.MarkResponse contact fna mark nodes).2.1.kth_closest = fna.kth_closest ∧
    (self.MarkResponse contact fna mark nodes).2.1.key = fna.key := by
  unfold NodeImpl.MarkResponse
  simp only
  split <;> simp

/-- What `nextIteration` returns, by cases. -/
theorem nextIteration_cases (self : NodeImpl) (b : Bool) (fna : FindNodesArgs)
    (nodes : List Contact) (d c : Bool) (np : Nat) (res : IterationResult)
    (h : self.nextIteration b fna nodes d c np = some res) :
    (res.top_nodes_done = true ∧ res.calledback = fna.calledback ∧
      res.fna = { fna with calledback := true } ∧
      res.nodes = self.topNodes fna nodes) ∨
    (res.top_nodes_done = d ∧ res.calledback = c ∧
      res.fna.calledback = fna.calledback ∧ res.fna.round = fna.round + 1) := by
  unfold NodeImpl.nextIteration at h
  simp only at h
  split at h
  · simp at h
  · split at h
    · left
      simp only [Option.some.injEq] at h
      subst h
      simp
    · right
      simp only [Option.some.injEq] at h
      subst h
      simp

theorem his_fires_sets_flag (self : NodeImpl) (contact : Contact)
    (fna : FindNodesArgs) (round : Int) (mark : SearchMarking)
    (nodes : List Contact) (res : IterationResult)
    (hc : fna.calledback = false)
    (h : self.HandleIterationStructure contact fna round mark nodes false false
      = some res) :
    (res.top_nodes_done = true → res.calledback = false ∧ res.fna.calledback = true) ∧
    (res.top_nodes_done = false → res.fna.calledback = false) := by
  unfold NodeImpl.HandleIterationStructure at h
  simp only [hc, Bool.false_eq_true, if_false] at h
  have hm := markResponse_calledback self contact fna mark nodes
  split at h
  · rcases nextIteration_cases _ _ _ _ _ _ _ _ h with ⟨h1, h2, h3, _⟩ | ⟨h1, h2, h3, _⟩
    · simp [h1, h2, h3, hm.1, hc]
    · simp [h1, h2, h3, hm.1, hc]
  · simp only [Option.some.injEq] at h
    subst h
    simp [hm.1, hc]

theorem run_completed (self : NodeImpl) (rs : List Response) :
    ∀ fna : FindNodesArgs, fna.calledback = true →
      ∀ x ∈ self.runResponses fna rs,
        x.top_nodes_done = true ∧ x.calledback = true := by
  induction rs with
  | nil => intro fna _ x hx; simp [NodeImpl.runResponses] at hx
  | cons r rs ih =>
    intro fna hc x hx
    rw [NodeImpl.runResponses, his_completed self _ _ _ _ _ _ _ hc] at hx
    simp only [List.mem_cons] at hx
    rcases hx with rfl | hx
    · simp
    · exact ih fna hc x hx

theorem run_completed_countP (self : NodeImpl) (rs : List Response)
    (fna : FindNodesArgs) (hc : fna.calledback = true) :
    (self.runResponses fna rs).countP IterationResult.fires = 0 := by
  rw [List.countP_eq_zero]
  intro x hx
  have := run_completed self rs fna hc x hx
  simp [IterationResult.fires, this.1, this.2]

theorem resizeTo_eq_take (n : Nat) (l : List Contact) : resizeTo n l = l.take n := by
  unfold resizeTo
  split
  · rfl
  · rw [List.take_of_length_le (by omega)]

theorem insertResponseNodes_snd (self : NodeImpl) (nodes : List Contact) :
    ∀ nc : NodeContainer, (self.insertResponseNodes nc nodes).2 = [] := by
  induction nodes with
  | nil => intro nc; rfl
  | cons c cs ih => intro nc; rw [NodeImpl.insertResponseNodes]; exact ih _

theorem markResponse_nodes (self : NodeImpl) (contact : Contact)
    (fna : FindNodesArgs) (mark : SearchMarking) (nodes : List Contact) :
    (self.MarkResponse contact fna mark nodes).2.2 = [] := by
  unfold NodeImpl.MarkResponse
  simp only
  split <;> simp [insertResponseNodes_snd]

theorem listInsert_perm {α : Type} (comp : α → α → Bool) (x : α) (l : List α) :
    (listInsert comp x l).Perm (x :: l) := by
  induction l with
  | nil => simp [listInsert]
  | cons y ys ih =>
    rw [listInsert]
    split
    · exact (List.Perm.cons y ih).trans (List.Perm.swap x y ys)
    · exact List.Perm.refl _

theorem listSort_perm {α : Type} (comp : α → α → Bool) (l : List α) :
    (listSort comp l).Perm l := by
  induction l with
  | nil => simp [listSort]
  | cons x xs ih =>
    rw [listSort]
    exact (listInsert_perm comp x _).trans (List.Perm.cons x ih)

theorem sortContactList_perm (key : NodeId) (l : List Contact) :
    (SortContactList key l).Perm l := by
  unfold SortContactList
  split
  · exact List.Perm.refl _
  · have h := (listSort_perm CompareContact
      (l.map (fun c => ({ contact := c, target_key := key } : ContactAndTargetKey)))).map
      (fun ck => ck.contact)
    simpa [List.map_map, Function.comp_def] using h

theorem topNodes_eq (self : NodeImpl) (fna : FindNodesArgs) :
    self.topNodes fna [] =
      (SortContactList fna.key
        ((fna.nc.filter (fun e => e.state ≠ kDown)).map (fun e => e.contact))).take
        self.K_ := by
  simp [NodeImpl.topNodes, resizeTo_eq_take, pushLive]

theorem topNodes_length (self : NodeImpl) (fna : FindNodesArgs) :
    (self.topNodes fna []).length =
      min self.K_ (fna.nc.countP (fun e => e.state ≠ kDown)) := by
  rw [topNodes_eq, List.length_take, (sortContactList_perm _ _).length_eq,
    List.length_map, List.countP_eq_length_filter]

/-- The two ways a call on a session that is not completed can end. -/
theorem his_not_completed (self : NodeImpl) (contact : Contact)
    (fna : FindNodesArgs) (round : Int) (mark : SearchMarking)
    (nodes : List Contact) (d c : Bool) (hc : fna.calledback = false) :
    self.HandleIterationStructure contact fna round mark nodes d c =
      if self.roundDone
          (alphasSent (self.MarkResponse contact fna mark nodes).2.1.nc round)
          (alphasReplied (self.MarkResponse contact fna mark nodes).2.1.nc round)
      then
        self.nextIteration (self.MarkResponse contact fna mark nodes).1
          (self.MarkResponse contact fna mark nodes).2.1 [] d c
          (NodesPending (self.MarkResponse contact fna mark nodes).2.1)
      else
        some { ret := (self.MarkResponse contact fna mark nodes).1
               fna := (self.MarkResponse contact fna mark nodes).2.1
               nodes := []
               top_nodes_done := d
               calledback := c
               nodes_pending :=
                 NodesPending (self.MarkResponse contact fna mark nodes).2.1 } := by
  unfold NodeImpl.HandleIterationStructure
  simp only [hc, Bool.false_eq_true, if_false, markResponse_nodes]

theorem his_terminated (self : NodeImpl) (contact : Contact)
    (fna : FindNodesArgs) (round : Int) (mark : SearchMarking)
    (nodes : List Contact) (res : IterationResult)
    (hc : fna.calledback = false)
    (h : self.HandleIterationStructure contact fna round mark nodes false false
      = some res)
    (hd : res.top_nodes_done = true) :
    res.fna = { (self.MarkResponse contact fna mark nodes).2.1 with
                calledback := true } ∧
    res.nodes = self.topNodes (self.MarkResponse contact fna mark nodes).2.1 [] := by
  rw [his_not_completed self contact fna round mark nodes false false hc] at h
  split at h
  · rcases nextIteration_cases _ _ _ _ _ _ _ _ h with ⟨_, _, h3, h4⟩ | ⟨h1, _⟩
    · exact ⟨h3, h4⟩
    · rw [hd] at h1; exact absurd h1 (by simp)
  · simp only [Option.some.injEq] at h
    subst h
    simp at hd

theorem alphasSent_eq (nc : NodeContainer) (round : Int) :
    alphasSent nc round = nc.countP (fun e => e.round = round) := by
  rw [alphasSent, List.countP_eq_length_filter]

theorem alphasReplied_eq (nc : NodeContainer) (round : Int) :
    alphasReplied nc round =
      nc.countP (fun e => e.round = round ∧ e.state = kContacted) := by
  rw [alphasReplied, List.countP_eq_length_filter, List.filter_filter]
  congr 1
  apply List.filter_congr
  intro x _
  simp [Bool.and_comm]

theorem roundDone_iff (self : NodeImpl) (s r : Nat) :
    self.roundDone s r = true ↔
      ((s > self.kBeta ∧ r ≥ self.kBeta) ∨ (s ≤ self.kBeta ∧ r = s)) := by
  simp [NodeImpl.roundDone]

theorem ncFind_some {nc : NodeContainer} {c : Contact} {e : NodeContainerTuple}
    (h : ncFind nc c = some e) : e ∈ nc ∧ e.contact.node_id = c.node_id := by
  unfold ncFind at h
  refine ⟨List.mem_of_find?_eq_some h, ?_⟩
  have := List.find?_some h
  simpa [sameContact] using this

theorem ncFind_none {nc : NodeContainer} {c : Contact} :
    ncFind nc c = none ↔ ∀ e ∈ nc, e.contact.node_id ≠ c.node_id := by
  unfold ncFind
  rw [List.find?_eq_none]
  simp [sameContact]

theorem ncUnique_eq_of_id {nc : NodeContainer} (hu : ncUnique nc)
    {a b : NodeContainerTuple} (ha : a ∈ nc) (hb : b ∈ nc)
    (hid : a.contact.node_id = b.contact.node_id) : a = b :=
  List.inj_on_of_nodup_map hu ha hb hid

theorem ncFind_of_mem {nc : NodeContainer} (hu : ncUnique nc) {c : Contact}
    {e : NodeContainerTuple} (he : e ∈ nc) (hid : e.contact.node_id = c.node_id) :
    ncFind nc c = some e := by
  cases h : ncFind nc c with
  | none => exact absurd hid (ncFind_none.1 h e he)
  | some e' =>
    obtain ⟨h1, h2⟩ := ncFind_some h
    rw [ncUnique_eq_of_id hu h1 he (h2.trans hid.symm)]

theorem ncReplace_eq_map (c : Contact) (t : NodeContainerTuple) :
    ∀ nc : NodeContainer, ncUnique nc → t.contact.node_id = c.node_id →
      ncReplace c t nc =
        nc.map (fun x => if x.contact.node_id = c.node_id then t else x) := by
  intro nc
  induction nc with
  | nil => intro _ _; rfl
  | cons e es ih =>
    intro hu ht
    have hu' : ncUnique es := (List.nodup_cons.1 hu).2
    have hne : e.contact.node_id ∉ es.map (fun x => x.contact.node_id) :=
      (List.nodup_cons.1 hu).1
    rw [ncReplace]
    by_cases hm : e.contact.node_id = c.node_id
    · have hs : sameContact c e = true := by simp [sameContact, hm]
      rw [if_pos hs, List.map_cons, if_pos hm]
      congr 1
      have hid : List.map (fun x => if x.contact.node_id = c.node_id then t else x) es
          = List.map id es := by
        apply List.map_congr_left
        intro x hx
        have hxe : x.contact.node_id ≠ c.node_id := by
          intro hxc
          apply hne
          rw [hm, ← hxc]
          exact List.mem_map_of_mem _ hx
        rw [if_neg hxe]; rfl
      rw [hid, List.map_id]
    · have hs : ¬ sameContact c e = true := by simp [sameContact, hm]
      rw [if_neg hs, List.map_cons, if_neg hm, ih hu' ht]

theorem ncReplace_ids (c : Contact) (t : NodeContainerTuple)
    (ht : t.contact.node_id = c.node_id) :
    ∀ nc : NodeContainer, (ncReplace c t nc).map (fun e => e.contact.node_id) =
      nc.map (fun e => e.contact.node_id) := by
  intro nc
  induction nc with
  | nil => rfl
  | cons e es ih =>
    rw [ncReplace]
    by_cases hs : sameContact c e = true
    · rw [if_pos hs]
      have : e.contact.node_id = c.node_id := by simpa [sameContact] using hs
      simp [ht, this]
    · rw [if_neg hs, List.map_cons, List.map_cons, ih]

theorem ncReplace_unique (c : Contact) (t : NodeContainerTuple)
    (ht : t.contact.node_id = c.node_id) (nc : NodeContainer)
    (hu : ncUnique nc) : ncUnique (ncReplace c t nc) := by
  unfold ncUnique
  rw [ncReplace_ids c t ht]
  exact hu

theorem ncInsert_eq (nc : NodeContainer) (t : NodeContainerTuple) :
    ncInsert nc t =
      if ∃ e ∈ nc, e.contact.node_id = t.contact.node_id then nc else nc ++ [t] := by
  unfold ncInsert
  cases h : ncFind nc t.contact with
  | none =>
    have := ncFind_none.1 h
    rw [if_neg]
    rintro ⟨e, he, hid⟩
    exact this e he hid
  | some e =>
    obtain ⟨h1, h2⟩ := ncFind_some h
    rw [if_pos ⟨e, h1, h2⟩]

theorem ncInsert_unique (nc : NodeContainer) (t : NodeContainerTuple)
    (hu : ncUnique nc) : ncUnique (ncInsert nc t) := by
  rw [ncInsert_eq]
  split
  · exact hu
  · rename_i hn
    unfold ncUnique at *
    rw [List.map_append, List.nodup_append]
    refine ⟨hu, by simp, ?_⟩
    intro a ha hb
    simp only [List.map_cons, List.map_nil, List.mem_singleton] at hb
    rw [List.mem_map] at ha
    obtain ⟨e, he, hid⟩ := ha
    exact hn ⟨e, he, hid.trans hb⟩

/-- What the insertion loop does to the container: the old records stay where
they are, and a new record in state `kNew` is appended for each contact that
has none. -/
theorem insertResponseNodes_spec (self : NodeImpl) (nodes : List Contact) :
    ∀ nc : NodeContainer, ∃ added : NodeContainer,
      (self.insertResponseNodes nc nodes).1 = nc ++ added ∧
      (∀ a ∈ added, a.state = kNew ∧ a.round = self.kTupleRound ∧
        a.contact ∈ nodes ∧ ∀ x ∈ nc, x.contact.node_id ≠ a.contact.node_id) ∧
      (ncUnique nc → ncUnique (nc ++ added)) ∧
      (∀ c ∈ nodes, ∃ e ∈ nc ++ added, e.contact.node_id = c.node_id) := by
  induction nodes with
  | nil =>
    intro nc
    exact ⟨[], by simp [NodeImpl.insertResponseNodes], by simp, by simp, by simp⟩
  | cons c cs ih =>
    intro nc
    rw [NodeImpl.insertResponseNodes]
    have hins := ncInsert_eq nc (self.newTuple c)
    by_cases hex : ∃ e ∈ nc, e.contact.node_id = (self.newTuple c).contact.node_id
    · rw [if_pos hex] at hins
      rw [hins]
      obtain ⟨added, h1, h2, h3, h4⟩ := ih nc
      refine ⟨added, h1, ?_, h3, ?_⟩
      · intro a ha
        obtain ⟨q1, q2, q3, q4⟩ := h2 a ha
        exact ⟨q1, q2, List.mem_cons_of_mem _ q3, q4⟩
      · intro c' hc'
        rcases List.mem_cons.1 hc' with rfl | hc'
        · obtain ⟨e, he, hid⟩ := hex
          exact ⟨e, List.mem_append_left _ he, hid⟩
        · exact h4 c' hc'
    · rw [if_neg hex] at hins
      rw [hins]
      obtain ⟨added, h1, h2, h3, h4⟩ := ih (nc ++ [self.newTuple c])
      refine ⟨self.newTuple c :: added, ?_, ?_, ?_, ?_⟩
      · rw [h1]; simp
      · intro a ha
        rcases List.mem_cons.1 ha with rfl | ha
        · refine ⟨rfl, rfl, List.mem_cons_self _ _, ?_⟩
          intro x hx hid
          exact hex ⟨x, hx, hid⟩
        · obtain ⟨q1, q2, q3, q4⟩ := h2 a ha
          exact ⟨q1, q2, List.mem_cons_of_mem _ q3,
            fun x hx => q4 x (List.mem_append_left _ hx)⟩
      · intro hu
        have := h3 (by rw [← hins]; exact ncInsert_unique nc _ hu)
        simpa using this
      · intro c' hc'
        rcases List.mem_cons.1 hc' with rfl | hc'
        · exact ⟨self.newTuple c', by simp, rfl⟩
        · obtain ⟨e, he, hid⟩ := h4 c' hc'
          exact ⟨e, by simpa using he, hid⟩

theorem addContacts_eq_insert (self : NodeImpl) (contacts : List Contact) :
    ∀ nc : NodeContainer,
      contacts.foldl (fun nc c => ncInsert nc (self.newTuple c)) nc =
        (self.insertResponseNodes nc contacts).1 := by
  induction contacts with
  | nil => intro nc; rfl
  | cons c cs ih => intro nc; rw [List.foldl_cons, NodeImpl.insertResponseNodes, ih]

theorem markResponse_spec (self : NodeImpl) (contact : Contact)
    (fna : FindNodesArgs) (mark : SearchMarking) (nodes : List Contact)
    (hu : ncUnique (self.insertResponseNodes fna.nc nodes).1) :
    ((∃ e ∈ (self.insertResponseNodes fna.nc nodes).1,
          e.contact.node_id = contact.node_id) →
      (self.MarkResponse contact fna mark nodes).1 = true ∧
      (self.MarkResponse contact fna mark nodes).2.1.nc =
        (self.insertResponseNodes fna.nc nodes).1.map (markEntry contact mark)) ∧
    ((∀ e ∈ (self.insertResponseNodes fna.nc nodes).1,
          e.contact.node_id ≠ contact.node_id) →
      (self.MarkResponse contact fna mark nodes).1 = false ∧
      (self.MarkResponse contact fna mark nodes).2.1.nc =
        (self.insertResponseNodes fna.nc nodes).1) := by
  constructor
  · rintro ⟨e, he, hid⟩
    have hf := ncFind_of_mem hu he hid
    unfold NodeImpl.MarkResponse
    simp only [hf]
    refine ⟨trivial, ?_⟩
    rw [ncReplace_eq_map _ _ _ hu (by split <;> exact hid)]
    apply List.map_congr_left
    intro x hx
    unfold markEntry
    by_cases hx2 : x.contact.node_id = contact.node_id
    · rw [if_pos hx2, if_pos hx2]
      have : x = e := ncUnique_eq_of_id hu hx he (hx2.trans hid.symm)
      subst this
      cases mark <;> simp [markState]
    · rw [if_neg hx2, if_neg hx2]
  · intro hn
    have hf := ncFind_none.2 hn
    unfold NodeImpl.MarkResponse
    simp only [hf]
    exact ⟨trivial, trivial⟩

theorem markEntry_id (contact : Contact) (mark : SearchMarking)
    (x : NodeContainerTuple) :
    (markEntry contact mark x).contact = x.contact ∧
    (markEntry contact mark x).round = x.round := by
  unfold markEntry
  split <;> simp

theorem map_markEntry_unique (contact : Contact) (mark : SearchMarking)
    (nc : NodeContainer) (hu : ncUnique nc) :
    ncUnique (nc.map (markEntry contact mark)) := by
  unfold ncUnique at *
  rw [List.map_map]
  have : ((fun e => e.contact.node_id) ∘ markEntry contact mark) =
      (fun e : NodeContainerTuple => e.contact.node_id) := by
    funext x
    simp [(markEntry_id contact mark x).1]
  rw [this]
  exact hu

theorem markResponse_unique (self : NodeImpl) (contact : Contact)
    (fna : FindNodesArgs) (mark : SearchMarking) (nodes : List Contact)
    (hu : ncUnique fna.nc) :
    ncUnique (self.MarkResponse contact fna mark nodes).2.1.nc := by
  obtain ⟨added, h1, _, h3, _⟩ := insertResponseNodes_spec self nodes fna.nc
  have hu1 : ncUnique (self.insertResponseNodes fna.nc nodes).1 := by
    rw [h1]; exact h3 hu
  have hs := markResponse_spec self contact fna mark nodes hu1
  by_cases hex : ∃ e ∈ (self.insertResponseNodes fna.nc nodes).1,
      e.contact.node_id = contact.node_id
  · rw [(hs.1 hex).2]
    exact map_markEntry_unique _ _ _ hu1
  · rw [(hs.2 (by simpa using hex)).2]
    exact hu1

theorem roundDone_iff_roundAdvance (self : NodeImpl) (nc : NodeContainer)
    (round : Int) :
    self.roundDone (alphasSent nc round) (alphasReplied nc round) = true ↔
      self.roundAdvance nc round := by
  rw [roundDone_iff, alphasSent_eq, alphasReplied_eq, NodeImpl.roundAdvance]

theorem topNodes_eq_closestK (self : NodeImpl) (fna : FindNodesArgs) :
    self.topNodes fna [] = self.closestK fna.key fna.nc := by
  rw [topNodes_eq, NodeImpl.closestK, liveContacts]

theorem mem_liveContacts {nc : NodeContainer} {c : Contact} :
    c ∈ liveContacts nc ↔ ∃ e ∈ nc, e.state ≠ kDown ∧ e.contact = c := by
  simp [liveContacts, and_assoc]

theorem mem_closestK {self : NodeImpl} {key : NodeId} {nc : NodeContainer}
    {c : Contact} (h : c ∈ self.closestK key nc) :
    ∃ e ∈ nc, e.state ≠ kDown ∧ e.contact = c := by
  have h1 : c ∈ SortContactList key (liveContacts nc) := List.mem_of_mem_take h
  exact mem_liveContacts.1 ((sortContactList_perm key _).mem_iff.1 h1)

theorem liveContacts_ids_nodup {nc : NodeContainer} (hu : ncUnique nc) :
    ((liveContacts nc).map (fun c => c.node_id)).Nodup := by
  unfold liveContacts
  rw [List.map_map]
  exact List.Nodup.sublist (List.Sublist.map _ (List.filter_sublist _)) hu

theorem closestK_ids_nodup (self : NodeImpl) (key : NodeId) {nc : NodeContainer}
    (hu : ncUnique nc) :
    ((self.closestK key nc).map (fun c => c.node_id)).Nodup := by
  have hp := (sortContactList_perm key (liveContacts nc)).map (fun c => c.node_id)
  have hn := hp.nodup_iff.2 (liveContacts_ids_nodup hu)
  exact List.Nodup.sublist (List.Sublist.map _ (List.take_sublist _ _)) hn

/-- The state the container lookup finds for a contact. -/
theorem ncFind_state {nc : NodeContainer} (hu : ncUnique nc) {c : Contact}
    (hc : ∃ e ∈ nc, e.contact = c) (s : NodeSearchState) :
    (∃ e, ncFind nc c = some e ∧ e.contact = c) ∧
    (hasState nc s c = true ↔ ∃ e, ncFind nc c = some e ∧ e.state = s) := by
  obtain ⟨e, he, hec⟩ := hc
  have hf := ncFind_of_mem hu he (by rw [hec])
  refine ⟨⟨e, hf, hec⟩, ?_⟩
  constructor
  · intro h
    simp only [hasState, List.any_eq_true, Bool.and_eq_true, decide_eq_true_eq] at h
    obtain ⟨x, hx, hxc, hxs⟩ := h
    have : x = e := ncUnique_eq_of_id hu hx he (by rw [hxc, hec])
    exact ⟨e, hf, this ▸ hxs⟩
  · rintro ⟨e', hf', hs⟩
    rw [hf] at hf'
    simp only [Option.some.injEq] at hf'
    subst hf'
    simp only [hasState, List.any_eq_true, Bool.and_eq_true, decide_eq_true_eq]
    exact ⟨e, he, hec, hs⟩

theorem countTop_spec (nc : NodeContainer) (hu : ncUnique nc) :
    ∀ (l : List Contact) (acc : TopCount), (∀ c ∈ l, ∃ e ∈ nc, e.contact = c) →
      countTop nc l acc =
        { new_nodes := acc.new_nodes + l.countP (hasState nc kNew)
          contacted_nodes := acc.contacted_nodes + l.countP (hasState nc kContacted)
          alpha_nodes := acc.alpha_nodes + l.countP (hasState nc kSelectedAlpha) } := by
  intro l
  induction l with
  | nil => intro acc _; simp [countTop]
  | cons c rest ih =>
    intro acc hl
    have hrest : ∀ c ∈ rest, ∃ e ∈ nc, e.contact = c :=
      fun c' hc' => hl c' (List.mem_cons_of_mem _ hc')
    have hc := hl c (List.mem_cons_self _ _)
    obtain ⟨⟨e, hf, _⟩, hN⟩ := ncFind_state hu hc kNew
    have hC := (ncFind_state hu hc kContacted).2
    have hA := (ncFind_state hu hc kSelectedAlpha).2
    rw [hf] at hN hC hA
    simp only [Option.some.injEq, exists_eq_left'] at hN hC hA
    rw [countTop, hf]
    simp only [List.countP_cons]
    by_cases h1 : e.state = kNew
    · have n1 : hasState nc kNew c = true := hN.2 h1
      have n2 : ¬ hasState nc kContacted c = true := fun h => by
        have := hC.1 h; rw [h1] at this; exact absurd this (by decide)
      have n3 : ¬ hasState nc kSelectedAlpha c = true := fun h => by
        have := hA.1 h; rw [h1] at this; exact absurd this (by decide)
      rw [if_pos h1, ih _ hrest]
      simp [n1, n2, n3, Nat.add_assoc, Nat.add_comm 1]
    · have n1 : ¬ hasState nc kNew c = true := fun h => h1 (hN.1 h)
      rw [if_neg h1]
      by_cases h2 : e.state = kSelectedAlpha
      · have n2 : ¬ hasState nc kContacted c = true := fun h => by
          have := hC.1 h; rw [h2] at this; exact absurd this (by decide)
        have n3 : hasState nc kSelectedAlpha c = true := hA.2 h2
        rw [if_pos h2, ih _ hrest]
        simp [n1, n2, n3, Nat.add_assoc, Nat.add_comm 1]
      · have n3 : ¬ hasState nc kSelectedAlpha c = true := fun h => h2 (hA.1 h)
        rw [if_neg h2]
        by_cases h3 : e.state = kContacted
        · have n2 : hasState nc kContacted c = true := hC.2 h3
          rw [if_pos h3, ih _ hrest]
          simp [n1, n2, n3, Nat.add_assoc, Nat.add_comm 1]
        · have n2 : ¬ hasState nc kContacted c = true := fun h => h3 (hC.1 h)
          rw [if_neg h3, ih _ hrest]
          simp [n1, n2, n3]

theorem nextIteration_spec (self : NodeImpl) (b : Bool) (fna : FindNodesArgs)
    (d c : Bool) (hu : ncUnique fna.nc) :
    (converged fna (self.closestK fna.key fna.nc) →
      self.nextIteration b fna [] d c (NodesPending fna) =
        some { ret := b
               fna := { fna with calledback := true }
               nodes := self.closestK fna.key fna.nc
               top_nodes_done := true
               calledback := fna.calledback
               nodes_pending := NodesPending fna }) ∧
    (¬ converged fna (self.closestK fna.key fna.nc) →
      ∀ back, (self.closestK fna.key fna.nc).getLast? = some back →
      self.nextIteration b fna [] d c (NodesPending fna) =
        some { ret := b
               fna := { fna with
                 kth_closest := back.node_id
                 round := fna.round + 1
                 nc := (self.selectAlphas (fna.round + 1) fna.nc
                   (self.closestK fna.key fna.nc) 0 []).1 }
               nodes := (self.selectAlphas (fna.round + 1) fna.nc
                   (self.closestK fna.key fna.nc) 0 []).2
               top_nodes_done := d
               calledback := c
               nodes_pending := NodesPending fna }) ∧
    ((self.closestK fna.key fna.nc).getLast? = none →
      self.nextIteration b fna [] d c (NodesPending fna) = none) := by
  have hcnt := countTop_spec fna.nc hu (self.closestK fna.key fna.nc)
    { new_nodes := 0, contacted_nodes := 0, alpha_nodes := 0 }
    (fun c hc => by
      obtain ⟨e, he, _, hec⟩ := mem_closestK hc
      exact ⟨e, he, hec⟩)
  have hnp : NodesPending fna = fna.nc.countP (fun e => e.state = kSelectedAlpha) := by
    rw [NodesPending, List.countP_eq_length_filter]
  have key : ∀ back, (self.closestK fna.key fna.nc).getLast? = some back →
      ((back.node_id = fna.kth_closest ∧
        (countTop fna.nc (self.closestK fna.key fna.nc)
          { new_nodes := 0, contacted_nodes := 0, alpha_nodes := 0 }).new_nodes = 0 ∧
        (countTop fna.nc (self.closestK fna.key fna.nc)
          { new_nodes := 0, contacted_nodes := 0, alpha_nodes := 0 }).alpha_nodes = 0 ∧
        NodesPending fna = 0) ↔ converged fna (self.closestK fna.key fna.nc)) := by
    intro back hback
    rw [hcnt, hnp]
    simp only [converged, hback, Option.some.injEq, exists_eq_left', Nat.zero_add,
      List.countP_eq_zero, Bool.not_eq_true]
    constructor
    · rintro ⟨h1, h2, h3, h4⟩
      exact ⟨h1, fun c hc => ⟨h2 c hc, h3 c hc⟩, h4⟩
    · rintro ⟨h1, h2, h4⟩
      exact ⟨h1, fun c hc => (h2 c hc).1, fun c hc => (h2 c hc).2, h4⟩
  refine ⟨?_, ?_, ?_⟩
  · intro hconv
    obtain ⟨⟨back, hback, _⟩, _⟩ := id hconv
    unfold NodeImpl.nextIteration
    simp only [topNodes_eq_closestK, hback]
    rw [if_pos ((key back hback).2 hconv)]
  · intro hconv back hback
    unfold NodeImpl.nextIteration
    simp only [topNodes_eq_closestK, hback]
    rw [if_neg (fun h => hconv ((key back hback).1 h))]
  · intro hnone
    unfold NodeImpl.nextIteration
    simp only [topNodes_eq_closestK, hnone]

theorem listInsert_sorted {α : Type} (comp : α → α → Bool) (k : α → Nat) (x : α) :
    ∀ l : List α, (∀ a ∈ x :: l, ∀ b ∈ x :: l, comp a b = decide (k a < k b)) →
      l.Pairwise (fun a b => k a ≤ k b) →
      (listInsert comp x l).Pairwise (fun a b => k a ≤ k b) := by
  intro l
  induction l with
  | nil => intro _ _; simp [listInsert]
  | cons y ys ih =>
    intro hcomp hs
    rw [listInsert]
    have hyx : comp y x = decide (k y < k x) :=
      hcomp y (by simp) x (by simp)
    rw [List.pairwise_cons] at hs
    by_cases h : k y < k x
    · rw [hyx, if_pos (by simpa using h), List.pairwise_cons]
      refine ⟨?_, ih (fun a ha b hb => hcomp a ?_ b ?_) hs.2⟩
      · intro b hb
        rcases List.mem_cons.1 ((listInsert_perm comp x ys).mem_iff.1 hb) with rfl | hb
        · exact Nat.le_of_lt h
        · exact hs.1 b hb
      · rcases List.mem_cons.1 ha with rfl | ha
        · simp
        · simp [ha]
      · rcases List.mem_cons.1 hb with rfl | hb
        · simp
        · simp [hb]
    · rw [hyx, if_neg (by simpa using h), List.pairwise_cons, List.pairwise_cons]
      have hxy : k x ≤ k y := Nat.le_of_not_lt h
      refine ⟨?_, hs⟩
      intro b hb
      rcases List.mem_cons.1 hb with rfl | hb
      · exact hxy
      · exact Nat.le_trans hxy (hs.1 b hb)

theorem listSort_sorted {α : Type} (comp : α → α → Bool) (k : α → Nat) :
    ∀ l : List α, (∀ a ∈ l, ∀ b ∈ l, comp a b = decide (k a < k b)) →
      (listSort comp l).Pairwise (fun a b => k a ≤ k b) := by
  intro l
  induction l with
  | nil => intro _; simp [listSort]
  | cons x xs ih =>
    intro hcomp
    rw [listSort]
    apply listInsert_sorted
    · intro a ha b hb
      have hmem : ∀ z, z ∈ x :: listSort comp xs → z ∈ x :: xs := by
        intro z hz
        rcases List.mem_cons.1 hz with rfl | hz
        · simp
        · exact List.mem_cons_of_mem _ ((listSort_perm comp xs).mem_iff.1 hz)
      exact hcomp a (hmem a ha) b (hmem b hb)
    · exact ih (fun a ha b hb =>
        hcomp a (List.mem_cons_of_mem _ ha) b (List.mem_cons_of_mem _ hb))

/-- On contacts none of which has the default identifier `SortContactList`
sorts by XOR distance to the key. -/
theorem sortContactList_ascending (key : NodeId) (l : List Contact)
    (hz : ∀ c ∈ l, c.node_id ≠ kZeroId) : ascending key (SortContactList key l) := by
  unfold SortContactList
  split
  · rename_i he
    have : l = [] := by simpa using he
    subst this
    simp [ascending]
  · have hs := listSort_sorted CompareContact
      (fun ck : ContactAndTargetKey => distance key ck.contact.node_id)
      (l.map (fun c => ({ contact := c, target_key := key } : ContactAndTargetKey)))
      (by
        intro a ha b hb
        rw [List.mem_map] at ha hb
        obtain ⟨ca, hca, rfl⟩ := ha
        obtain ⟨cb, hcb, rfl⟩ := hb
        simp [CompareContact, hz ca hca, hz cb hcb, CloserToTarget, distance])
    unfold ascending
    rw [List.pairwise_map]
    exact hs

theorem ascending_take (key : NodeId) (l : List Contact) (n : Nat)
    (h : ascending key l) : ascending key (l.take n) :=
  List.Pairwise.sublist (List.take_sublist _ _) h

/-- The list `closestK` holds the closest live contacts when no live contact
has the default identifier. -/
theorem closestK_closestLive (self : NodeImpl) (key : NodeId) (nc : NodeContainer)
    (hz : ∀ e ∈ nc, e.state ≠ kDown → e.contact.node_id ≠ kZeroId) :
    closestLive key nc (self.closestK key nc) := by
  have hz' : ∀ c ∈ liveContacts nc, c.node_id ≠ kZeroId := by
    intro c hc
    obtain ⟨e, he, hs, rfl⟩ := mem_liveContacts.1 hc
    exact hz e he hs
  have hasc := sortContactList_ascending key (liveContacts nc) hz'
  refine ⟨?_, ascending_take key _ _ hasc⟩
  intro e he hs hnot c hc
  have hmem : e.contact ∈ SortContactList key (liveContacts nc) :=
    (sortContactList_perm key _).mem_iff.2 (mem_liveContacts.2 ⟨e, he, hs, rfl⟩)
  rw [← List.take_append_drop self.K_ (SortContactList key (liveContacts nc))] at hmem hasc
  rcases List.mem_append.1 hmem with h | h
  · exact absurd h hnot
  · unfold ascending at hasc
    rw [List.pairwise_append] at hasc
    exact hasc.2.2 c hc e.contact h

theorem map_selectEntry_nil (round : Int) (nc : NodeContainer) :
    nc.map (selectEntry round []) = nc := by
  have : nc.map (selectEntry round []) = nc.map id := by
    apply List.map_congr_left
    intro x _
    simp [selectEntry]
  rw [this, List.map_id]

theorem selectAlphas_spec (self : NodeImpl) (round : Int) :
    ∀ (l : List Contact) (nc : NodeContainer) (times : Nat) (alphas : List Contact),
      ncUnique nc → (l.map (fun c => c.node_id)).Nodup →
      (∀ c ∈ l, ∃ e ∈ nc, e.contact = c) →
      self.selectAlphas round nc l times alphas =
        (nc.map (selectEntry round
            ((l.filter (hasState nc kNew)).take (self.kAlpha - times))),
          alphas ++ (l.filter (hasState nc kNew)).take (self.kAlpha - times)) := by
  intro l
  induction l with
  | nil =>
    intro nc times alphas _ _ _
    simp [NodeImpl.selectAlphas, map_selectEntry_nil]
  | cons c rest ih =>
    intro nc times alphas hu hnd hex
    have hrest : ∀ c' ∈ rest, ∃ e ∈ nc, e.contact = c' :=
      fun c' hc' => hex c' (List.mem_cons_of_mem _ hc')
    have hnd' : (rest.map (fun c => c.node_id)).Nodup := (List.nodup_cons.1 hnd).2
    have hcne : ∀ c' ∈ rest, c'.node_id ≠ c.node_id := by
      intro c' hc' heq
      exact (List.nodup_cons.1 hnd).1 (List.mem_map.2 ⟨c', hc', heq⟩)
    rw [NodeImpl.selectAlphas]
    by_cases ht : times < self.kAlpha
    · rw [if_pos ht]
      obtain ⟨⟨e, hf, hec⟩, hN⟩ := ncFind_state hu (hex c (List.mem_cons_self _ _)) kNew
      have he : e ∈ nc := (ncFind_some hf).1
      rw [hf] at hN
      simp only [Option.some.injEq, exists_eq_left'] at hN
      simp only [hf]
      by_cases hs : e.state = kNew
      · rw [if_pos hs]
        have hnew : hasState nc kNew c = true := hN.2 hs
        have hrep : ncReplace c { e with state := kSelectedAlpha, round := round } nc =
            nc.map (fun x => if x.contact.node_id = c.node_id then
              { e with state := kSelectedAlpha, round := round } else x) :=
          ncReplace_eq_map _ _ _ hu (by simp [hec])
        have hu2 : ncUnique (ncReplace c { e with state := kSelectedAlpha, round := round } nc) :=
          ncReplace_unique _ _ (by simp [hec]) _ hu
        have hex2 : ∀ c' ∈ rest, ∃ e' ∈
            ncReplace c { e with state := kSelectedAlpha, round := round } nc,
            e'.contact = c' := by
          intro c' hc'
          obtain ⟨x, hx, hxc⟩ := hrest c' hc'
          refine ⟨x, ?_, hxc⟩
          rw [hrep, List.mem_map]
          refine ⟨x, hx, ?_⟩
          rw [if_neg]
          rw [hxc]
          exact hcne c' hc'
        have hstate : ∀ c' ∈ rest,
            hasState (ncReplace c { e with state := kSelectedAlpha, round := round } nc)
              kNew c' = hasState nc kNew c' := by
          intro c' hc'
          rw [hrep]
          unfold hasState
          rw [List.any_map]
          have hpt : ∀ x : NodeContainerTuple,
              ((fun e => decide (e.contact = c') && decide (e.state = kNew)) ∘
                (fun x => if x.contact.node_id = c.node_id then
                  { e with state := kSelectedAlpha, round := round } else x)) x =
              (decide (x.contact = c') && decide (x.state = kNew)) := by
            intro x
            simp only [Function.comp]
            by_cases hx : x.contact.node_id = c.node_id
            · have h1 : ¬ e.contact = c' := by
                intro h; apply hcne c' hc'; rw [← h, hec]
              have h2 : ¬ x.contact = c' := by
                intro h; apply hcne c' hc'; rw [← h, hx]
              simp [hx, h1, h2]
            · simp [hx]
          rw [Bool.eq_iff_iff]
          simp only [List.any_eq_true]
          constructor
          · rintro ⟨x, hx, h⟩
            exact ⟨x, hx, by rw [← hpt x]; exact h⟩
          · rintro ⟨x, hx, h⟩
            exact ⟨x, hx, by rw [hpt x]; exact h⟩
        rw [ih _ (times + 1) _ hu2 hnd' hex2]
        rw [List.filter_congr hstate]
        have hk : self.kAlpha - times = (self.kAlpha - (times + 1)) + 1 := by omega
        rw [List.filter_cons, if_pos hnew, hk, List.take_succ_cons]
        refine Prod.ext ?_ ?_
        · simp only
          rw [hrep, List.map_map]
          apply List.map_congr_left
          intro x hx
          simp only [Function.comp]
          by_cases hxc : x.contact.node_id = c.node_id
          · have hxe : x = e := ncUnique_eq_of_id hu hx he (by rw [hxc, hec])
            subst hxe
            rw [if_pos hxc]
            simp [selectEntry, hec]
          · rw [if_neg hxc]
            have : x.contact ≠ c := fun h => hxc (by rw [h])
            simp [selectEntry, this]
        · simp [hec]
      · rw [if_neg hs]
        have hnew : ¬ hasState nc kNew c = true := fun h => hs (hN.1 h)
        rw [ih nc times alphas hu hnd' hrest, List.filter_cons, if_neg hnew]
    · rw [if_neg ht]
      have hk : self.kAlpha - times = 0 := by omega
      rw [hk]
      simp [map_selectEntry_nil]

/-- The example sessions are the ones the code reaches: `exSeeded` by
`FindNodes`, `exLast` by the answer of contact 1, `exDone` by the answer of
contact 2, which also makes `IterativeSearch` invoke the callback. -/
theorem example_sessions_reached :
    exNode.FindNodes exRoutingTable exParams =
      some (exSeeded, [SearchEffect.rpc { contact := exC1, round := 0 },
                       SearchEffect.rpc { contact := exC2, round := 0 }]) ∧
    exNode.IterativeSearchResponse exSeeded true [] { contact := exC1, round := 0 } =
      some (exLast, []) ∧
    exNode.IterativeSearchResponse exLast true [] { contact := exC2, round := 0 } =
      some (exDone, [SearchEffect.callback [exC1, exC2]]) := by
  refine ⟨by decide, by decide, by decide⟩

/-- The sessions with the default identifier are reached too: `exZeroLast` by
`FindNodes` on `exZeroParams` and the answer of contact 0, `exFive` by
`FindNodes` on the key 1 and the start contact 5. -/
theorem zero_sessions_reached :
    (exNode.FindNodes exRoutingTable exZeroParams).bind
        (fun s => exNode.IterativeSearchResponse s.1 true []
          { contact := exC0, round := 0 }) =
      some (exZeroLast, []) ∧
    exNode.FindNodes exRoutingTable
        { key := 1, start_nodes := [exC5], exclude_nodes := [],
          use_routingtable := false } =
      some (exFive, [SearchEffect.rpc { contact := exC5, round := 0 }]) := by
  refine ⟨by decide, by decide⟩

/-- A stall that does not depend on the parameters of the node: whenever
`kBeta ≥ 1` and the only record of the session is a dispatched contact, the
failure of that contact ends the call with no candidate,
`top_nodes_done = false` and nothing in flight. -/
theorem lone_contact_failure (self : NodeImpl) (hb : 1 ≤ self.kBeta)
    (c : Contact) (key kth : NodeId) (round fround : Int) :
    self.HandleIterationStructure c
      { key := key, kth_closest := kth,
        nc := [{ contact := c, state := kSelectedAlpha, round := round }],
        calledback := false, round := fround }
      round SEARCH_DOWN [] false false =
    some { ret := true
           fna := { key := key, kth_closest := kth,
                    nc := [{ contact := c, state := kDown, round := round }],
                    calledback := false, round := fround }
           nodes := []
           top_nodes_done := false
           calledback := false
           nodes_pending := 0 } := by
  simp [NodeImpl.HandleIterationStructure, NodeImpl.MarkResponse,
    NodeImpl.insertResponseNodes, ncFind, sameContact, ncReplace, NodesPending,
    alphasSent, alphasReplied, NodeImpl.roundDone]
  omega

/-- `IterativeSearch` invokes the callback exactly for `top_nodes_done = true`
with `calledback = false`, and then with the list it is given. -/
theorem iterativeSearch_callback_iff (fna : FindNodesArgs) (d c : Bool)
    (contacts : List Contact) (np : Nat) (l : List Contact) :
    SearchEffect.callback l ∈ IterativeSearch fna d c contacts np ↔
      (d = true ∧ c = false ∧ l = contacts) := by
  cases d <;> cases c <;> simp [IterativeSearch]

/-- In a run at most one result fires, and every result after it reports a
completed lookup. -/
theorem run_fires_at_most_once (self : NodeImpl) (fna : FindNodesArgs)
    (rs : List Response) :
    (self.runResponses fna rs).countP IterationResult.fires ≤ 1 ∧
    ∀ pre o post, self.runResponses fna rs = pre ++ o :: post →
      o.fires = true →
      ∀ x ∈ post, x.top_nodes_done = true ∧ x.calledback = true := by
  induction rs generalizing fna with
  | nil =>
    simp [NodeImpl.runResponses]
  | cons r rs ih =>
    cases hc : fna.calledback with
    | true =>
      refine ⟨by rw [run_completed_countP self _ fna hc]; exact Nat.zero_le _, ?_⟩
      intro pre o post hrun _ x hx
      apply run_completed self (r :: rs) fna hc x
      rw [hrun]; simp [hx]
    | false =>
      rw [NodeImpl.runResponses]
      cases hres : self.HandleIterationStructure r.contact fna r.round r.mark
          r.nodes false false with
      | none => simp
      | some res =>
        simp only
        have hf := his_fires_sets_flag self _ _ _ _ _ _ hc hres
        cases hd : res.top_nodes_done with
        | true =>
          have hflag := (hf.1 hd).2
          refine ⟨?_, ?_⟩
          · rw [List.countP_cons, run_completed_countP self rs res.fna hflag]
            simp
            split <;> simp
          · intro pre o post hrun _ x hx
            cases pre with
            | nil =>
              simp only [List.nil_append, List.cons.injEq] at hrun
              apply run_completed self rs res.fna hflag x
              rw [hrun.2]; exact hx
            | cons p pre =>
              simp only [List.cons_append, List.cons.injEq] at hrun
              apply run_completed self rs res.fna hflag x
              rw [hrun.2]; simp [hx]
        | false =>
          have hnf : res.fires = false := by simp [IterationResult.fires, hd]
          refine ⟨?_, ?_⟩
          · rw [List.countP_cons, hnf]
            simpa using (ih res.fna).1
          · intro pre o post hrun ho x hx
            cases pre with
            | nil =>
              simp only [List.nil_append, List.cons.injEq] at hrun
              rw [hrun.1] at hnf
              rw [hnf] at ho
              exact absurd ho (by simp)
            | cons p pre =>
              simp only [List.cons_append, List.cons.injEq] at hrun
              exact (ih res.fna).2 pre o post hrun.2 ho x hx

theorem compareContact_eq_rank (key : NodeId) (a b : Contact)
    (h : a.node_id ≠ b.node_id) :
    CompareContact { contact := a, target_key := key }
        { contact := b, target_key := key } =
      decide (compareRank key a < compareRank key b) := by
  unfold CompareContact compareRank
  by_cases ha : a.node_id = kZeroId
  · have hb : b.node_id ≠ kZeroId := fun hb => h (ha.trans hb.symm)
    simp [ha, hb]
  · by_cases hb : b.node_id = kZeroId
    · simp [ha, hb]
    · simp [ha, hb, CloserToTarget, distance]

theorem compareRank_injective (key : NodeId) (a b : Contact)
    (h : compareRank key a = compareRank key b) : a.node_id = b.node_id := by
  unfold compareRank at h
  by_cases ha : a.node_id = kZeroId
  · by_cases hb : b.node_id = kZeroId
    · rw [ha, hb]
    · rw [if_pos ha, if_neg hb] at h
      exact absurd h (Nat.succ_ne_zero _).symm
  · by_cases hb : b.node_id = kZeroId
    · rw [if_neg ha, if_pos hb] at h
      exact absurd h (Nat.succ_ne_zero _)
    · rw [if_neg ha, if_neg hb] at h
      have h2 : a.node_id ^^^ key = b.node_id ^^^ key := by
        unfold distance at h; exact Nat.succ.inj h
      exact Nat.xor_left_injective h2

theorem listInsert_strict {α : Type} (comp : α → α → Bool) (k : α → Nat) (x : α) :
    ∀ l : List α, (∀ b ∈ l, comp b x = decide (k b < k x)) →
      (∀ b ∈ l, k b ≠ k x) →
      l.Pairwise (fun a b => k a < k b) →
      (listInsert comp x l).Pairwise (fun a b => k a < k b) := by
  intro l
  induction l with
  | nil => intro _ _ _; simp [listInsert]
  | cons y ys ih =>
    intro hcomp hne hs
    rw [listInsert]
    have hyx : comp y x = decide (k y < k x) := hcomp y (by simp)
    rw [List.pairwise_cons] at hs
    by_cases h : k y < k x
    · rw [hyx, if_pos (by simpa using h), List.pairwise_cons]
      refine ⟨?_, ih (fun b hb => hcomp b (List.mem_cons_of_mem _ hb))
        (fun b hb => hne b (List.mem_cons_of_mem _ hb)) hs.2⟩
      intro b hb
      rcases List.mem_cons.1 ((listInsert_perm comp x ys).mem_iff.1 hb) with rfl | hb
      · exact h
      · exact hs.1 b hb
    · rw [hyx, if_neg (by simpa using h), List.pairwise_cons, List.pairwise_cons]
      have hxy : k x < k y := by
        have := hne y (by simp)
        omega
      refine ⟨?_, hs⟩
      intro b hb
      rcases List.mem_cons.1 hb with rfl | hb
      · exact hxy
      · exact Nat.lt_trans hxy (hs.1 b hb)

theorem listSort_strict {α : Type} (comp : α → α → Bool) (k : α → Nat) :
    ∀ l : List α, (l.map k).Nodup →
      (∀ a ∈ l, ∀ b ∈ l, k a ≠ k b → comp a b = decide (k a < k b)) →
      (listSort comp l).Pairwise (fun a b => k a < k b) := by
  intro l
  induction l with
  | nil => intro _ _; simp [listSort]
  | cons x xs ih =>
    intro hnd hcomp
    rw [List.map_cons, List.nodup_cons] at hnd
    have hmem : ∀ b, b ∈ listSort comp xs → b ∈ xs :=
      fun b hb => (listSort_perm comp xs).mem_iff.1 hb
    have hne : ∀ b ∈ listSort comp xs, k b ≠ k x := by
      intro b hb heq
      exact hnd.1 (List.mem_map.2 ⟨b, hmem b hb, heq⟩)
    rw [listSort]
    apply listInsert_strict
    · intro b hb
      exact hcomp b (List.mem_cons_of_mem _ (hmem b hb)) x (by simp) (hne b hb)
    · exact hne
    · exact ih hnd.2 (fun a ha b hb =>
        hcomp a (List.mem_cons_of_mem _ ha) b (List.mem_cons_of_mem _ hb))

/-- On contacts with distinct identifiers `SortContactList` sorts strictly by
`compareRank`. -/
theorem sortContactList_strict (key : NodeId) (l : List Contact)
    (hnd : (l.map (fun c => c.node_id)).Nodup) :
    (SortContactList key l).Pairwise
      (fun a b => compareRank key a < compareRank key b) := by
  unfold SortContactList
  split
  · rename_i he
    have : l = [] := by simpa using he
    subst this
    simp
  · rw [List.pairwise_map]
    apply listSort_strict CompareContact
      (fun ck : ContactAndTargetKey => compareRank key ck.contact)
    · rw [List.map_map]
      have hinj : ∀ a ∈ l, ∀ b ∈ l, compareRank key a = compareRank key b → a = b := by
        intro a ha b hb hab
        exact List.inj_on_of_nodup_map hnd ha hb (compareRank_injective key a b hab)
      exact (List.nodup_map_iff_inj_on (List.Nodup.of_map _ hnd)).2 hinj
    · intro a ha b hb hk
      rw [List.mem_map] at ha hb
      obtain ⟨ca, _, rfl⟩ := ha
      obtain ⟨cb, _, rfl⟩ := hb
      apply compareContact_eq_rank
      intro hid
      apply hk
      simp [compareRank, hid]

/-- The output of `SortContactList` on contacts with distinct identifiers does
not depend on the order of the input: the iteration order of the container
plays no part in what the lookup computes. -/
theorem sortContactList_perm_eq (key : NodeId) (l₁ l₂ : List Contact)
    (hnd : (l₁.map (fun c => c.node_id)).Nodup) (hp : l₁.Perm l₂) :
    SortContactList key l₁ = SortContactList key l₂ := by
  have hnd2 : (l₂.map (fun c => c.node_id)).Nodup :=
    (hp.map (fun c => c.node_id)).nodup_iff.1 hnd
  have h1 := sortContactList_strict key l₁ hnd
  have h2 := sortContactList_strict key l₂ hnd2
  have hperm : (SortContactList key l₁).Perm (SortContactList key l₂) :=
    (sortContactList_perm key l₁).trans (hp.trans (sortContactList_perm key l₂).symm)
  haveI : IsAntisymm Contact (fun a b => compareRank key a < compareRank key b) :=
    ⟨fun a b hab hba => absurd (Nat.lt_trans hab hba) (Nat.lt_irrefl _)⟩
  exact List.eq_of_perm_of_sorted hperm h1 h2

/-- The list `closestK` is the same for every iteration order of the
container. -/
theorem closestK_perm (self : NodeImpl) (key : NodeId) (nc nc2 : NodeContainer)
    (hu : ncUnique nc) (hp : nc.Perm nc2) :
    self.closestK key nc = self.closestK key nc2 := by
  unfold NodeImpl.closestK
  rw [sortContactList_perm_eq key (liveContacts nc) (liveContacts nc2)
    (liveContacts_ids_nodup hu)
    ((hp.filter _).map _)]

theorem findNodes_lone_seed (self : NodeImpl) (key : NodeId) (c : Contact) :
    self.FindNodes (fun _ _ _ => [])
        { key := key, start_nodes := [c], exclude_nodes := [],
          use_routingtable := false } =
      if self.K_ = 0 then none
      else if self.kAlpha = 0 then
        some ({ key := key, kth_closest := c.node_id,
                nc := [{ contact := c, state := kNew, round := self.kTupleRound }],
                calledback := false, round := 0 }, [])
      else
        some ({ key := key, kth_closest := c.node_id,
                nc := [{ contact := c, state := kSelectedAlpha, round := 0 }],
                calledback := false, round := 0 },
              [SearchEffect.rpc { contact := c, round := 0 }]) := by
  by_cases hK : self.K_ = 0
  · simp [NodeImpl.FindNodes, NodeImpl.AddContactsToContainer, FindNodesArgs.init,
      ncInsert, ncFind, NodeImpl.newTuple, SortContactList, listSort, listInsert,
      resizeTo, hK]
  · have hK1 : ¬ 1 > self.K_ := by omega
    by_cases hA : self.kAlpha = 0
    · simp [NodeImpl.FindNodes, NodeImpl.AddContactsToContainer, FindNodesArgs.init,
        ncInsert, ncFind, NodeImpl.newTuple, SortContactList, listSort, listInsert,
        resizeTo, hK, hK1, hA, markAlphas, IterativeSearch]
    · have hA1 : ¬ 1 > self.kAlpha := by omega
      simp [NodeImpl.FindNodes, NodeImpl.AddContactsToContainer, FindNodesArgs.init,
        ncInsert, ncFind, NodeImpl.newTuple, SortContactList, listSort, listInsert,
        resizeTo, hK, hK1, hA, hA1, markAlphas, IterativeSearch, sameContact,
        ncReplace]
theorem lone_record_failure (self : NodeImpl) (c : Contact) (key kth : NodeId)
    (s : NodeSearchState) (t fround : Int) :
    self.HandleIterationStructure c
        { key := key, kth_closest := kth,
          nc := [{ contact := c, state := s, round := t }],
          calledback := false, round := fround }
        0 SEARCH_DOWN [] false false = none ∨
    self.HandleIterationStructure c
        { key := key, kth_closest := kth,
          nc := [{ contact := c, state := s, round := t }],
          calledback := false, round := fround }
        0 SEARCH_DOWN [] false false =
      some { ret := true
             fna := { key := key, kth_closest := kth,
                      nc := [{ contact := c, state := kDown, round := t }],
                      calledback := false, round := fround }
             nodes := []
             top_nodes_done := false
             calledback := false
             nodes_pending := 0 } := by
  by_cases hd : self.roundDone
      (alphasSent [{ contact := c, state := kDown, round := t }] 0)
      (alphasReplied [{ contact := c, state := kDown, round := t }] 0) = true
  · left
    simp [NodeImpl.HandleIterationStructure, NodeImpl.MarkResponse,
      NodeImpl.insertResponseNodes, ncFind, sameContact, ncReplace, hd,
      NodeImpl.nextIteration, NodeImpl.topNodes, pushLive, SortContactList,
      resizeTo]
  · right
    simp [NodeImpl.HandleIterationStructure, NodeImpl.MarkResponse,
      NodeImpl.insertResponseNodes, ncFind, sameContact, ncReplace, hd,
      NodesPending]

/-- A lookup seeded with one contact whose RPC fails never makes
`IterativeSearch` invoke the callback, whatever the parameters of the node:
the call is undefined (`K_ = 0`, `kBeta = 0`, or the contact was not
dispatched) or it has no effect at all. -/
theorem lone_seed_failure_effects (self : NodeImpl) (key : NodeId) (c : Contact) :
    (self.FindNodes (fun _ _ _ => [])
        { key := key, start_nodes := [c], exclude_nodes := [],
          use_routingtable := false }).bind
      (fun s => (self.IterativeSearchResponse s.1 false []
        { contact := c, round := 0 }).map (fun s => s.2)) = none ∨
    (self.FindNodes (fun _ _ _ => [])
        { key := key, start_nodes := [c], exclude_nodes := [],
          use_routingtable := false }).bind
      (fun s => (self.IterativeSearchResponse s.1 false []
        { contact := c, round := 0 }).map (fun s => s.2)) = some [] := by
  rw [findNodes_lone_seed]
  by_cases hK : self.K_ = 0
  · left; simp [hK]
  · by_cases hA : self.kAlpha = 0
    · rcases lone_record_failure self c key c.node_id kNew self.kTupleRound 0 with h | h
      · left; simp [hK, hA, NodeImpl.IterativeSearchResponse, h]
      · right; simp [hK, hA, NodeImpl.IterativeSearchResponse, h, IterativeSearch]
    · rcases lone_record_failure self c key c.node_id kSelectedAlpha 0 0 with h | h
      · left; simp [hK, hA, NodeImpl.IterativeSearchResponse, h]
      · right; simp [hK, hA, NodeImpl.IterativeSearchResponse, h, IterativeSearch]

theorem pairwise_chain_le {key : NodeId} {l : List Contact} (h : ascending key l) :
    List.Chain' (fun a b => distance key a.node_id ≤ distance key b.node_id) l :=
  List.Pairwise.chain' h

/-- What a call does to the round counter. -/
theorem his_round_step (self : NodeImpl) (contact : Contact) (fna : FindNodesArgs)
    (round : Int) (mark : SearchMarking) (nodes : List Contact)
    (res : IterationResult)
    (h : self.HandleIterationStructure contact fna round mark nodes false false
      = some res) :
    (res.fna.round = fna.round ∨ res.fna.round = fna.round + 1) ∧
    (res.fna.round = fna.round + 1 ↔
      (fna.calledback = false ∧
        self.roundAdvance (self.MarkResponse contact fna mark nodes).2.1.nc round ∧
        res.top_nodes_done = false)) := by
  have hm := markResponse_calledback self contact fna mark nodes
  cases hc : fna.calledback with
  | true =>
    rw [his_completed self contact fna round mark nodes false false hc] at h
    simp only [Option.some.injEq] at h
    subst h
    simp
  | false =>
    rw [his_not_completed self contact fna round mark nodes false false hc] at h
    by_cases hq : self.roundAdvance
        (self.MarkResponse contact fna mark nodes).2.1.nc round
    · rw [if_pos ((roundDone_iff_roundAdvance _ _ _).2 hq)] at h
      rcases nextIteration_cases _ _ _ _ _ _ _ _ h with ⟨h1, _, h3, _⟩ | ⟨h1, _, _, h4⟩
      · have hr : res.fna.round = fna.round := by rw [h3]; exact hm.2.1
        refine ⟨Or.inl hr, ?_⟩
        rw [hr, h1]
        constructor
        · intro h; omega
        · rintro ⟨_, _, h⟩; exact absurd h (by simp)
      · have hr : res.fna.round = fna.round + 1 := by rw [h4, hm.2.1]
        exact ⟨Or.inr hr, fun _ => ⟨rfl, hq, h1⟩, fun _ => hr⟩
    · rw [if_neg (fun h => hq ((roundDone_iff_roundAdvance _ _ _).1 h))] at h
      simp only [Option.some.injEq] at h
      subst h
      refine ⟨Or.inl hm.2.1, ?_⟩
      constructor
      · intro h
        have : (self.MarkResponse contact fna mark nodes).2.1.round = fna.round + 1 := h
        rw [hm.2.1] at this
        omega
      · rintro ⟨_, h, _⟩; exact absurd h hq

theorem run_round_ge (self : NodeImpl) (rs : List Response) :
    ∀ fna : FindNodesArgs, ∀ res ∈ self.runResponses fna rs,
      fna.round ≤ res.fna.round := by
  induction rs with
  | nil => intro fna res hres; simp [NodeImpl.runResponses] at hres
  | cons r rs ih =>
    intro fna res hres
    rw [NodeImpl.runResponses] at hres
    cases h : self.HandleIterationStructure r.contact fna r.round r.mark r.nodes
        false false with
    | none => rw [h] at hres; simp at hres
    | some first =>
      rw [h] at hres
      have hstep := (his_round_step self _ _ _ _ _ _ h).1
      have hle : fna.round ≤ first.fna.round := by omega
      rcases List.mem_cons.1 hres with rfl | hres
      · exact hle
      · exact Int.le_trans hle (ih first.fna res hres)

theorem run_round_pairwise (self : NodeImpl) (rs : List Response) :
    ∀ fna : FindNodesArgs,
      (self.runResponses fna rs).Pairwise (fun a b => a.fna.round ≤ b.fna.round) := by
  induction rs with
  | nil => intro fna; simp [NodeImpl.runResponses]
  | cons r rs ih =>
    intro fna
    rw [NodeImpl.runResponses]
    cases h : self.HandleIterationStructure r.contact fna r.round r.mark r.nodes
        false false with
    | none => simp
    | some first =>
      simp only
      rw [List.pairwise_cons]
      exact ⟨fun b hb => run_round_ge self rs first.fna b hb, ih first.fna⟩

/-- The three ways a call on a session that is not completed ends: it waits
for more responses, it terminates the lookup, or it starts the next round. -/
theorem his_step (self : NodeImpl) (contact : Contact) (fna : FindNodesArgs)
    (round : Int) (mark : SearchMarking) (nodes : List Contact)
    (res : IterationResult) (hc : fna.calledback = false) (hu : ncUnique fna.nc)
    (h : self.HandleIterationStructure contact fna round mark nodes false false
      = some res) :
    (¬ self.roundAdvance (self.MarkResponse contact fna mark nodes).2.1.nc round ∧
      res.fna = (self.MarkResponse contact fna mark nodes).2.1 ∧
      res.nodes = [] ∧ res.top_nodes_done = false) ∨
    (self.roundAdvance (self.MarkResponse contact fna mark nodes).2.1.nc round ∧
      converged (self.MarkResponse contact fna mark nodes).2.1
        (self.closestK fna.key (self.MarkResponse contact fna mark nodes).2.1.nc) ∧
      res.fna = { (self.MarkResponse contact fna mark nodes).2.1 with
        calledback := true } ∧
      res.nodes =
        self.closestK fna.key (self.MarkResponse contact fna mark nodes).2.1.nc ∧
      res.top_nodes_done = true) ∨
    (self.roundAdvance (self.MarkResponse contact fna mark nodes).2.1.nc round ∧
      ¬ converged (self.MarkResponse contact fna mark nodes).2.1
        (self.closestK fna.key (self.MarkResponse contact fna mark nodes).2.1.nc) ∧
      (∃ back,
        (self.closestK fna.key
          (self.MarkResponse contact fna mark nodes).2.1.nc).getLast? = some back ∧
        res.fna.kth_closest = back.node_id) ∧
      res.fna.round = fna.round + 1 ∧
      res.fna.calledback = false ∧
      res.fna.key = fna.key ∧
      res.fna.nc = (self.MarkResponse contact fna mark nodes).2.1.nc.map
        (selectEntry (fna.round + 1)
          (self.firstNew (self.MarkResponse contact fna mark nodes).2.1.nc
            (self.closestK fna.key
              (self.MarkResponse contact fna mark nodes).2.1.nc))) ∧
      res.nodes = self.firstNew (self.MarkResponse contact fna mark nodes).2.1.nc
        (self.closestK fna.key (self.MarkResponse contact fna mark nodes).2.1.nc) ∧
      res.top_nodes_done = false) := by
  have hm := markResponse_calledback self contact fna mark nodes
  have hu1 := markResponse_unique self contact fna mark nodes hu
  have hh := his_not_completed self contact fna round mark nodes false false hc
  rw [hh] at h
  by_cases hq : self.roundAdvance
      (self.MarkResponse contact fna mark nodes).2.1.nc round
  · rw [if_pos ((roundDone_iff_roundAdvance _ _ _).2 hq)] at h
    obtain ⟨s1, s2, s3⟩ := nextIteration_spec self
      (self.MarkResponse contact fna mark nodes).1
      (self.MarkResponse contact fna mark nodes).2.1 false false hu1
    rw [hm.2.2.2] at s1 s2 s3
    rw [hm.2.1] at s2
    by_cases hconv : converged (self.MarkResponse contact fna mark nodes).2.1
        (self.closestK fna.key (self.MarkResponse contact fna mark nodes).2.1.nc)
    · right; left
      rw [s1 hconv] at h
      simp only [Option.some.injEq] at h
      subst h
      refine ⟨hq, hconv, ?_, rfl, rfl⟩
      simp [hm.2.2.2]
    · right; right
      have hsel := selectAlphas_spec self (fna.round + 1)
        (self.closestK fna.key (self.MarkResponse contact fna mark nodes).2.1.nc)
        (self.MarkResponse contact fna mark nodes).2.1.nc 0 [] hu1
        (closestK_ids_nodup self fna.key hu1)
        (fun c hc => by
          obtain ⟨e, he, _, hec⟩ := mem_closestK hc
          exact ⟨e, he, hec⟩)
      simp only [Nat.sub_zero, List.nil_append] at hsel
      cases hb : (self.closestK fna.key
          (self.MarkResponse contact fna mark nodes).2.1.nc).getLast? with
      | none => rw [s3 hb] at h; exact absurd h (by simp)
      | some back =>
        rw [s2 hconv back hb, hsel] at h
        simp only [Option.some.injEq] at h
        subst h
        exact ⟨hq, hconv, ⟨back, rfl, rfl⟩, rfl, hm.1.trans hc, rfl, rfl, rfl, rfl⟩
  · left
    rw [if_neg (fun h => hq ((roundDone_iff_roundAdvance _ _ _).1 h))] at h
    simp only [Option.some.injEq] at h
    subst h
    exact ⟨hq, rfl, rfl, rfl⟩

theorem map_selectEntry_unique (round : Int) (sel : List Contact)
    (nc : NodeContainer) (hu : ncUnique nc) :
    ncUnique (nc.map (selectEntry round sel)) := by
  unfold ncUnique at *
  rw [List.map_map]
  have : ((fun e => e.contact.node_id) ∘ selectEntry round sel) =
      (fun e : NodeContainerTuple => e.contact.node_id) := by
    funext x
    simp only [Function.comp, selectEntry]
    split <;> rfl
  rw [this]
  exact hu

/-- A call keeps the contacts of the container distinct. -/
theorem his_unique (self : NodeImpl) (contact : Contact) (fna : FindNodesArgs)
    (round : Int) (mark : SearchMarking) (nodes : List Contact)
    (res : IterationResult) (hu : ncUnique fna.nc)
    (h : self.HandleIterationStructure contact fna round mark nodes false false
      = some res) : ncUnique res.fna.nc := by
  have hu1 := markResponse_unique self contact fna mark nodes hu
  cases hc : fna.calledback with
  | true =>
    rw [his_completed self contact fna round mark nodes false false hc] at h
    simp only [Option.some.injEq] at h
    subst h
    exact hu
  | false =>
    rcases his_step self contact fna round mark nodes res hc hu h with
      ⟨_, h2, _⟩ | ⟨_, _, h2, _⟩ | ⟨_, _, _, _, _, _, h2, _⟩
    · rw [h2]; exact hu1
    · rw [h2]; exact hu1
    · rw [h2]; exact map_selectEntry_unique _ _ _ hu1

theorem markEntry_down (contact : Contact) (mark : SearchMarking)
    (e : NodeContainerTuple) (hd : e.state = kDown)
    (hmk : contact.node_id = e.contact.node_id → mark = SEARCH_DOWN) :
    markEntry contact mark e = e := by
  unfold markEntry
  split
  · rename_i hid
    have := hmk hid.symm
    subst this
    cases e
    simp only [markState] at *
    simp [hd]
  · rfl

theorem hasState_iff {nc : NodeContainer} {s : NodeSearchState} {c : Contact} :
    hasState nc s c = true ↔ ∃ e ∈ nc, e.contact = c ∧ e.state = s := by
  simp [hasState]

theorem mem_firstNew {self : NodeImpl} {nc : NodeContainer} {top : List Contact}
    {c : Contact} (h : c ∈ self.firstNew nc top) :
    c ∈ top ∧ ∃ e ∈ nc, e.contact = c ∧ e.state = kNew := by
  have h1 := List.mem_of_mem_take h
  rw [List.mem_filter] at h1
  exact ⟨h1.1, hasState_iff.1 h1.2⟩

/-- A record in state `kDown` is left as it is by a call, unless the call is a
successful response of its own contact. -/
theorem down_entry_kept (self : NodeImpl) (contact : Contact) (fna : FindNodesArgs)
    (round : Int) (mark : SearchMarking) (nodes : List Contact)
    (res : IterationResult) (e : NodeContainerTuple)
    (hu : ncUnique fna.nc) (he : e ∈ fna.nc) (hd : e.state = kDown)
    (hmk : contact.node_id = e.contact.node_id → mark = SEARCH_DOWN)
    (h : self.HandleIterationStructure contact fna round mark nodes false false
      = some res) : e ∈ res.fna.nc := by
  cases hc : fna.calledback with
  | true =>
    rw [his_completed self contact fna round mark nodes false false hc] at h
    simp only [Option.some.injEq] at h
    subst h
    exact he
  | false =>
    have hu1 := markResponse_unique self contact fna mark nodes hu
    obtain ⟨added, h1, _, h3, _⟩ := insertResponseNodes_spec self nodes fna.nc
    have hu0 : ncUnique (self.insertResponseNodes fna.nc nodes).1 := by
      rw [h1]; exact h3 hu
    have he0 : e ∈ (self.insertResponseNodes fna.nc nodes).1 := by
      rw [h1]; exact List.mem_append_left _ he
    have hs := markResponse_spec self contact fna mark nodes hu0
    have he1 : e ∈ (self.MarkResponse contact fna mark nodes).2.1.nc := by
      by_cases hex : ∃ x ∈ (self.insertResponseNodes fna.nc nodes).1,
          x.contact.node_id = contact.node_id
      · rw [(hs.1 hex).2, List.mem_map]
        exact ⟨e, he0, markEntry_down contact mark e hd hmk⟩
      · rw [(hs.2 (by simpa using hex)).2]
        exact he0
    rcases his_step self contact fna round mark nodes res hc hu h with
      ⟨_, h2, _⟩ | ⟨_, _, h2, _⟩ | ⟨_, _, _, _, _, _, h2, _⟩
    · rw [h2]; exact he1
    · rw [h2]; exact he1
    · rw [h2, List.mem_map]
      refine ⟨e, he1, ?_⟩
      unfold selectEntry
      rw [if_neg]
      intro hin
      obtain ⟨_, e', he', hc', hs'⟩ := mem_firstNew hin
      have : e' = e := ncUnique_eq_of_id hu1 he' he1 (by rw [hc'])
      rw [this, hd] at hs'
      exact absurd hs' (by decide)

/-- `FindNodes` is its seeding part followed by the choice of the watermark
and of the first candidates. -/
theorem findNodes_eq (self : NodeImpl)
    (rt : NodeId → Nat → List Contact → List Contact) (fnp : FindNodesParams) :
    self.FindNodes rt fnp =
      match (resizeTo self.K_ (SortContactList (self.seedArgs rt fnp).key
          ((self.seedArgs rt fnp).nc.map (fun e => e.contact)))).getLast? with
      | none => none
      | some back =>
        some ({ self.seedArgs rt fnp with
                  kth_closest := back.node_id
                  nc := markAlphas (self.seedArgs rt fnp).round (self.seedArgs rt fnp).nc
                    (resizeTo self.kAlpha (resizeTo self.K_
                      (SortContactList (self.seedArgs rt fnp).key
                        ((self.seedArgs rt fnp).nc.map (fun e => e.contact))))) },
              IterativeSearch
                { self.seedArgs rt fnp with
                  kth_closest := back.node_id
                  nc := markAlphas (self.seedArgs rt fnp).round (self.seedArgs rt fnp).nc
                    (resizeTo self.kAlpha (resizeTo self.K_
                      (SortContactList (self.seedArgs rt fnp).key
                        ((self.seedArgs rt fnp).nc.map (fun e => e.contact))))) }
                false false
                (resizeTo self.kAlpha (resizeTo self.K_
                  (SortContactList (self.seedArgs rt fnp).key
                    ((self.seedArgs rt fnp).nc.map (fun e => e.contact))))) 0) := by
  rfl

theorem ncErase_eq_filter (c : Contact) :
    ∀ nc : NodeContainer, ncUnique nc →
      ncErase c nc = nc.filter (fun e => decide (e.contact.node_id ≠ c.node_id)) := by
  intro nc
  induction nc with
  | nil => intro _; rfl
  | cons e es ih =>
    intro hu
    have hu' : ncUnique es := (List.nodup_cons.1 hu).2
    have hne : e.contact.node_id ∉ es.map (fun x => x.contact.node_id) :=
      (List.nodup_cons.1 hu).1
    rw [ncErase]
    by_cases hm : e.contact.node_id = c.node_id
    · have hs : sameContact c e = true := by simp [sameContact, hm]
      rw [if_pos hs, List.filter_cons, if_neg (by simp [hm])]
      symm
      rw [List.filter_eq_self]
      intro x hx
      have : x.contact.node_id ≠ c.node_id := by
        intro hxc
        apply hne
        rw [hm, ← hxc]
        exact List.mem_map.2 ⟨x, hx, rfl⟩
      simp [this]
    · have hs : ¬ sameContact c e = true := by simp [sameContact, hm]
      rw [if_neg hs, List.filter_cons, if_pos (by simp [hm]), ih hu']

theorem filter_unique (p : NodeContainerTuple → Bool) (nc : NodeContainer)
    (hu : ncUnique nc) : ncUnique (nc.filter p) :=
  List.Nodup.sublist (List.Sublist.map _ (List.filter_sublist _)) hu

theorem eraseExcludes_eq_filter (excl : List Contact) :
    ∀ nc : NodeContainer, ncUnique nc →
      eraseExcludes nc excl =
        nc.filter (fun e => decide (e.contact.node_id ∉ excl.map (fun c => c.node_id))) := by
  induction excl with
  | nil =>
    intro nc _
    simp [eraseExcludes]
  | cons c rest ih =>
    intro nc hu
    have hstep : (match ncFind nc c with
        | some _ => ncErase c nc
        | none => nc) = nc.filter (fun e => decide (e.contact.node_id ≠ c.node_id)) := by
      cases hf : ncFind nc c with
      | some e => exact ncErase_eq_filter c nc hu
      | none =>
        symm
        rw [List.filter_eq_self]
        intro x hx
        simpa using ncFind_none.1 hf x hx
    have := ih (nc.filter (fun e => decide (e.contact.node_id ≠ c.node_id)))
      (filter_unique _ nc hu)
    unfold eraseExcludes at this ⊢
    rw [List.foldl_cons, hstep, this, List.filter_filter]
    apply List.filter_congr
    intro x _
    by_cases h1 : x.contact.node_id = c.node_id <;>
      by_cases h2 : x.contact.node_id ∈ List.map (fun c => c.node_id) rest <;>
      simp [h1, h2]

theorem insertResponseNodes_append (self : NodeImpl) (l₁ l₂ : List Contact) :
    ∀ nc : NodeContainer,
      (self.insertResponseNodes nc (l₁ ++ l₂)).1 =
        (self.insertResponseNodes (self.insertResponseNodes nc l₁).1 l₂).1 := by
  induction l₁ with
  | nil => intro nc; rfl
  | cons c cs ih =>
    intro nc
    rw [List.cons_append, NodeImpl.insertResponseNodes, NodeImpl.insertResponseNodes, ih]

theorem insertResponseNodes_nil (self : NodeImpl) (nc : NodeContainer) :
    (self.insertResponseNodes nc []).1 = nc := rfl

/-- The session after the seeding part of `FindNodes`. -/
theorem seedArgs_eq (self : NodeImpl)
    (rt : NodeId → Nat → List Contact → List Contact) (fnp : FindNodesParams) :
    self.seedArgs rt fnp =
      { key := fnp.key, kth_closest := kZeroId,
        nc := ((self.insertResponseNodes [] (self.seedCandidates rt fnp)).1).filter
          (fun e => decide (e.contact.node_id ∉
            fnp.exclude_nodes.map (fun c => c.node_id))),
        calledback := false, round := 0 } := by
  have hins : (self.insertResponseNodes [] (self.seedCandidates rt fnp)).1 =
      (self.insertResponseNodes
        (self.insertResponseNodes []
          (if fnp.use_routingtable then rt fnp.key self.K_ [] else [])).1
        fnp.start_nodes).1 := by
    rw [NodeImpl.seedCandidates, insertResponseNodes_append]
  have hu : ncUnique (self.insertResponseNodes [] (self.seedCandidates rt fnp)).1 := by
    obtain ⟨added, h1, _, h3, _⟩ :=
      insertResponseNodes_spec self (self.seedCandidates rt fnp) []
    rw [h1]
    exact h3 (by simp [ncUnique])
  have herase := eraseExcludes_eq_filter fnp.exclude_nodes _ hu
  rw [← herase, hins]
  unfold NodeImpl.seedArgs
  cases hrt : fnp.use_routingtable <;> cases hst : fnp.start_nodes <;>
    cases hex : fnp.exclude_nodes <;>
    simp [NodeImpl.AddContactsToContainer, addContacts_eq_insert, FindNodesArgs.init,
      eraseExcludes, NodeImpl.insertResponseNodes]

theorem markAlphas_cons (round : Int) (nc : NodeContainer) (c : Contact)
    (rest : List Contact) :
    markAlphas round nc (c :: rest) =
      markAlphas round
        (match ncFind nc c with
          | some it => ncReplace c { it with round := round, state := kSelectedAlpha } nc
          | none => nc) rest := by
  simp [markAlphas]

/-- The loop of nodeimpl.cc 376-387 on contacts that have a record: each of
them becomes `kSelectedAlpha` with the round `round`. -/
theorem markAlphas_spec (round : Int) :
    ∀ (l : List Contact) (nc : NodeContainer), ncUnique nc →
      (l.map (fun c => c.node_id)).Nodup →
      (∀ c ∈ l, ∃ e ∈ nc, e.contact = c) →
      markAlphas round nc l = nc.map (selectEntry round l) := by
  intro l
  induction l with
  | nil =>
    intro nc _ _ _
    simp [markAlphas, map_selectEntry_nil]
  | cons c rest ih =>
    intro nc hu hnd hex
    have hrest : ∀ c' ∈ rest, ∃ e ∈ nc, e.contact = c' :=
      fun c' hc' => hex c' (List.mem_cons_of_mem _ hc')
    have hnd' : (rest.map (fun c => c.node_id)).Nodup := (List.nodup_cons.1 hnd).2
    have hcne : ∀ c' ∈ rest, c'.node_id ≠ c.node_id := by
      intro c' hc' heq
      exact (List.nodup_cons.1 hnd).1 (List.mem_map.2 ⟨c', hc', heq⟩)
    obtain ⟨e, he, hec⟩ := hex c (List.mem_cons_self _ _)
    have hf : ncFind nc c = some e := ncFind_of_mem hu he (by rw [hec])
    have hrep : ncReplace c { e with round := round, state := kSelectedAlpha } nc =
        nc.map (fun x => if x.contact.node_id = c.node_id then
          { e with round := round, state := kSelectedAlpha } else x) :=
      ncReplace_eq_map _ _ _ hu (by simp [hec])
    have hu2 : ncUnique (ncReplace c { e with round := round, state := kSelectedAlpha } nc) :=
      ncReplace_unique _ _ (by simp [hec]) _ hu
    have hex2 : ∀ c' ∈ rest, ∃ e' ∈
        ncReplace c { e with round := round, state := kSelectedAlpha } nc,
        e'.contact = c' := by
      intro c' hc'
      obtain ⟨x, hx, hxc⟩ := hrest c' hc'
      refine ⟨x, ?_, hxc⟩
      rw [hrep, List.mem_map]
      refine ⟨x, hx, ?_⟩
      rw [if_neg]
      rw [hxc]
      exact hcne c' hc'
    rw [markAlphas_cons, hf]
    simp only
    rw [ih _ hu2 hnd' hex2, hrep, List.map_map]
    apply List.map_congr_left
    intro x hx
    simp only [Function.comp]
    by_cases hxc : x.contact.node_id = c.node_id
    · have hxe : x = e := ncUnique_eq_of_id hu hx he (by rw [hxc, hec])
      subst hxe
      have hnot : c ∉ rest := fun hin => hcne c hin rfl
      simp [selectEntry, hec, hnot]
    · have : x.contact ≠ c := fun h => hxc (by rw [h])
      simp [selectEntry, hxc, this]

theorem selectEntry_contact (round : Int) (sel : List Contact)
    (e : NodeContainerTuple) : (selectEntry round sel e).contact = e.contact := by
  unfold selectEntry
  split <;> rfl

theorem seedArgs_unique (self : NodeImpl)
    (rt : NodeId → Nat → List Contact → List Contact) (fnp : FindNodesParams) :
    ncUnique (self.seedArgs rt fnp).nc := by
  rw [seedArgs_eq]
  apply filter_unique
  obtain ⟨added, h1, _, h3, _⟩ :=
    insertResponseNodes_spec self (self.seedCandidates rt fnp) []
  rw [h1]
  exact h3 (by simp [ncUnique])

/-- The records of the seeded ledger: all of them are new, and they are the
candidates that are not excluded. -/
theorem seedArgs_mem (self : NodeImpl)
    (rt : NodeId → Nat → List Contact → List Contact) (fnp : FindNodesParams) :
    (∀ e ∈ (self.seedArgs rt fnp).nc,
      e.state = kNew ∧ e.round = self.kTupleRound ∧
      e.contact ∈ self.seedCandidates rt fnp ∧
      e.contact.node_id ∉ fnp.exclude_nodes.map (fun c => c.node_id)) ∧
    (∀ c ∈ self.seedCandidates rt fnp,
      c.node_id ∉ fnp.exclude_nodes.map (fun c => c.node_id) →
      ∃ e ∈ (self.seedArgs rt fnp).nc, e.contact.node_id = c.node_id) := by
  obtain ⟨added, h1, h2, _, h4⟩ :=
    insertResponseNodes_spec self (self.seedCandidates rt fnp) []
  rw [seedArgs_eq]
  simp only [h1, List.nil_append] at h4 ⊢
  constructor
  · intro e he
    rw [List.mem_filter] at he
    obtain ⟨q1, q2, q3, _⟩ := h2 e he.1
    exact ⟨q1, q2, q3, by simpa using he.2⟩
  · intro c hc hne
    obtain ⟨e, he, hid⟩ := h4 c hc
    refine ⟨e, ?_, hid⟩
    rw [List.mem_filter]
    exact ⟨he, by rw [hid]; simpa using hne⟩

theorem seedArgs_live (self : NodeImpl)
    (rt : NodeId → Nat → List Contact → List Contact) (fnp : FindNodesParams) :
    (self.seedArgs rt fnp).nc.map (fun e => e.contact) =
      liveContacts (self.seedArgs rt fnp).nc := by
  unfold liveContacts
  rw [List.filter_eq_self.2]
  intro e he
  have := ((seedArgs_mem self rt fnp).1 e he).1
  simp [this]

/-- The outcome of `FindNodes` in terms of the seeded ledger: the watermark is
the last contact of the sorted seeds cut to `K`, the first `alpha` of them are
selected for round 0 and dispatched. -/
theorem findNodes_spec (self : NodeImpl)
    (rt : NodeId → Nat → List Contact → List Contact) (fnp : FindNodesParams) :
    ((self.closestK fnp.key (self.seedArgs rt fnp).nc).getLast? = none →
      self.FindNodes rt fnp = none) ∧
    (∀ back, (self.closestK fnp.key (self.seedArgs rt fnp).nc).getLast? = some back →
      self.FindNodes rt fnp =
        some ({ key := fnp.key, kth_closest := back.node_id,
                nc := (self.seedArgs rt fnp).nc.map
                  (selectEntry 0
                    ((self.closestK fnp.key (self.seedArgs rt fnp).nc).take self.kAlpha)),
                calledback := false, round := 0 },
              IterativeSearch
                { key := fnp.key, kth_closest := back.node_id,
                  nc := (self.seedArgs rt fnp).nc.map
                    (selectEntry 0
                      ((self.closestK fnp.key (self.seedArgs rt fnp).nc).take
                        self.kAlpha)),
                  calledback := false, round := 0 }
                false false
                ((self.closestK fnp.key (self.seedArgs rt fnp).nc).take self.kAlpha)
                0)) := by
  have hu := seedArgs_unique self rt fnp
  have hkey : (self.seedArgs rt fnp).key = fnp.key := by rw [seedArgs_eq]
  have hround : (self.seedArgs rt fnp).round = 0 := by rw [seedArgs_eq]
  have hcb : (self.seedArgs rt fnp).calledback = false := by rw [seedArgs_eq]
  have htop : resizeTo self.K_ (SortContactList (self.seedArgs rt fnp).key
      ((self.seedArgs rt fnp).nc.map (fun e => e.contact))) =
      self.closestK fnp.key (self.seedArgs rt fnp).nc := by
    rw [resizeTo_eq_take, hkey, seedArgs_live, NodeImpl.closestK]
  have hmark := markAlphas_spec 0
    ((self.closestK fnp.key (self.seedArgs rt fnp).nc).take self.kAlpha)
    (self.seedArgs rt fnp).nc hu
    (List.Nodup.sublist (List.Sublist.map _ (List.take_sublist _ _))
      (closestK_ids_nodup self fnp.key hu))
    (fun c hc => by
      obtain ⟨e, he, _, hec⟩ := mem_closestK (List.mem_of_mem_take hc)
      exact ⟨e, he, hec⟩)
  rw [findNodes_eq, htop, resizeTo_eq_take, hround, hmark]
  constructor
  · intro hnone
    rw [hnone]
  · intro back hback
    rw [hback]
    simp only [hkey, hcb, hround]

theorem iterativeSearch_rpc (fna : FindNodesArgs) (contacts : List Contact)
    (np : Nat) :
    IterativeSearch fna false false contacts np =
      contacts.map (fun it => SearchEffect.rpc { contact := it, round := fna.round }) := by
  cases contacts <;> simp [IterativeSearch]

theorem take_getLast_eq {α : Type} (l : List α) (k : Nat) (hk : 0 < k) :
    (l.take k).getLast? = l[min l.length k - 1]? := by
  rw [List.getLast?_take, if_neg (by omega)]
  by_cases h : k ≤ l.length
  · have h1 : min l.length k = k := by omega
    have h2 : k - 1 < l.length := by omega
    rw [h1, List.getElem?_eq_getElem h2]
    rfl
  · have h1 : min l.length k = l.length := by omega
    have h2 : l[k - 1]? = none := List.getElem?_eq_none (by omega)
    rw [h1, h2, List.getLast?_eq_getElem?]
    rfl

theorem closestK_getLast (self : NodeImpl) (key : NodeId) (nc : NodeContainer)
    (back : Contact) (h : (self.closestK key nc).getLast? = some back) :
    0 < self.K_ ∧
    (SortContactList key (liveContacts nc))[
      min (liveContacts nc).length self.K_ - 1]? = some back := by
  have hK : 0 < self.K_ := by
    rcases Nat.eq_zero_or_pos self.K_ with h0 | h0
    · rw [NodeImpl.closestK, h0] at h
      simp at h
    · exact h0
  refine ⟨hK, ?_⟩
  rw [NodeImpl.closestK, take_getLast_eq _ _ hK, (sortContactList_perm _ _).length_eq] at h
  exact h

/-- A list sorted by a strict order in which every element with `p` lies
below every element without `p` is the elements with `p` followed by the
others. -/
theorem sorted_split {α : Type} (k : α → Nat) (p : α → Bool) :
    ∀ l : List α, l.Pairwise (fun a b => k a < k b) →
      (∀ a ∈ l, ∀ b ∈ l, p a = true → p b = false → k a < k b) →
      l = l.filter p ++ l.filter (fun a => !p a) := by
  intro l
  induction l with
  | nil => intro _ _; rfl
  | cons x xs ih =>
    intro hs hp
    rw [List.pairwise_cons] at hs
    have ih' := ih hs.2 (fun a ha b hb =>
      hp a (List.mem_cons_of_mem _ ha) b (List.mem_cons_of_mem _ hb))
    cases hx : p x with
    | true =>
      rw [List.filter_cons, if_pos hx, List.filter_cons, if_neg (by simp [hx]),
        List.cons_append, ← ih']
    | false =>
      have hfalse : ∀ y ∈ xs, p y = false := by
        intro y hy
        cases hpy : p y with
        | false => rfl
        | true =>
          have h1 := hs.1 y hy
          have h2 := hp y (List.mem_cons_of_mem _ hy) x (List.mem_cons_self _ _) hpy hx
          omega
      have hnone : xs.filter p = [] := by
        rw [List.filter_eq_nil_iff]
        intro y hy hpy
        rw [hfalse y hy] at hpy
        exact absurd hpy (by simp)
      have hall : xs.filter (fun a => !p a) = xs := by
        rw [List.filter_eq_self]
        intro y hy
        simp [hfalse y hy]
      rw [List.filter_cons, if_neg (by simp [hx]), hnone, List.nil_append,
        List.filter_cons, if_pos (by simp [hx]), hall]

/-- On contacts with distinct identifiers, none of them the default one,
`SortContactList` sorts strictly by distance. -/
theorem sortContactList_dist_strict (key : NodeId) (l : List Contact)
    (hd : (l.map (fun c => c.node_id)).Nodup)
    (hz : ∀ c ∈ l, c.node_id ≠ kZeroId) :
    (SortContactList key l).Pairwise
      (fun a b => distance key a.node_id < distance key b.node_id) := by
  have hs := sortContactList_strict key l hd
  have hz' : ∀ c ∈ SortContactList key l, c.node_id ≠ kZeroId :=
    fun c hc => hz c ((sortContactList_perm key l).mem_iff.1 hc)
  refine List.Pairwise.imp_of_mem ?_ hs
  intro a b ha hb hab
  simp only [compareRank, if_neg (hz' a ha), if_neg (hz' b hb)] at hab
  omega

/-- In a list sorted strictly by `k` that contains the distinct elements
`fresh`, each of them below every other element, the elements of `fresh` come
first. -/
theorem fresh_first {α : Type} [DecidableEq α] (k : α → Nat) (S fresh : List α)
    (hS : S.Pairwise (fun a b => k a < k b)) (hfn : fresh.Nodup)
    (hsub : ∀ c ∈ fresh, c ∈ S)
    (hclo : ∀ a ∈ fresh, ∀ b ∈ S, b ∉ fresh → k a < k b) :
    ∃ F O, S = F ++ O ∧ F.length = fresh.length ∧ (∀ c ∈ F, c ∈ fresh) ∧
      (∀ c ∈ O, c ∉ fresh) := by
  have hsplit := sorted_split k (fun c => decide (c ∈ fresh)) S hS
    (fun a ha b hb hpa hpb => hclo a (by simpa using hpa) b hb (by simpa using hpb))
  have hnd : S.Nodup := by
    refine List.Pairwise.imp ?_ hS
    intro a b hab heq
    rw [heq] at hab
    exact Nat.lt_irrefl _ hab
  refine ⟨S.filter (fun c => decide (c ∈ fresh)),
    S.filter (fun a => !decide (a ∈ fresh)), hsplit, ?_, ?_, ?_⟩
  · apply List.Perm.length_eq
    rw [List.perm_ext_iff_of_nodup (hnd.filter _) hfn]
    intro c
    rw [List.mem_filter]
    constructor
    · intro h; simpa using h.2
    · intro h; exact ⟨hsub c h, by simpa using h⟩
  · intro c hc
    simpa using (List.mem_filter.1 hc).2
  · intro c hc
    simpa using (List.mem_filter.1 hc).2

/-- The first `alpha` elements with `p` of a list cut to `K` all lie in a
prefix `F` whose elements all have `p`, when `alpha` is at most the length of
`F`. -/
theorem candidates_in_front {α : Type} (p : α → Bool) (F O : List α)
    (K alpha : Nat) (hp : ∀ c ∈ F, p c = true) (hα : alpha ≤ F.length) :
    ∀ c ∈ (((F ++ O).take K).filter p).take alpha, c ∈ F := by
  intro c hc
  rw [List.take_append_eq_append_take, List.filter_append] at hc
  have hFk : (F.take K).filter p = F.take K := by
    rw [List.filter_eq_self]
    intro a ha
    exact hp a (List.mem_of_mem_take ha)
  rw [hFk] at hc
  by_cases hK : K ≤ F.length
  · have h0 : K - F.length = 0 := by omega
    rw [h0, List.take_zero, List.filter_nil, List.append_nil] at hc
    exact List.mem_of_mem_take (List.mem_of_mem_take hc)
  · have hF : F.take K = F := List.take_of_length_le (by omega)
    rw [hF, List.take_append_of_le_length hα] at hc
    exact List.mem_of_mem_take hc

theorem getElem_in_front {α : Type} (F O : List α) (i : Nat) (x : α)
    (hi : i < F.length) (h : (F ++ O)[i]? = some x) : x ∈ F := by
  rw [List.getElem?_append_left hi] at h
  exact List.getElem?_mem h

/-- The ledger after `MarkResponse` for a responding contact that has a
record: the old records, the one of the responding contact marked, followed
by new records for the contacts of the response that had none. -/
theorem markResponse_ledger (self : NodeImpl) (contact : Contact)
    (fna : FindNodesArgs) (mark : SearchMarking) (nodes : List Contact)
    (hu : ncUnique fna.nc)
    (hresp : ∃ e ∈ fna.nc, e.contact.node_id = contact.node_id) :
    ∃ added : NodeContainer,
      (self.MarkResponse contact fna mark nodes).2.1.nc =
        fna.nc.map (markEntry contact mark) ++ added ∧
      (∀ a ∈ added, a.state = kNew ∧ a.round = self.kTupleRound ∧
        a.contact ∈ nodes ∧ ∀ x ∈ fna.nc, x.contact.node_id ≠ a.contact.node_id) ∧
      (∀ c ∈ nodes, ∃ e ∈ fna.nc ++ added, e.contact.node_id = c.node_id) := by
  obtain ⟨e, he, hid⟩ := hresp
  obtain ⟨added, h1, h2, h3, h4⟩ := insertResponseNodes_spec self nodes fna.nc
  have hu1 : ncUnique (self.insertResponseNodes fna.nc nodes).1 := by
    rw [h1]; exact h3 hu
  have hs := (markResponse_spec self contact fna mark nodes hu1).1
    ⟨e, by rw [h1]; exact List.mem_append_left _ he, hid⟩
  have hadded : added.map (markEntry contact mark) = added := by
    have : added.map (markEntry contact mark) = added.map id := by
      apply List.map_congr_left
      intro a ha
      unfold markEntry
      rw [if_neg]
      · rfl
      · intro hac
        exact (h2 a ha).2.2.2 e he (hid.trans hac.symm)
    rw [this, List.map_id]
  refine ⟨added, ?_, h2, h4⟩
  rw [hs.2, h1, List.map_append, hadded]

/-- A call for which the round-advance condition holds and the termination
test fails on a non-empty list starts the next round. -/
theorem his_next_round (self : NodeImpl) (contact : Contact) (fna : FindNodesArgs)
    (round : Int) (mark : SearchMarking) (nodes : List Contact) (back : Contact)
    (hc : fna.calledback = false) (hu : ncUnique fna.nc)
    (hr : self.roundAdvance (self.MarkResponse contact fna mark nodes).2.1.nc round)
    (hconv : ¬ converged (self.MarkResponse contact fna mark nodes).2.1
      (self.closestK fna.key (self.MarkResponse contact fna mark nodes).2.1.nc))
    (hb : (self.closestK fna.key
      (self.MarkResponse contact fna mark nodes).2.1.nc).getLast? = some back) :
    ∃ res, self.HandleIterationStructure contact fna round mark nodes false false
        = some res ∧
      res.fna.kth_closest = back.node_id ∧
      res.fna.round = fna.round + 1 ∧
      res.fna.nc = (self.MarkResponse contact fna mark nodes).2.1.nc.map
        (selectEntry (fna.round + 1)
          (self.firstNew (self.MarkResponse contact fna mark nodes).2.1.nc
            (self.closestK fna.key
              (self.MarkResponse contact fna mark nodes).2.1.nc))) ∧
      res.nodes = self.firstNew (self.MarkResponse contact fna mark nodes).2.1.nc
        (self.closestK fna.key (self.MarkResponse contact fna mark nodes).2.1.nc) ∧
      res.top_nodes_done = false := by
  have hm := markResponse_calledback self contact fna mark nodes
  have hu1 := markResponse_unique self contact fna mark nodes hu
  have hh := his_not_completed self contact fna round mark nodes false false hc
  rw [if_pos ((roundDone_iff_roundAdvance _ _ _).2 hr)] at hh
  obtain ⟨_, s2, _⟩ := nextIteration_spec self
    (self.MarkResponse contact fna mark nodes).1
    (self.MarkResponse contact fna mark nodes).2.1 false false hu1
  rw [hm.2.2.2] at s2
  rw [hm.2.1] at s2
  have hsel := selectAlphas_spec self (fna.round + 1)
    (self.closestK fna.key (self.MarkResponse contact fna mark nodes).2.1.nc)
    (self.MarkResponse contact fna mark nodes).2.1.nc 0 [] hu1
    (closestK_ids_nodup self fna.key hu1)
    (fun c hc => by
      obtain ⟨e, he, _, hec⟩ := mem_closestK hc
      exact ⟨e, he, hec⟩)
  simp only [Nat.sub_zero, List.nil_append] at hsel
  rw [hh, s2 hconv back hb, hsel]
  exact ⟨_, rfl, rfl, rfl, rfl, rfl, rfl⟩

theorem perm_unique {nc nc2 : NodeContainer} (hp : nc.Perm nc2) (hu : ncUnique nc) :
    ncUnique nc2 := by
  unfold ncUnique at *
  exact (hp.map (fun e => e.contact.node_id)).nodup_iff.1 hu

theorem hasState_perm {nc nc2 : NodeContainer} (hp : nc.Perm nc2)
    (s : NodeSearchState) (c : Contact) : hasState nc s c = hasState nc2 s c := by
  rw [Bool.eq_iff_iff, hasState_iff, hasState_iff]
  constructor
  · rintro ⟨e, he, h⟩; exact ⟨e, hp.mem_iff.1 he, h⟩
  · rintro ⟨e, he, h⟩; exact ⟨e, hp.mem_iff.2 he, h⟩

theorem nodesPending_eq (fna : FindNodesArgs) :
    NodesPending fna = fna.nc.countP (fun e => e.state = kSelectedAlpha) := by
  rw [NodesPending, List.countP_eq_length_filter]

theorem insertResponseNodes_perm (self : NodeImpl) (nodes : List Contact) :
    ∀ nc nc2 : NodeContainer, nc.Perm nc2 →
      (self.insertResponseNodes nc nodes).1.Perm
        (self.insertResponseNodes nc2 nodes).1 := by
  induction nodes with
  | nil => intro nc nc2 hp; exact hp
  | cons c cs ih =>
    intro nc nc2 hp
    rw [NodeImpl.insertResponseNodes, NodeImpl.insertResponseNodes]
    apply ih
    rw [ncInsert_eq, ncInsert_eq]
    by_cases hex : ∃ e ∈ nc, e.contact.node_id = (self.newTuple c).contact.node_id
    · have hex2 : ∃ e ∈ nc2, e.contact.node_id = (self.newTuple c).contact.node_id := by
        obtain ⟨e, he, h⟩ := hex
        exact ⟨e, hp.mem_iff.1 he, h⟩
      rw [if_pos hex, if_pos hex2]
      exact hp
    · have hex2 : ¬ ∃ e ∈ nc2, e.contact.node_id = (self.newTuple c).contact.node_id := by
        rintro ⟨e, he, h⟩
        exact hex ⟨e, hp.mem_iff.2 he, h⟩
      rw [if_neg hex, if_neg hex2]
      exact hp.append_right _

/-- `MarkResponse` does the same to two sessions that differ in the iteration
order only. -/
theorem markResponse_perm (self : NodeImpl) (contact : Contact)
    (f g : FindNodesArgs) (mark : SearchMarking) (nodes : List Contact)
    (hu : ncUnique f.nc) (hs : sameSession f g) :
    (self.MarkResponse contact f mark nodes).1 =
      (self.MarkResponse contact g mark nodes).1 ∧
    sameSession (self.MarkResponse contact f mark nodes).2.1
      (self.MarkResponse contact g mark nodes).2.1 := by
  obtain ⟨hk, hkth, hcb, hrd, hp⟩ := hs
  have hmf := markResponse_calledback self contact f mark nodes
  have hmg := markResponse_calledback self contact g mark nodes
  have hpi := insertResponseNodes_perm self nodes f.nc g.nc hp
  obtain ⟨added, h1, _, h3, _⟩ := insertResponseNodes_spec self nodes f.nc
  have huf : ncUnique (self.insertResponseNodes f.nc nodes).1 := by
    rw [h1]; exact h3 hu
  have hug : ncUnique (self.insertResponseNodes g.nc nodes).1 := perm_unique hpi huf
  have sf := markResponse_spec self contact f mark nodes huf
  have sg := markResponse_spec self contact g mark nodes hug
  have hfields : (self.MarkResponse contact f mark nodes).2.1.key =
        (self.MarkResponse contact g mark nodes).2.1.key ∧
      (self.MarkResponse contact f mark nodes).2.1.kth_closest =
        (self.MarkResponse contact g mark nodes).2.1.kth_closest ∧
      (self.MarkResponse contact f mark nodes).2.1.calledback =
        (self.MarkResponse contact g mark nodes).2.1.calledback ∧
      (self.MarkResponse contact f mark nodes).2.1.round =
        (self.MarkResponse contact g mark nodes).2.1.round := by
    rw [hmf.1, hmf.2.1, hmf.2.2.1, hmf.2.2.2, hmg.1, hmg.2.1, hmg.2.2.1, hmg.2.2.2]
    exact ⟨hk, hkth, hcb, hrd⟩
  by_cases hex : ∃ e ∈ (self.insertResponseNodes f.nc nodes).1,
      e.contact.node_id = contact.node_id
  · have hex2 : ∃ e ∈ (self.insertResponseNodes g.nc nodes).1,
        e.contact.node_id = contact.node_id := by
      obtain ⟨e, he, h⟩ := hex
      exact ⟨e, hpi.mem_iff.1 he, h⟩
    refine ⟨by rw [(sf.1 hex).1, (sg.1 hex2).1], hfields.1, hfields.2.1,
      hfields.2.2.1, hfields.2.2.2, ?_⟩
    rw [(sf.1 hex).2, (sg.1 hex2).2]
    exact hpi.map _
  · have hn : ∀ e ∈ (self.insertResponseNodes f.nc nodes).1,
        e.contact.node_id ≠ contact.node_id := by simpa using hex
    have hn2 : ∀ e ∈ (self.insertResponseNodes g.nc nodes).1,
        e.contact.node_id ≠ contact.node_id :=
      fun e he => hn e (hpi.mem_iff.2 he)
    refine ⟨by rw [(sf.2 hn).1, (sg.2 hn2).1], hfields.1, hfields.2.1,
      hfields.2.2.1, hfields.2.2.2, ?_⟩
    rw [(sf.2 hn).2, (sg.2 hn2).2]
    exact hpi

theorem converged_perm (f g : FindNodesArgs) (top : List Contact)
    (hs : sameSession f g) : converged f top ↔ converged g top := by
  obtain ⟨_, hkth, _, _, hp⟩ := hs
  unfold converged
  rw [hkth, hp.countP_eq]
  simp only [hasState_perm hp]

theorem firstNew_perm (self : NodeImpl) {nc nc2 : NodeContainer} (hp : nc.Perm nc2)
    (top : List Contact) : self.firstNew nc top = self.firstNew nc2 top := by
  unfold NodeImpl.firstNew
  congr 1
  apply List.filter_congr
  intro c _
  exact hasState_perm hp kNew c

/-- The result of a call that waits for more responses. -/
theorem his_waits_eq (self : NodeImpl) (contact : Contact) (fna : FindNodesArgs)
    (round : Int) (mark : SearchMarking) (nodes : List Contact)
    (hc : fna.calledback = false)
    (hr : ¬ self.roundAdvance (self.MarkResponse contact fna mark nodes).2.1.nc round) :
    self.HandleIterationStructure contact fna round mark nodes false false =
      some { ret := (self.MarkResponse contact fna mark nodes).1
             fna := (self.MarkResponse contact fna mark nodes).2.1
             nodes := []
             top_nodes_done := false
             calledback := false
             nodes_pending := NodesPending (self.MarkResponse contact fna mark nodes).2.1 } := by
  rw [his_not_completed self contact fna round mark nodes false false hc,
    if_neg (fun h => hr ((roundDone_iff_roundAdvance _ _ _).1 h))]

/-- The result of a call that terminates the lookup. -/
theorem his_terminates_eq (self : NodeImpl) (contact : Contact) (fna : FindNodesArgs)
    (round : Int) (mark : SearchMarking) (nodes : List Contact)
    (hc : fna.calledback = false) (hu : ncUnique fna.nc)
    (hr : self.roundAdvance (self.MarkResponse contact fna mark nodes).2.1.nc round)
    (hconv : converged (self.MarkResponse contact fna mark nodes).2.1
      (self.closestK fna.key (self.MarkResponse contact fna mark nodes).2.1.nc)) :
    self.HandleIterationStructure contact fna round mark nodes false false =
      some { ret := (self.MarkResponse contact fna mark nodes).1
             fna := { key := fna.key
                      kth_closest := fna.kth_closest
                      nc := (self.MarkResponse contact fna mark nodes).2.1.nc
                      calledback := true
                      round := fna.round }
             nodes := self.closestK fna.key
               (self.MarkResponse contact fna mark nodes).2.1.nc
             top_nodes_done := true
             calledback := false
             nodes_pending := NodesPending (self.MarkResponse contact fna mark nodes).2.1 } := by
  have hm := markResponse_calledback self contact fna mark nodes
  have hu1 := markResponse_unique self contact fna mark nodes hu
  obtain ⟨s1, _, _⟩ := nextIteration_spec self
    (self.MarkResponse contact fna mark nodes).1
    (self.MarkResponse contact fna mark nodes).2.1 false false hu1
  rw [hm.2.2.2] at s1
  rw [his_not_completed self contact fna round mark nodes false false hc,
    if_pos ((roundDone_iff_roundAdvance _ _ _).2 hr), s1 hconv]
  simp [hm.1, hm.2.1, hm.2.2.1, hc]

/-- A call whose sorted live list is empty is undefined. -/
theorem his_undefined_eq (self : NodeImpl) (contact : Contact) (fna : FindNodesArgs)
    (round : Int) (mark : SearchMarking) (nodes : List Contact)
    (hc : fna.calledback = false) (hu : ncUnique fna.nc)
    (hr : self.roundAdvance (self.MarkResponse contact fna mark nodes).2.1.nc round)
    (hb : (self.closestK fna.key
      (self.MarkResponse contact fna mark nodes).2.1.nc).getLast? = none) :
    self.HandleIterationStructure contact fna round mark nodes false false = none := by
  have hm := markResponse_calledback self contact fna mark nodes
  have hu1 := markResponse_unique self contact fna mark nodes hu
  obtain ⟨_, _, s3⟩ := nextIteration_spec self
    (self.MarkResponse contact fna mark nodes).1
    (self.MarkResponse contact fna mark nodes).2.1 false false hu1
  rw [hm.2.2.2] at s3
  rw [his_not_completed self contact fna round mark nodes false false hc,
    if_pos ((roundDone_iff_roundAdvance _ _ _).2 hr), s3 hb]

/-- The result of a call that starts the next round. -/
theorem his_next_round_eq (self : NodeImpl) (contact : Contact) (fna : FindNodesArgs)
    (round : Int) (mark : SearchMarking) (nodes : List Contact) (back : Contact)
    (hc : fna.calledback = false) (hu : ncUnique fna.nc)
    (hr : self.roundAdvance (self.MarkResponse contact fna mark nodes).2.1.nc round)
    (hconv : ¬ converged (self.MarkResponse contact fna mark nodes).2.1
      (self.closestK fna.key (self.MarkResponse contact fna mark nodes).2.1.nc))
    (hb : (self.closestK fna.key
      (self.MarkResponse contact fna mark nodes).2.1.nc).getLast? = some back) :
    self.HandleIterationStructure contact fna round mark nodes false false =
      some { ret := (self.MarkResponse contact fna mark nodes).1
             fna := { key := fna.key
                      kth_closest := back.node_id
                      nc := (self.MarkResponse contact fna mark nodes).2.1.nc.map
                        (selectEntry (fna.round + 1)
                          (self.firstNew (self.MarkResponse contact fna mark nodes).2.1.nc
                            (self.closestK fna.key
                              (self.MarkResponse contact fna mark nodes).2.1.nc)))
                      calledback := false
                      round := fna.round + 1 }
             nodes := self.firstNew (self.MarkResponse contact fna mark nodes).2.1.nc
               (self.closestK fna.key (self.MarkResponse contact fna mark nodes).2.1.nc)
             top_nodes_done := false
             calledback := false
             nodes_pending := NodesPending (self.MarkResponse contact fna mark nodes).2.1 } := by
  have hm := markResponse_calledback self contact fna mark nodes
  have hu1 := markResponse_unique self contact fna mark nodes hu
  have hh := his_not_completed self contact fna round mark nodes false false hc
  rw [if_pos ((roundDone_iff_roundAdvance _ _ _).2 hr)] at hh
  obtain ⟨_, s2, _⟩ := nextIteration_spec self
    (self.MarkResponse contact fna mark nodes).1
    (self.MarkResponse contact fna mark nodes).2.1 false false hu1
  rw [hm.2.2.2] at s2
  rw [hm.2.1] at s2
  have hsel := selectAlphas_spec self (fna.round + 1)
    (self.closestK fna.key (self.MarkResponse contact fna mark nodes).2.1.nc)
    (self.MarkResponse contact fna mark nodes).2.1.nc 0 [] hu1
    (closestK_ids_nodup self fna.key hu1)
    (fun c hc => by
      obtain ⟨e, he, _, hec⟩ := mem_closestK hc
      exact ⟨e, he, hec⟩)
  simp only [Nat.sub_zero, List.nil_append] at hsel
  rw [hh, s2 hconv back hb, hsel]
  simp [hm.1, hc, NodeImpl.firstNew]

theorem roundAdvance_perm (self : NodeImpl) {nc nc2 : NodeContainer} (hp : nc.Perm nc2)
    (round : Int) : self.roundAdvance nc round ↔ self.roundAdvance nc2 round := by
  unfold NodeImpl.roundAdvance
  rw [hp.countP_eq, hp.countP_eq]

theorem nodesPending_perm {f g : FindNodesArgs} (hp : f.nc.Perm g.nc) :
    NodesPending f = NodesPending g := by
  rw [nodesPending_eq, nodesPending_eq, hp.countP_eq]

/-- The session logic does not depend on the order in which the ledger stores its entries. -/
theorem his_perm (self : NodeImpl) (contact : Contact) (f g : FindNodesArgs)
    (round : Int) (mark : SearchMarking) (nodes : List Contact)
    (hu : ncUnique f.nc) (hs : sameSession f g) :
    (self.HandleIterationStructure contact f round mark nodes false false = none →
      self.HandleIterationStructure contact g round mark nodes false false = none) ∧
    (∀ r, self.HandleIterationStructure contact f round mark nodes false false = some r →
      ∃ s, self.HandleIterationStructure contact g round mark nodes false false = some s ∧
        sameResult r s) := by
  have hug : ncUnique g.nc := perm_unique hs.2.2.2.2 hu
  obtain ⟨hret, hm⟩ := markResponse_perm self contact f g mark nodes hu hs
  obtain ⟨hk, hkth, hcb, hrd, hp⟩ := hs
  cases hc : f.calledback with
  | true =>
    have hcg : g.calledback = true := by rw [← hcb, hc]
    rw [his_completed self contact f round mark nodes false false hc,
      his_completed self contact g round mark nodes false false hcg]
    refine ⟨fun h => by simp at h, ?_⟩
    intro r hr
    refine ⟨_, rfl, ?_⟩
    simp only [Option.some.injEq] at hr
    subst hr
    exact ⟨rfl, rfl, rfl, rfl, nodesPending_perm hp, hk, hkth, hcb, hrd, hp⟩
  | false =>
    have hcg : g.calledback = false := by rw [← hcb, hc]
    have hmf := markResponse_calledback self contact f mark nodes
    have hmg := markResponse_calledback self contact g mark nodes
    have hu1 := markResponse_unique self contact f mark nodes hu
    have hpend := nodesPending_perm hm.2.2.2.2
    have htop : self.closestK g.key (self.MarkResponse contact g mark nodes).2.1.nc =
        self.closestK f.key (self.MarkResponse contact f mark nodes).2.1.nc := by
      rw [← hk]
      exact (closestK_perm self f.key _ _ hu1 hm.2.2.2.2).symm
    by_cases hr : self.roundAdvance (self.MarkResponse contact f mark nodes).2.1.nc round
    · have hrg := (roundAdvance_perm self hm.2.2.2.2 round).1 hr
      by_cases hconv : converged (self.MarkResponse contact f mark nodes).2.1
          (self.closestK f.key (self.MarkResponse contact f mark nodes).2.1.nc)
      · have hconvg : converged (self.MarkResponse contact g mark nodes).2.1
            (self.closestK g.key (self.MarkResponse contact g mark nodes).2.1.nc) := by
          rw [htop]
          exact (converged_perm _ _ _ hm).1 hconv
        rw [his_terminates_eq self contact f round mark nodes hc hu hr hconv,
          his_terminates_eq self contact g round mark nodes hcg hug hrg hconvg]
        refine ⟨fun h => by simp at h, ?_⟩
        intro r hr
        refine ⟨_, rfl, ?_⟩
        simp only [Option.some.injEq] at hr
        subst hr
        exact ⟨hret, htop.symm, rfl, rfl, hpend, hk, hkth, rfl, hrd, hm.2.2.2.2⟩
      · have hconvg : ¬ converged (self.MarkResponse contact g mark nodes).2.1
            (self.closestK g.key (self.MarkResponse contact g mark nodes).2.1.nc) := by
          rw [htop]
          exact fun h => hconv ((converged_perm _ _ _ hm).2 h)
        cases hb : (self.closestK f.key
            (self.MarkResponse contact f mark nodes).2.1.nc).getLast? with
        | none =>
          have hbg := hb
          rw [← htop] at hbg
          rw [his_undefined_eq self contact f round mark nodes hc hu hr hb,
            his_undefined_eq self contact g round mark nodes hcg hug hrg hbg]
          exact ⟨fun _ => rfl, fun r h => by simp at h⟩
        | some back =>
          have hbg := hb
          rw [← htop] at hbg
          rw [his_next_round_eq self contact f round mark nodes back hc hu hr hconv hb,
            his_next_round_eq self contact g round mark nodes back hcg hug hrg hconvg hbg]
          refine ⟨fun h => by simp at h, ?_⟩
          intro r hr
          refine ⟨_, rfl, ?_⟩
          simp only [Option.some.injEq] at hr
          subst hr
          have hfn := firstNew_perm self hm.2.2.2.2
            (self.closestK f.key (self.MarkResponse contact f mark nodes).2.1.nc)
          refine ⟨hret, ?_, rfl, rfl, hpend, hk, rfl, rfl, ?_, ?_⟩
          · rw [htop]
            exact hfn
          · simp only [hrd]
          · simp only [htop, hrd, ← hfn]
            exact hm.2.2.2.2.map _
    · have hrg : ¬ self.roundAdvance (self.MarkResponse contact g mark nodes).2.1.nc round :=
        fun h => hr ((roundAdvance_perm self hm.2.2.2.2 round).2 h)
      rw [his_waits_eq self contact f round mark nodes hc hr,
        his_waits_eq self contact g round mark nodes hcg hrg]
      refine ⟨fun h => by simp at h, ?_⟩
      intro r hr
      refine ⟨_, rfl, ?_⟩
      simp only [Option.some.injEq] at hr
      subst hr
      exact ⟨hret, rfl, rfl, rfl, hpend, hm⟩

/-- The handling of a response does not depend on the order in which the ledger stores
its entries: the effects are the same and the sessions stay the same up to that order. -/
theorem isr_perm (self : NodeImpl) (f g : FindNodesArgs) (result : Bool)
    (contacts : List Contact) (fnrpc : FindNodesRpc)
    (hu : ncUnique f.nc) (hs : sameSession f g)
    (r : FindNodesArgs × List SearchEffect)
    (h : self.IterativeSearchResponse f result contacts fnrpc = some r) :
    ∃ s, self.IterativeSearchResponse g result contacts fnrpc = some s ∧
      sameSession r.1 s.1 ∧ r.2 = s.2 := by
  unfold NodeImpl.IterativeSearchResponse at h ⊢
  simp only at h ⊢
  cases hf : self.HandleIterationStructure fnrpc.contact f fnrpc.round
      (if (!result) = true then SEARCH_DOWN else SEARCH_CONTACTED)
      (if (if (!result) = true then SEARCH_DOWN else SEARCH_CONTACTED) = SEARCH_CONTACTED ∧
        (!contacts.isEmpty) = true then contacts else []) false false with
  | none =>
    rw [hf] at h
    simp at h
  | some rf =>
    rw [hf] at h
    simp only [Option.some.injEq] at h
    obtain ⟨rg, hg, hsame⟩ := (his_perm self fnrpc.contact f g fnrpc.round _ _ hu hs).2 rf hf
    rw [hg]
    refine ⟨_, rfl, ?_⟩
    obtain ⟨_, hn, hd, hcb, hpd, hss⟩ := hsame
    subst h
    refine ⟨hss, ?_⟩
    simp only [IterativeSearch, hn, hd, hcb, hss.2.2.2.1]

/-- The two orders of the two responses on a ledger of three contacts stored in the
order of their distances: the first response ends round 0 without completing the
lookup, the second one completes it with the two closest contacts. -/
theorem three_sorted_run (t : Int) (key : NodeId) (x y z : Contact)
    (hx : x.node_id ≠ 0) (hy : y.node_id ≠ 0) (hz : z.node_id ≠ 0)
    (hxy : x.node_id ^^^ key < y.node_id ^^^ key)
    (hyz : y.node_id ^^^ key < z.node_id ^^^ key) :
    NodeImpl.IterativeSearchResponse { K_ := 2, kAlpha := 2, kBeta := 1, kTupleRound := t }
        { key := key, kth_closest := y.node_id,
          nc := [{ contact := x, state := kSelectedAlpha, round := 0 },
                 { contact := y, state := kSelectedAlpha, round := 0 },
                 { contact := z, state := kNew, round := t }],
          calledback := false, round := 0 }
        true [] { contact := x, round := 0 } =
      some ({ key := key, kth_closest := y.node_id,
              nc := [{ contact := x, state := kContacted, round := 0 },
                     { contact := y, state := kSelectedAlpha, round := 0 },
                     { contact := z, state := kNew, round := t }],
              calledback := false, round := 1 }, []) ∧
    NodeImpl.IterativeSearchResponse { K_ := 2, kAlpha := 2, kBeta := 1, kTupleRound := t }
        { key := key, kth_closest := y.node_id,
          nc := [{ contact := x, state := kContacted, round := 0 },
                 { contact := y, state := kSelectedAlpha, round := 0 },
                 { contact := z, state := kNew, round := t }],
          calledback := false, round := 1 }
        true [] { contact := y, round := 0 } =
      some ({ key := key, kth_closest := y.node_id,
              nc := [{ contact := x, state := kContacted, round := 0 },
                     { contact := y, state := kContacted, round := 0 },
                     { contact := z, state := kNew, round := t }],
              calledback := true, round := 1 }, [SearchEffect.callback [x, y]]) ∧
    NodeImpl.IterativeSearchResponse { K_ := 2, kAlpha := 2, kBeta := 1, kTupleRound := t }
        { key := key, kth_closest := y.node_id,
          nc := [{ contact := x, state := kSelectedAlpha, round := 0 },
                 { contact := y, state := kSelectedAlpha, round := 0 },
                 { contact := z, state := kNew, round := t }],
          calledback := false, round := 0 }
        true [] { contact := y, round := 0 } =
      some ({ key := key, kth_closest := y.node_id,
              nc := [{ contact := x, state := kSelectedAlpha, round := 0 },
                     { contact := y, state := kContacted, round := 0 },
                     { contact := z, state := kNew, round := t }],
              calledback := false, round := 1 }, []) ∧
    NodeImpl.IterativeSearchResponse { K_ := 2, kAlpha := 2, kBeta := 1, kTupleRound := t }
        { key := key, kth_closest := y.node_id,
          nc := [{ contact := x, state := kSelectedAlpha, round := 0 },
                 { contact := y, state := kContacted, round := 0 },
                 { contact := z, state := kNew, round := t }],
          calledback := false, round := 1 }
        true [] { contact := x, round := 0 } =
      some ({ key := key, kth_closest := y.node_id,
              nc := [{ contact := x, state := kContacted, round := 0 },
                     { contact := y, state := kContacted, round := 0 },
                     { contact := z, state := kNew, round := t }],
              calledback := true, round := 1 }, [SearchEffect.callback [x, y]]) := by
  have hxz : x.node_id ^^^ key < z.node_id ^^^ key := Nat.lt_trans hxy hyz
  have nyx : ¬ y.node_id ^^^ key < x.node_id ^^^ key := Nat.lt_asymm hxy
  have nzy : ¬ z.node_id ^^^ key < y.node_id ^^^ key := Nat.lt_asymm hyz
  have nzx : ¬ z.node_id ^^^ key < x.node_id ^^^ key := Nat.lt_asymm hxz
  have ixy : x.node_id ≠ y.node_id := fun h => by
    rw [h] at hxy; exact Nat.lt_irrefl _ hxy
  have iyz : y.node_id ≠ z.node_id := fun h => by
    rw [h] at hyz; exact Nat.lt_irrefl _ hyz
  have ixz : x.node_id ≠ z.node_id := fun h => by
    rw [h] at hxz; exact Nat.lt_irrefl _ hxz
  have cxy : x ≠ y := fun h => ixy (by rw [h])
  have cyz : y ≠ z := fun h => iyz (by rw [h])
  have cxz : x ≠ z := fun h => ixz (by rw [h])
  refine ⟨?_, ?_, ?_, ?_⟩ <;> by_cases ht : t = 0 <;>
    simp [NodeImpl.IterativeSearchResponse, NodeImpl.HandleIterationStructure,
      NodeImpl.MarkResponse, NodeImpl.insertResponseNodes, NodesPending,
      alphasSent, alphasReplied, NodeImpl.roundDone, NodeImpl.nextIteration,
      NodeImpl.topNodes, pushLive, countTop, NodeImpl.selectAlphas,
      ncFind, SortContactList, listSort, listInsert,
      resizeTo, IterativeSearch, sameContact, ncReplace,
      CompareContact, CloserToTarget, kZeroId, ht,
      hx, hy, hz, hxy, hyz, hxz, nyx, nzy, nzx, ixy, iyz, ixz, ixy.symm, iyz.symm, ixz.symm,
      cxy, cyz, cxz, cxy.symm, cyz.symm, cxz.symm]

/-- The session `FindNodes` leaves for three seeds with distinct identifiers, none of
them the default one, with `K = 2` and `alpha = 2`: the two seeds closest to the key
are dispatched, closest first. -/
theorem three_seeds_findNodes (t : Int) (key : NodeId) (a b c : Contact)
    (rt : NodeId → Nat → List Contact → List Contact)
    (hab : a.node_id ≠ b.node_id) (hac : a.node_id ≠ c.node_id)
    (hbc : b.node_id ≠ c.node_id)
    (ha : a.node_id ≠ kZeroId) (hb : b.node_id ≠ kZeroId) (hc : c.node_id ≠ kZeroId) :
    ∃ x y z fna0, [x, y, z].Perm [a, b, c] ∧
      x.node_id ^^^ key < y.node_id ^^^ key ∧ y.node_id ^^^ key < z.node_id ^^^ key ∧
      NodeImpl.FindNodes { K_ := 2, kAlpha := 2, kBeta := 1, kTupleRound := t } rt
          { key := key, start_nodes := [a, b, c], exclude_nodes := [],
            use_routingtable := false } =
        some (fna0, [SearchEffect.rpc { contact := x, round := 0 },
                     SearchEffect.rpc { contact := y, round := 0 }]) ∧
      sameSession
        { key := key, kth_closest := y.node_id,
          nc := [{ contact := x, state := kSelectedAlpha, round := 0 },
                 { contact := y, state := kSelectedAlpha, round := 0 },
                 { contact := z, state := kNew, round := t }],
          calledback := false, round := 0 } fna0 := by
  have hp := sortContactList_perm key [a, b, c]
  have hlen := hp.length_eq
  obtain ⟨x, y, z, hl⟩ := List.length_eq_three.1 hlen
  rw [hl] at hp
  have hstrict := sortContactList_dist_strict key [a, b, c]
    (by simp [hab, hac, hbc])
    (by
      intro u hu
      simp only [List.mem_cons, List.mem_singleton, List.not_mem_nil, or_false] at hu
      rcases hu with rfl | rfl | rfl <;> assumption)
  rw [hl] at hstrict
  simp only [List.pairwise_cons, List.mem_cons, List.mem_singleton, List.not_mem_nil,
    or_false, forall_eq_or_imp, forall_eq, distance, false_implies, implies_true,
    List.Pairwise.nil, and_true] at hstrict
  obtain ⟨⟨hxy, hxz⟩, hyz⟩ := hstrict
  have cxy : x ≠ y := fun h => by
    rw [h] at hxy; exact Nat.lt_irrefl _ hxy
  have cyz : y ≠ z := fun h => by
    rw [h] at hyz; exact Nat.lt_irrefl _ hyz
  have cxz : x ≠ z := fun h => by
    rw [h] at hxz; exact Nat.lt_irrefl _ hxz
  have hseed : (NodeImpl.seedArgs { K_ := 2, kAlpha := 2, kBeta := 1, kTupleRound := t } rt
      { key := key, start_nodes := [a, b, c], exclude_nodes := [],
        use_routingtable := false }).nc =
      [{ contact := a, state := kNew, round := t },
       { contact := b, state := kNew, round := t },
       { contact := c, state := kNew, round := t }] := by
    simp [NodeImpl.seedArgs, NodeImpl.AddContactsToContainer, FindNodesArgs.init, ncInsert,
      ncFind, NodeImpl.newTuple, sameContact, hab, hac, hbc, hab.symm, hac.symm, hbc.symm]
  have htop : NodeImpl.closestK { K_ := 2, kAlpha := 2, kBeta := 1, kTupleRound := t } key
      (NodeImpl.seedArgs { K_ := 2, kAlpha := 2, kBeta := 1, kTupleRound := t } rt
        { key := key, start_nodes := [a, b, c], exclude_nodes := [],
          use_routingtable := false }).nc = [x, y] := by
    rw [hseed]
    have hlive : liveContacts
        [{ contact := a, state := kNew, round := t },
         { contact := b, state := kNew, round := t },
         { contact := c, state := kNew, round := t }] = [a, b, c] := by
      simp [liveContacts]
    rw [NodeImpl.closestK, hlive, hl]
    rfl
  have hfn := (findNodes_spec { K_ := 2, kAlpha := 2, kBeta := 1, kTupleRound := t } rt
    { key := key, start_nodes := [a, b, c], exclude_nodes := [],
      use_routingtable := false }).2 y (by rw [htop]; rfl)
  rw [htop, hseed, iterativeSearch_rpc] at hfn
  refine ⟨x, y, z, _, hp, hxy, hyz, hfn, rfl, rfl, rfl, rfl, ?_⟩
  have hmap : ([x, y, z].map (fun u : Contact =>
      ({ contact := u, state := kNew, round := t } : NodeContainerTuple))).map
        (selectEntry 0 (List.take 2 [x, y])) =
      [{ contact := x, state := kSelectedAlpha, round := 0 },
       { contact := y, state := kSelectedAlpha, round := 0 },
       { contact := z, state := kNew, round := t }] := by
    simp [selectEntry, cxy, cyz, cxz, cxy.symm, cyz.symm, cxz.symm]
  rw [← hmap]
  exact ((hp.map (fun u : Contact =>
    ({ contact := u, state := kNew, round := t } : NodeContainerTuple))).map
      (selectEntry 0 (List.take 2 [x, y])))

theorem listInsert_head_zero (x : ContactAndTargetKey) :
    ∀ l : List ContactAndTargetKey,
      (x.contact.node_id = kZeroId ∨
        ∃ h t, l = h :: t ∧ h.contact.node_id = kZeroId) →
      ∃ h t, listInsert CompareContact x l = h :: t ∧ h.contact.node_id = kZeroId := by
  intro l hl
  cases l with
  | nil =>
    rcases hl with hx | ⟨h, t, hnil, _⟩
    · exact ⟨x, [], rfl, hx⟩
    · simp at hnil
  | cons y ys =>
    rw [listInsert]
    by_cases hy : y.contact.node_id = kZeroId
    · have hcmp : CompareContact y x = true := by simp [CompareContact, hy]
      rw [if_pos hcmp]
      exact ⟨y, _, rfl, hy⟩
    · rcases hl with hx | ⟨h, t, hcons, hz⟩
      · have hcmp : ¬ CompareContact y x = true := by simp [CompareContact, hy, hx]
        rw [if_neg hcmp]
        exact ⟨x, _, rfl, hx⟩
      · simp only [List.cons.injEq] at hcons
        rw [hcons.1] at hy
        exact absurd hz hy

theorem listSort_head_zero :
    ∀ l : List ContactAndTargetKey,
      (∃ c ∈ l, c.contact.node_id = kZeroId) →
      ∃ h t, listSort CompareContact l = h :: t ∧ h.contact.node_id = kZeroId := by
  intro l
  induction l with
  | nil => intro ⟨c, hc, _⟩; simp at hc
  | cons x xs ih =>
    intro ⟨c, hc, hz⟩
    rw [listSort]
    apply listInsert_head_zero
    rcases List.mem_cons.1 hc with rfl | hc
    · exact Or.inl hz
    · exact Or.inr (ih ⟨c, hc, hz⟩)

theorem sortContactList_head_zero (key : NodeId) (l : List Contact) (c : Contact)
    (hc : c ∈ l) (hz : c.node_id = kZeroId) :
    ∃ h t, SortContactList key l = h :: t ∧ h.node_id = kZeroId := by
  have hne : l.isEmpty = false := by
    cases l with
    | nil => simp at hc
    | cons _ _ => rfl
  obtain ⟨h, t, hs, hh⟩ := listSort_head_zero
    (l.map (fun c => ({ contact := c, target_key := key } : ContactAndTargetKey)))
    ⟨{ contact := c, target_key := key }, List.mem_map.2 ⟨c, hc, rfl⟩, hz⟩
  refine ⟨h.contact, t.map (fun ck => ck.contact), ?_, hh⟩
  simp only [SortContactList, hne, Bool.false_eq_true, if_false, hs, List.map_cons]

/-- A record tagged `round` keeps its tag through `ncReplace` with a record of the same
tag. -/
theorem ncReplace_rounds (c : Contact) (t it : NodeContainerTuple)
    (ht : t.round = it.round) :
    ∀ nc : NodeContainer, ncFind nc c = some it →
      (ncReplace c t nc).map (fun e => e.round) = nc.map (fun e => e.round) := by
  intro nc
  induction nc with
  | nil => intro h; simp [ncFind] at h
  | cons e es ih =>
    intro h
    rw [ncReplace]
    by_cases hs : sameContact c e = true
    · rw [if_pos hs]
      have : it = e := by
        simp only [ncFind, List.find?_cons, hs, Option.some.injEq] at h
        exact h.symm
      simp [ht, this]
    · rw [if_neg hs]
      have h2 : ncFind es c = some it := by
        simp only [ncFind, List.find?_cons] at h
        simp only [Bool.not_eq_true] at hs
        rw [hs] at h
        exact h
      simp [ih h2]

/-- The marking step keeps the round tags: the tags after it are those of the old
ledger followed by those of the inserted records. -/
theorem markResponse_rounds (self : NodeImpl) (contact : Contact)
    (fna : FindNodesArgs) (mark : SearchMarking) (nodes : List Contact) :
    ∃ added : NodeContainer,
      (self.MarkResponse contact fna mark nodes).2.1.nc.map (fun e => e.round) =
        (fna.nc ++ added).map (fun e => e.round) := by
  obtain ⟨added, hadd, _, _, _⟩ := insertResponseNodes_spec self nodes fna.nc
  refine ⟨added, ?_⟩
  rw [← hadd]
  cases hf : ncFind (self.insertResponseNodes fna.nc nodes).1 contact with
  | some it =>
    have h2 : (self.MarkResponse contact fna mark nodes).2.1.nc =
        ncReplace contact
          (if mark = SEARCH_DOWN then { it with state := kDown }
            else { it with state := kContacted })
          (self.insertResponseNodes fna.nc nodes).1 := by
      simp [NodeImpl.MarkResponse, hf]
    rw [h2]
    apply ncReplace_rounds contact _ it _ _ hf
    split <;> rfl
  | none =>
    have h2 : (self.MarkResponse contact fna mark nodes).2.1.nc =
        (self.insertResponseNodes fna.nc nodes).1 := by
      simp [NodeImpl.MarkResponse, hf]
    rw [h2]

/-- With `beta ≥ 1` and a record tagged `round`, the round-advance condition yields a
record in state `kContacted`. -/
theorem roundAdvance_contacted (self : NodeImpl) (nc : NodeContainer) (round : Int)
    (hβ : 0 < self.kBeta) (hsent : ∃ e ∈ nc, e.round = round)
    (hr : self.roundAdvance nc round) :
    ∃ e ∈ nc, e.round = round ∧ e.state = kContacted := by
  have hpos : 0 < nc.countP (fun e => e.round = round) := by
    obtain ⟨e, he, her⟩ := hsent
    exact List.countP_pos_iff.2 ⟨e, he, by simpa using her⟩
  have hrep : 0 < nc.countP (fun e => e.round = round ∧ e.state = kContacted) := by
    rcases hr with ⟨_, h2⟩ | ⟨_, h2⟩
    · exact Nat.lt_of_lt_of_le hβ h2
    · rw [h2]
      exact hpos
  obtain ⟨e, he, hp⟩ := List.countP_pos_iff.1 hrep
  simp only [decide_eq_true_eq] at hp
  exact ⟨e, he, hp.1, hp.2⟩

/-- The sorted live list cut to `K ≥ 1` is not empty when a record is live. -/
theorem closestK_ne_nil (self : NodeImpl) (key : NodeId) (nc : NodeContainer)
    (hK : 0 < self.K_) (hl : ∃ e ∈ nc, e.state ≠ kDown) :
    self.closestK key nc ≠ [] := by
  obtain ⟨e, he, hs⟩ := hl
  have hmem : e.contact ∈ SortContactList key (liveContacts nc) :=
    (sortContactList_perm key _).symm.subset (mem_liveContacts.2 ⟨e, he, hs, rfl⟩)
  intro hnil
  unfold NodeImpl.closestK at hnil
  rw [List.take_eq_nil_iff] at hnil
  rcases hnil with h0 | hnil
  · omega
  · rw [hnil] at hmem
    simp at hmem

/-- The return value of `HandleIterationStructure` on a session that is not completed is
the return value of `MarkResponse`. -/
theorem his_ret (self : NodeImpl) (contact : Contact) (fna : FindNodesArgs)
    (round : Int) (mark : SearchMarking) (nodes : List Contact) (d c : Bool)
    (res : IterationResult) (hc : fna.calledback = false)
    (h : self.HandleIterationStructure contact fna round mark nodes d c = some res) :
    res.ret = (self.MarkResponse contact fna mark nodes).1 := by
  rw [his_not_completed self contact fna round mark nodes d c hc] at h
  split at h
  · unfold NodeImpl.nextIteration at h
    simp only at h
    split at h
    · simp at h
    · split at h <;>
        · simp only [Option.some.injEq] at h
          rw [← h]
  · simp only [Option.some.injEq] at h
    rw [← h]

/-- In a container with unique contacts at most `sel.length` records have their contact
in `sel`. -/
theorem countP_contact_le (nc : NodeContainer) (sel : List Contact)
    (hu : ncUnique nc) :
    nc.countP (fun e => decide (e.contact ∈ sel)) ≤ sel.length := by
  rw [List.countP_eq_length_filter, ← List.length_map _ (fun e => e.contact)]
  apply List.Subperm.length_le
  apply List.subperm_of_subset
  · have hc : (nc.map (fun e => e.contact)).Nodup := by
      unfold ncUnique at hu
      rw [show nc.map (fun e => e.contact.node_id) =
        (nc.map (fun e => e.contact)).map (fun c => c.node_id) by
          rw [List.map_map]; rfl] at hu
      exact List.Nodup.of_map _ hu
    exact List.Nodup.sublist (List.Sublist.map _ (List.filter_sublist nc)) hc
  · intro c hc
    obtain ⟨e, he, rfl⟩ := List.mem_map.1 hc
    simpa using (List.mem_filter.1 he).2

/-- Selecting the contacts `sel`, at most `alpha` of them, for a round `R` later than
every round of a record counted by `q` keeps the number of records per round counted by
`q` at most `alpha`. -/
theorem select_round_bound (q : NodeContainerTuple → Bool) (alpha : Nat)
    (nc : NodeContainer) (sel : List Contact) (R cur : Int)
    (hu : ncUnique nc) (hlen : sel.length ≤ alpha) (hlt : cur < R)
    (hi : ∀ e ∈ nc, q e = true → e.round ≤ cur)
    (hcnt : ∀ r, nc.countP (fun e => decide (e.round = r) && q e) ≤ alpha) :
    (∀ e ∈ nc.map (selectEntry R sel), q e = true → e.round ≤ R) ∧
    ∀ r, (nc.map (selectEntry R sel)).countP
      (fun e => decide (e.round = r) && q e) ≤ alpha := by
  constructor
  · intro e he hq
    obtain ⟨x, hx, rfl⟩ := List.mem_map.1 he
    unfold selectEntry at hq ⊢
    split
    · exact Int.le_refl _
    · rename_i hns
      rw [if_neg hns] at hq
      exact Int.le_of_lt (Int.lt_of_le_of_lt (hi x hx hq) hlt)
  · intro r
    rw [List.countP_map]
    by_cases hr : r = R
    · refine Nat.le_trans ?_ (Nat.le_trans (countP_contact_le nc sel hu) hlen)
      apply List.countP_mono_left
      intro x hx hp
      simp only [Function.comp_apply, Bool.and_eq_true, decide_eq_true_eq] at hp
      by_cases hs : x.contact ∈ sel
      · simpa using hs
      · exfalso
        simp only [selectEntry, if_neg hs] at hp
        have := hi x hx hp.2
        rw [hp.1, hr] at this
        omega
    · refine Nat.le_trans ?_ (hcnt r)
      apply List.countP_mono_left
      intro x _ hp
      simp only [Function.comp_apply, Bool.and_eq_true, decide_eq_true_eq] at hp
      by_cases hs : x.contact ∈ sel
      · exfalso
        simp only [selectEntry, if_pos hs] at hp
        exact hr hp.1.symm
      · simp only [selectEntry, if_neg hs] at hp
        simpa using hp

/-- The marking step keeps the bound on the records per round counted by `q`, when
marking makes `q` true for no record and `q` is false on new records. -/
theorem mark_round_bound (q : NodeContainerTuple → Bool) (self : NodeImpl)
    (contact : Contact) (fna : FindNodesArgs) (mark : SearchMarking)
    (nodes : List Contact) (hu : ncUnique fna.nc)
    (hq : ∀ x ∈ (self.insertResponseNodes fna.nc nodes).1,
      q (markEntry contact mark x) = true → q x = true)
    (hnew : ∀ a : NodeContainerTuple, a.state = kNew → a.round = self.kTupleRound →
      q a = false)
    (hi : ∀ e ∈ fna.nc, q e = true → e.round ≤ fna.round)
    (hcnt : ∀ r, fna.nc.countP (fun e => decide (e.round = r) && q e) ≤ self.kAlpha) :
    (∀ e ∈ (self.MarkResponse contact fna mark nodes).2.1.nc, q e = true →
      e.round ≤ fna.round) ∧
    ∀ r, (self.MarkResponse contact fna mark nodes).2.1.nc.countP
      (fun e => decide (e.round = r) && q e) ≤ self.kAlpha := by
  obtain ⟨added, hadd, hall, huniq, _⟩ := insertResponseNodes_spec self nodes fna.nc
  have hu2 : ncUnique (self.insertResponseNodes fna.nc nodes).1 := by
    rw [hadd]
    exact huniq hu
  have hold : ∀ x ∈ (self.insertResponseNodes fna.nc nodes).1, q x = true →
      x ∈ fna.nc := by
    intro x hx hqx
    rw [hadd] at hx
    rcases List.mem_append.1 hx with h | h
    · exact h
    · have := hnew x (hall x h).1 (hall x h).2.1
      rw [this] at hqx
      simp at hqx
  have hcnt2 : ∀ r, (self.insertResponseNodes fna.nc nodes).1.countP
      (fun e => decide (e.round = r) && q e) ≤ self.kAlpha := by
    intro r
    rw [hadd, List.countP_append]
    have h0 : added.countP (fun e => decide (e.round = r) && q e) = 0 := by
      rw [List.countP_eq_zero]
      intro a ha
      simp [hnew a (hall a ha).1 (hall a ha).2.1]
    rw [h0]
    exact hcnt r
  have hform : ∃ g : NodeContainerTuple → NodeContainerTuple,
      (self.MarkResponse contact fna mark nodes).2.1.nc =
        (self.insertResponseNodes fna.nc nodes).1.map g ∧
      ∀ x ∈ (self.insertResponseNodes fna.nc nodes).1,
        (g x).round = x.round ∧ (q (g x) = true → q x = true) := by
    by_cases hex : ∃ e ∈ (self.insertResponseNodes fna.nc nodes).1,
        e.contact.node_id = contact.node_id
    · refine ⟨markEntry contact mark,
        ((markResponse_spec self contact fna mark nodes hu2).1 hex).2, ?_⟩
      intro x hx
      exact ⟨(markEntry_id contact mark x).2, hq x hx⟩
    · refine ⟨id, ?_, fun x _ => ⟨rfl, fun h => h⟩⟩
      rw [List.map_id]
      exact ((markResponse_spec self contact fna mark nodes hu2).2
        (fun e he hid => hex ⟨e, he, hid⟩)).2
  obtain ⟨g, hg, hgx⟩ := hform
  rw [hg]
  constructor
  · intro e he hqe
    obtain ⟨x, hx, rfl⟩ := List.mem_map.1 he
    rw [(hgx x hx).1]
    exact hi x (hold x hx ((hgx x hx).2 hqe)) ((hgx x hx).2 hqe)
  · intro r
    rw [List.countP_map]
    refine Nat.le_trans ?_ (hcnt2 r)
    apply List.countP_mono_left
    intro x hx hp
    simp only [Function.comp_apply, Bool.and_eq_true, decide_eq_true_eq] at hp
    simp only [Bool.and_eq_true, decide_eq_true_eq]
    exact ⟨by rw [← (hgx x hx).1]; exact hp.1, (hgx x hx).2 hp.2⟩

/-- A call of `HandleIterationStructure` keeps the bound on the records per round
counted by `q`. -/
theorem his_round_bound (q : NodeContainerTuple → Bool) (self : NodeImpl)
    (contact : Contact) (fna : FindNodesArgs) (round : Int) (mark : SearchMarking)
    (nodes : List Contact) (res : IterationResult) (hu : ncUnique fna.nc)
    (hq : ∀ x ∈ (self.insertResponseNodes fna.nc nodes).1,
      q (markEntry contact mark x) = true → q x = true)
    (hnew : ∀ a : NodeContainerTuple, a.state = kNew → a.round = self.kTupleRound →
      q a = false)
    (hi : ∀ e ∈ fna.nc, q e = true → e.round ≤ fna.round)
    (hcnt : ∀ r, fna.nc.countP (fun e => decide (e.round = r) && q e) ≤ self.kAlpha)
    (h : self.HandleIterationStructure contact fna round mark nodes false false =
      some res) :
    (∀ e ∈ res.fna.nc, q e = true → e.round ≤ res.fna.round) ∧
    ∀ r, res.fna.nc.countP (fun e => decide (e.round = r) && q e) ≤ self.kAlpha := by
  cases hc : fna.calledback with
  | true =>
    rw [his_completed self contact fna round mark nodes false false hc] at h
    simp only [Option.some.injEq] at h
    subst h
    exact ⟨hi, hcnt⟩
  | false =>
    obtain ⟨mi, mcnt⟩ := mark_round_bound q self contact fna mark nodes hu hq hnew hi hcnt
    have hu1 := markResponse_unique self contact fna mark nodes hu
    rcases his_step self contact fna round mark nodes res hc hu h with
      ⟨_, hfna, _, _⟩ | ⟨_, _, hfna, _, _⟩ | ⟨_, _, _, hround, _, _, hnc, _, _⟩
    · rw [hfna, (markResponse_calledback self contact fna mark nodes).2.1]
      exact ⟨mi, mcnt⟩
    · rw [hfna]
      simp only [(markResponse_calledback self contact fna mark nodes).2.1]
      exact ⟨mi, mcnt⟩
    · rw [hnc, hround]
      apply select_round_bound q self.kAlpha _ _ (fna.round + 1) fna.round hu1 _
        (by omega) mi mcnt
      unfold NodeImpl.firstNew
      exact Nat.le_trans (List.length_take_le _ _) (Nat.le_refl _)

/-- The session `FindNodes` leaves fulfils the bound on the records per round counted by
`q`, when `q` is false on new records. -/
theorem findNodes_round_bound (q : NodeContainerTuple → Bool) (self : NodeImpl)
    (rt : NodeId → Nat → List Contact → List Contact) (fnp : FindNodesParams)
    (fna : FindNodesArgs) (effects : List SearchEffect)
    (hnew : ∀ a : NodeContainerTuple, a.state = kNew → a.round = self.kTupleRound →
      q a = false)
    (h : self.FindNodes rt fnp = some (fna, effects)) :
    ncUnique fna.nc ∧
    (∀ e ∈ fna.nc, q e = true → e.round ≤ fna.round) ∧
    ∀ r, fna.nc.countP (fun e => decide (e.round = r) && q e) ≤ self.kAlpha := by
  have hspec := findNodes_spec self rt fnp
  have hseed := (seedArgs_mem self rt fnp).1
  have hu := seedArgs_unique self rt fnp
  cases hb : (self.closestK fnp.key (self.seedArgs rt fnp).nc).getLast? with
  | none =>
    rw [hspec.1 hb] at h
    simp at h
  | some back =>
    rw [hspec.2 back hb] at h
    simp only [Option.some.injEq, Prod.mk.injEq] at h
    rw [← h.1]
    have hsel := select_round_bound q self.kAlpha (self.seedArgs rt fnp).nc
      ((self.closestK fnp.key (self.seedArgs rt fnp).nc).take self.kAlpha) 0 (-1) hu
      (List.length_take_le _ _) (by omega)
      (fun e he hqe => by
        have := hnew e (hseed e he).1 (hseed e he).2.1
        rw [this] at hqe
        simp at hqe)
      (fun r => by
        have h0 : (self.seedArgs rt fnp).nc.countP
            (fun e => decide (e.round = r) && q e) = 0 := by
          rw [List.countP_eq_zero]
          intro a ha
          simp [hnew a (hseed a ha).1 (hseed a ha).2.1]
        rw [h0]
        exact Nat.zero_le _)
    exact ⟨map_selectEntry_unique 0 _ _ hu, hsel.1, hsel.2⟩

/-- Every reachable session fulfils the bound on the records per round counted by `q`,
when `q` is false on new records and the admitted calls make `q` true for no
record. -/
theorem reached_round_bound (q : NodeContainerTuple → Bool) (self : NodeImpl)
    (ok : FindNodesArgs → Contact → Prop)
    (rt : NodeId → Nat → List Contact → List Contact) (fnp : FindNodesParams)
    (hnew : ∀ a : NodeContainerTuple, a.state = kNew → a.round = self.kTupleRound →
      q a = false)
    (hq : ∀ (f : FindNodesArgs) (c : Contact) (mark : SearchMarking)
      (nodes : List Contact), ok f c → ncUnique f.nc →
      ∀ x ∈ (self.insertResponseNodes f.nc nodes).1,
        q (markEntry c mark x) = true → q x = true)
    (fna : FindNodesArgs) (h : self.Reached ok rt fnp fna) :
    ncUnique fna.nc ∧
    (∀ e ∈ fna.nc, q e = true → e.round ≤ fna.round) ∧
    ∀ r, fna.nc.countP (fun e => decide (e.round = r) && q e) ≤ self.kAlpha := by
  induction h with
  | seed fna effects h => exact findNodes_round_bound q self rt fnp fna effects hnew h
  | response fna contact round mark nodes res _ hok h ih =>
    obtain ⟨hu, hi, hcnt⟩ := ih
    have hb := his_round_bound q self contact fna round mark nodes res hu
      (hq fna contact mark nodes hok hu) hnew hi hcnt h
    exact ⟨his_unique self contact fna round mark nodes res hu h, hb.1, hb.2⟩

theorem listInsert_compare_distance (key : NodeId) (x : Contact)
    (hx : x.node_id ≠ kZeroId) :
    ∀ l : List Contact, (∀ c ∈ l, c.node_id ≠ kZeroId) →
      listInsert CompareContact { contact := x, target_key := key }
          (l.map (fun c => ({ contact := c, target_key := key } : ContactAndTargetKey))) =
        (listInsert (fun a b => decide (distance key a.node_id < distance key b.node_id))
          x l).map (fun c => ({ contact := c, target_key := key } : ContactAndTargetKey)) := by
  intro l
  induction l with
  | nil => intro _; rfl
  | cons y ys ih =>
    intro hl
    have hy : y.node_id ≠ kZeroId := hl y (List.mem_cons_self _ _)
    have hcmp : CompareContact { contact := y, target_key := key }
        { contact := x, target_key := key } =
        decide (distance key y.node_id < distance key x.node_id) := by
      simp [CompareContact, CloserToTarget, distance, hx, hy]
    simp only [List.map_cons, listInsert, hcmp]
    by_cases hlt : distance key y.node_id < distance key x.node_id
    · simp only [hlt, decide_True, if_true, List.map_cons]
      rw [ih (fun c hc => hl c (List.mem_cons_of_mem _ hc))]
    · simp only [hlt, decide_False, Bool.false_eq_true, if_false, List.map_cons]

theorem listSort_compare_distance (key : NodeId) :
    ∀ l : List Contact, (∀ c ∈ l, c.node_id ≠ kZeroId) →
      listSort CompareContact
          (l.map (fun c => ({ contact := c, target_key := key } : ContactAndTargetKey))) =
        (sortByDistance key l).map
          (fun c => ({ contact := c, target_key := key } : ContactAndTargetKey)) := by
  intro l
  induction l with
  | nil => intro _; rfl
  | cons x xs ih =>
    intro hl
    have hxs : ∀ c ∈ xs, c.node_id ≠ kZeroId := fun c hc => hl c (List.mem_cons_of_mem _ hc)
    simp only [List.map_cons, listSort, sortByDistance]
    have ih2 := ih hxs
    simp only [sortByDistance] at ih2
    rw [ih2]
    apply listInsert_compare_distance key x (hl x (List.mem_cons_self _ _))
    intro c hc
    exact hxs c ((listSort_perm _ xs).subset hc)

/-- Without a contact with the default identifier `SortContactList` sorts by distance
alone. -/
theorem sortContactList_eq_sortByDistance (key : NodeId) (l : List Contact)
    (hz : ∀ c ∈ l, c.node_id ≠ kZeroId) :
    SortContactList key l = sortByDistance key l := by
  cases l with
  | nil => rfl
  | cons x xs =>
    simp only [SortContactList, List.isEmpty_cons, Bool.false_eq_true, if_false]
    rw [listSort_compare_distance key (x :: xs) hz, List.map_map]
    exact List.map_id _

/-- Without a live record with the default identifier the sorted live list cut to `K`
is the distance-sorted one. -/
theorem closestK_eq_distanceTopK (self : NodeImpl) (key : NodeId) (nc : NodeContainer)
    (hz : ∀ e ∈ nc, e.state ≠ kDown → e.contact.node_id ≠ kZeroId) :
    self.closestK key nc = self.distanceTopK key nc := by
  unfold NodeImpl.closestK NodeImpl.distanceTopK
  rw [sortContactList_eq_sortByDistance]
  intro c hc
  obtain ⟨e, he, hs, rfl⟩ := mem_liveContacts.1 hc
  exact hz e he hs

/-- In a list in strictly increasing order of `d`, the element at index `i` has exactly
`i` elements before it in that order. -/
theorem pairwise_closer_count (d : Contact → Nat) :
    ∀ (s : List Contact) (i : Nat) (x : Contact),
      s.Pairwise (fun a b => d a < d b) → s[i]? = some x →
      s.countP (fun c => decide (d c < d x)) = i := by
  intro s
  induction s with
  | nil => intro i x _ h; simp at h
  | cons a t ih =>
    intro i x hp h
    rw [List.pairwise_cons] at hp
    cases i with
    | zero =>
      simp only [List.getElem?_cons_zero, Option.some.injEq] at h
      subst h
      rw [List.countP_cons_of_neg]
      · rw [List.countP_eq_zero]
        intro c hc
        have := hp.1 c hc
        simp only [decide_eq_true_eq]
        omega
      · simp
    | succ j =>
      simp only [List.getElem?_cons_succ] at h
      have hx : x ∈ t := List.getElem?_mem h
      rw [List.countP_cons_of_pos]
      · rw [ih j x hp.2 h]
      · simpa using hp.1 x hx

/-- In a list in strictly increasing order of `d` no element is beyond the last one. -/
theorem pairwise_last_farthest (d : Contact → Nat) :
    ∀ (s : List Contact) (x : Contact),
      s.Pairwise (fun a b => d a < d b) → s.getLast? = some x →
      ∀ c ∈ s, d c ≤ d x := by
  intro s
  induction s with
  | nil => intro x _ h; simp at h
  | cons a t ih =>
    intro x hp h c hc
    rw [List.pairwise_cons] at hp
    cases t with
    | nil =>
      simp only [List.getLast?_singleton, Option.some.injEq] at h
      simp only [List.mem_singleton] at hc
      rw [hc, h]
    | cons b u =>
      rw [List.getLast?_cons_cons] at h
      have hx : x ∈ b :: u := List.mem_of_getLast?_eq_some h
      rcases List.mem_cons.1 hc with rfl | hc
      · exact Nat.le_of_lt (hp.1 x hx)
      · exact ih x hp.2 h c hc

/-- Without a live record with the default identifier, the last contact of the sorted
live list cut to `K` is a live contact; with at least `K` live contacts exactly `K - 1`
of them are strictly closer to the key, and with at most `K` none is farther. -/
theorem closestK_back_rank (self : NodeImpl) (key : NodeId) (nc : NodeContainer)
    (back : Contact) (hu : ncUnique nc)
    (hz : ∀ e ∈ nc, e.state ≠ kDown → e.contact.node_id ≠ kZeroId)
    (hb : (self.closestK key nc).getLast? = some back) :
    back ∈ liveContacts nc ∧
    (self.K_ ≤ (liveContacts nc).length →
      closerCount key (liveContacts nc) back = self.K_ - 1) ∧
    ((liveContacts nc).length ≤ self.K_ →
      ∀ c ∈ liveContacts nc, distance key c.node_id ≤ distance key back.node_id) := by
  have hp := sortContactList_perm key (liveContacts nc)
  have hs := sortContactList_dist_strict key (liveContacts nc)
    (liveContacts_ids_nodup hu)
    (fun c hc => by
      obtain ⟨e, he, hst, rfl⟩ := mem_liveContacts.1 hc
      exact hz e he hst)
  obtain ⟨hK, hidx⟩ := closestK_getLast self key nc back hb
  refine ⟨hp.subset (List.getElem?_mem hidx), ?_, ?_⟩
  · intro hle
    rw [Nat.min_eq_right hle] at hidx
    unfold closerCount
    rw [← hp.countP_eq]
    exact pairwise_closer_count (fun c => distance key c.node_id) _ _ _ hs hidx
  · intro hle c hc
    unfold NodeImpl.closestK at hb
    rw [List.take_of_length_le (by rw [hp.length_eq]; exact hle)] at hb
    exact pairwise_last_farthest (fun c => distance key c.node_id) _ _ hs hb c
      (hp.symm.subset hc)

/-- On a session that is not completed, a successful response for the contact of a
record in state `kDown` sets that record to `kContacted`. -/
theorem down_entry_revived (self : NodeImpl) (contact : Contact) (fna : FindNodesArgs)
    (round : Int) (nodes : List Contact)
    (res : IterationResult) (e : NodeContainerTuple)
    (hu : ncUnique fna.nc) (he : e ∈ fna.nc) (hd : e.state = kDown)
    (hc : fna.calledback = false) (hid : contact.node_id = e.contact.node_id)
    (h : self.HandleIterationStructure contact fna round SEARCH_CONTACTED nodes
      false false = some res) :
    ({ e with state := kContacted } : NodeContainerTuple) ∈ res.fna.nc ∧
    e ∉ res.fna.nc := by
  have hu1 := markResponse_unique self contact fna SEARCH_CONTACTED nodes hu
  obtain ⟨added, h1, _, _⟩ := markResponse_ledger self contact fna SEARCH_CONTACTED nodes
    hu ⟨e, he, hid.symm⟩
  have hme : markEntry contact SEARCH_CONTACTED e = { e with state := kContacted } := by
    unfold markEntry
    rw [if_pos hid.symm]
    rfl
  have he1 : ({ e with state := kContacted } : NodeContainerTuple) ∈
      (self.MarkResponse contact fna SEARCH_CONTACTED nodes).2.1.nc := by
    rw [h1, ← hme]
    exact List.mem_append_left _ (List.mem_map.2 ⟨e, he, rfl⟩)
  have hin : ({ e with state := kContacted } : NodeContainerTuple) ∈ res.fna.nc := by
    rcases his_step self contact fna round SEARCH_CONTACTED nodes res hc hu h with
      ⟨_, h2, _⟩ | ⟨_, _, h2, _⟩ | ⟨_, _, _, _, _, _, h2, _⟩
    · rw [h2]; exact he1
    · rw [h2]; exact he1
    · rw [h2, List.mem_map]
      refine ⟨_, he1, ?_⟩
      unfold selectEntry
      rw [if_neg]
      intro hsel
      obtain ⟨_, e', he', hc', hs'⟩ := mem_firstNew hsel
      have : e' = { e with state := kContacted } :=
        ncUnique_eq_of_id hu1 he' he1 (by rw [hc'])
      rw [this] at hs'
      simp at hs'
  refine ⟨hin, fun hold => ?_⟩
  have hu2 := his_unique self contact fna round SEARCH_CONTACTED nodes res hu h
  have := ncUnique_eq_of_id hu2 hold hin rfl
  rw [this] at hd
  simp at hd

/-! ## The claims -/

/-- C1: in any sequence of `HandleIterationStructure` calls on one session at
most one call returns `top_nodes_done = true` with `calledback = false`, and
every call after that one returns `top_nodes_done = true` and
`calledback = true`; these are the results for which `IterativeSearch` invokes
the result callback. -/
theorem runResponses_fires_once (self : NodeImpl) (fna : FindNodesArgs)
    (rs : List Response) :
    (self.runResponses fna rs).countP IterationResult.fires ≤ 1 ∧
    (∀ pre o post, self.runResponses fna rs = pre ++ o :: post →
      o.fires = true →
      ∀ x ∈ post, x.top_nodes_done = true ∧ x.calledback = true) ∧
    (∀ x ∈ self.runResponses fna rs,
      (x.fires = true ↔ ∃ l, SearchEffect.callback l ∈
        IterativeSearch x.fna x.top_nodes_done x.calledback x.nodes
          x.nodes_pending)) := by
  refine ⟨(run_fires_at_most_once self fna rs).1,
    (run_fires_at_most_once self fna rs).2, ?_⟩
  intro x _
  simp only [iterativeSearch_callback_iff, IterationResult.fires,
    Bool.and_eq_true, Bool.not_eq_true']
  constructor
  · rintro ⟨h1, h2⟩
    exact ⟨x.nodes, h1, h2, rfl⟩
  · rintro ⟨_, h1, h2, _⟩
    exact ⟨h1, h2⟩

/-- C2, as amended: on a session that is not completed, for a response that fulfils
the round-advance condition, `HandleIterationStructure` reports termination
exactly when the last contact of the live list sorted by `CompareContact` and cut
to `K` is the watermark, no contact of that list is `kNew` or `kSelectedAlpha`, and
nothing is pending; the list it returns then is that truncated list.  When no live
record has the default identifier, that list is the distance-sorted live list cut to
`K`, and both statements hold of it: it is in ascending distance order, no live
contact outside it is closer than one of its contacts, and its length is the smaller
of `K` and the number of live contacts. -/
theorem termination_iff_converged (self : NodeImpl) (contact : Contact)
    (fna : FindNodesArgs) (round : Int) (mark : SearchMarking)
    (nodes : List Contact) (hc : fna.calledback = false) (hu : ncUnique fna.nc)
    (hr : self.roundAdvance (self.MarkResponse contact fna mark nodes).2.1.nc round) :
    ((∃ res, self.HandleIterationStructure contact fna round mark nodes false false
          = some res ∧
        res.top_nodes_done = true ∧ res.calledback = false ∧
        res.fna.calledback = true) ↔
      converged (self.MarkResponse contact fna mark nodes).2.1
        (self.closestK fna.key (self.MarkResponse contact fna mark nodes).2.1.nc)) ∧
    (∀ res, self.HandleIterationStructure contact fna round mark nodes false false
          = some res →
        res.top_nodes_done = true →
        res.nodes =
          self.closestK fna.key (self.MarkResponse contact fna mark nodes).2.1.nc) ∧
    ((∀ e ∈ (self.MarkResponse contact fna mark nodes).2.1.nc, e.state ≠ kDown →
        e.contact.node_id ≠ kZeroId) →
      self.closestK fna.key (self.MarkResponse contact fna mark nodes).2.1.nc =
        self.distanceTopK fna.key (self.MarkResponse contact fna mark nodes).2.1.nc ∧
      ((∃ res, self.HandleIterationStructure contact fna round mark nodes false false
            = some res ∧
          res.top_nodes_done = true ∧ res.calledback = false ∧
          res.fna.calledback = true) ↔
        converged (self.MarkResponse contact fna mark nodes).2.1
          (self.distanceTopK fna.key
            (self.MarkResponse contact fna mark nodes).2.1.nc)) ∧
      (∀ res, self.HandleIterationStructure contact fna round mark nodes false false
            = some res →
          res.top_nodes_done = true →
          res.nodes =
            self.distanceTopK fna.key
              (self.MarkResponse contact fna mark nodes).2.1.nc) ∧
      closestLive fna.key (self.MarkResponse contact fna mark nodes).2.1.nc
        (self.distanceTopK fna.key (self.MarkResponse contact fna mark nodes).2.1.nc) ∧
      (self.distanceTopK fna.key
          (self.MarkResponse contact fna mark nodes).2.1.nc).length =
        min self.K_
          (liveContacts (self.MarkResponse contact fna mark nodes).2.1.nc).length) := by
  have hm := markResponse_calledback self contact fna mark nodes
  have hu1 := markResponse_unique self contact fna mark nodes hu
  have hh := his_not_completed self contact fna round mark nodes false false hc
  suffices main :
      ((∃ res, self.HandleIterationStructure contact fna round mark nodes false false
            = some res ∧
          res.top_nodes_done = true ∧ res.calledback = false ∧
          res.fna.calledback = true) ↔
        converged (self.MarkResponse contact fna mark nodes).2.1
          (self.closestK fna.key (self.MarkResponse contact fna mark nodes).2.1.nc)) ∧
      (∀ res, self.HandleIterationStructure contact fna round mark nodes false false
            = some res →
          res.top_nodes_done = true →
          res.nodes =
            self.closestK fna.key (self.MarkResponse contact fna mark nodes).2.1.nc) by
    refine ⟨main.1, main.2, fun hz => ?_⟩
    have heq := closestK_eq_distanceTopK self fna.key
      (self.MarkResponse contact fna mark nodes).2.1.nc hz
    have hlen : (self.closestK fna.key
        (self.MarkResponse contact fna mark nodes).2.1.nc).length =
        min self.K_
          (liveContacts (self.MarkResponse contact fna mark nodes).2.1.nc).length := by
      unfold NodeImpl.closestK
      rw [List.length_take, (sortContactList_perm _ _).length_eq]
    rw [← heq]
    exact ⟨rfl, main.1, main.2, closestK_closestLive self fna.key _ hz, hlen⟩
  rw [if_pos ((roundDone_iff_roundAdvance _ _ _).2 hr)] at hh
  obtain ⟨s1, s2, s3⟩ := nextIteration_spec self
    (self.MarkResponse contact fna mark nodes).1
    (self.MarkResponse contact fna mark nodes).2.1 false false hu1
  rw [hm.2.2.2] at s1 s2 s3
  constructor
  · constructor
    · rintro ⟨res, hres, hd, _, _⟩
      by_contra hconv
      rw [hh] at hres
      cases hb : (self.closestK fna.key
          (self.MarkResponse contact fna mark nodes).2.1.nc).getLast? with
      | none => rw [s3 hb] at hres; exact absurd hres (by simp)
      | some back =>
        rw [s2 hconv back hb] at hres
        simp only [Option.some.injEq] at hres
        subst hres
        simp at hd
    · intro hconv
      rw [hh, s1 hconv]
      exact ⟨_, rfl, rfl, by simp [hm.1, hc], rfl⟩
  · intro res hres hd
    rw [← topNodes_eq_closestK self
      { (self.MarkResponse contact fna mark nodes).2.1 with key := fna.key }]
    have := (his_terminated self contact fna round mark nodes res hc hres hd).2
    rw [this, topNodes_eq_closestK, topNodes_eq_closestK, hm.2.2.2]

/-- C2, witness: the answer of contact 2 in the session `exLast`, in which no
record has the default identifier. -/
theorem termination_iff_converged_witness :
    (exLast.calledback = false ∧ ncUnique exLast.nc ∧
      exNode.roundAdvance
        (exNode.MarkResponse exC2 exLast SEARCH_CONTACTED []).2.1.nc 0 ∧
      ∀ e ∈ (exNode.MarkResponse exC2 exLast SEARCH_CONTACTED []).2.1.nc,
        e.state ≠ kDown → e.contact.node_id ≠ kZeroId) ∧
    ((∃ res, exNode.HandleIterationStructure exC2 exLast 0 SEARCH_CONTACTED []
          false false = some res ∧
        res.top_nodes_done = true ∧ res.calledback = false ∧
        res.fna.calledback = true) ↔
      converged (exNode.MarkResponse exC2 exLast SEARCH_CONTACTED []).2.1
        (exNode.closestK exLast.key
          (exNode.MarkResponse exC2 exLast SEARCH_CONTACTED []).2.1.nc)) ∧
    ((∃ res, exNode.HandleIterationStructure exC2 exLast 0 SEARCH_CONTACTED []
          false false = some res ∧
        res.top_nodes_done = true ∧ res.calledback = false ∧
        res.fna.calledback = true) ↔
      converged (exNode.MarkResponse exC2 exLast SEARCH_CONTACTED []).2.1
        (exNode.distanceTopK exLast.key
          (exNode.MarkResponse exC2 exLast SEARCH_CONTACTED []).2.1.nc)) :=
  ⟨⟨by decide, by decide, by decide, by decide⟩,
    (termination_iff_converged exNode exC2 exLast 0 SEARCH_CONTACTED []
      (by decide) (by decide) (by decide)).1,
    ((termination_iff_converged exNode exC2 exLast 0 SEARCH_CONTACTED []
      (by decide) (by decide) (by decide)).2.2 (by decide)).2.1⟩

/-- C2, counterexample: with `K = 1`, in the lookup of the key 1 started from contact
1, contact 1 answers with contact 0, which has the default identifier.  The
round-advance condition holds.  The distance-sorted live list cut to `K` is `[1]`:
its last contact is the watermark, contact 1 is neither `kNew` nor `kSelectedAlpha`,
and nothing is pending.  The call does not report termination: the list sorted by
`CompareContact` is `[0]`, and contact 0 is returned as the next candidate. -/
theorem termination_not_by_distance :
    exNode1.FindNodes exRoutingTable
        { key := 1, start_nodes := [exC1], exclude_nodes := [],
          use_routingtable := false } =
      some (exOneSeed, [SearchEffect.rpc { contact := exC1, round := 0 }]) ∧
    exNode1.roundAdvance
      (exNode1.MarkResponse exC1 exOneSeed SEARCH_CONTACTED [exC0]).2.1.nc 0 ∧
    exNode1.distanceTopK exOneSeed.key
      (exNode1.MarkResponse exC1 exOneSeed SEARCH_CONTACTED [exC0]).2.1.nc = [exC1] ∧
    converged (exNode1.MarkResponse exC1 exOneSeed SEARCH_CONTACTED [exC0]).2.1
      (exNode1.distanceTopK exOneSeed.key
        (exNode1.MarkResponse exC1 exOneSeed SEARCH_CONTACTED [exC0]).2.1.nc) ∧
    exNode1.closestK exOneSeed.key
      (exNode1.MarkResponse exC1 exOneSeed SEARCH_CONTACTED [exC0]).2.1.nc = [exC0] ∧
    exNode1.HandleIterationStructure exC1 exOneSeed 0 SEARCH_CONTACTED [exC0]
        false false =
      some { ret := true
             fna := { key := 1, kth_closest := 0,
                      nc := [{ contact := exC1, state := kContacted, round := 0 },
                             { contact := exC0, state := kSelectedAlpha, round := 1 }],
                      calledback := false, round := 1 }
             nodes := [exC0]
             top_nodes_done := false
             calledback := false
             nodes_pending := 0 } := by
  refine ⟨by decide, by decide, by decide, ?_, by decide, by decide⟩
  rw [show exNode1.distanceTopK exOneSeed.key
      (exNode1.MarkResponse exC1 exOneSeed SEARCH_CONTACTED [exC0]).2.1.nc = [exC1]
    by decide]
  exact ⟨⟨exC1, by decide, by decide⟩, by decide, by decide⟩

/-- C3: on a session that is not completed, `HandleIterationStructure` goes on
to the sort, termination and selection steps exactly when
`(sent > beta and replied >= beta) or (sent <= beta and replied == sent)`;
otherwise it returns an empty list and `top_nodes_done = false` and leaves the
round counter and the watermark as they were. -/
theorem round_advance_condition (self : NodeImpl) (contact : Contact)
    (fna : FindNodesArgs) (round : Int) (mark : SearchMarking)
    (nodes : List Contact) (hc : fna.calledback = false) :
    (self.roundAdvance (self.MarkResponse contact fna mark nodes).2.1.nc round ↔
      (self.HandleIterationStructure contact fna round mark nodes false false = none ∨
        ∃ res, self.HandleIterationStructure contact fna round mark nodes false false
            = some res ∧
          (res.top_nodes_done = true ∨ res.fna.round = fna.round + 1))) ∧
    (self.roundAdvance (self.MarkResponse contact fna mark nodes).2.1.nc round →
      self.HandleIterationStructure contact fna round mark nodes false false =
        self.nextIteration (self.MarkResponse contact fna mark nodes).1
          (self.MarkResponse contact fna mark nodes).2.1 [] false false
          (NodesPending (self.MarkResponse contact fna mark nodes).2.1)) ∧
    (¬ self.roundAdvance (self.MarkResponse contact fna mark nodes).2.1.nc round →
      ∃ res, self.HandleIterationStructure contact fna round mark nodes false false
          = some res ∧
        res.nodes = [] ∧ res.top_nodes_done = false ∧
        res.fna.round = fna.round ∧ res.fna.kth_closest = fna.kth_closest ∧
        res.fna.nc = (self.MarkResponse contact fna mark nodes).2.1.nc) := by
  have hr := his_not_completed self contact fna round mark nodes false false hc
  have hm := markResponse_calledback self contact fna mark nodes
  have hcond := roundDone_iff_roundAdvance self
    (self.MarkResponse contact fna mark nodes).2.1.nc round
  by_cases hq : self.roundAdvance (self.MarkResponse contact fna mark nodes).2.1.nc round
  · rw [if_pos (hcond.2 hq)] at hr
    refine ⟨⟨fun _ => ?_, fun _ => hq⟩, fun _ => hr, fun hn => absurd hq hn⟩
    cases hres : self.HandleIterationStructure contact fna round mark nodes false false with
    | none => exact Or.inl rfl
    | some res =>
      right
      refine ⟨res, rfl, ?_⟩
      rw [hr] at hres
      rcases nextIteration_cases _ _ _ _ _ _ _ _ hres with ⟨h1, _⟩ | ⟨_, _, _, h4⟩
      · exact Or.inl h1
      · right; rw [h4, hm.2.1]
  · rw [if_neg (fun h => hq (hcond.1 h))] at hr
    refine ⟨⟨fun h => absurd h hq, ?_⟩, fun h => absurd h hq, fun _ => ?_⟩
    · rintro (h | ⟨res, h, h2⟩)
      · rw [hr] at h; exact absurd h (by simp)
      · rw [hr] at h
        simp only [Option.some.injEq] at h
        subst h
        rcases h2 with h2 | h2
        · simp at h2
        · have h3 : (self.MarkResponse contact fna mark nodes).2.1.round =
              fna.round + 1 := h2
          have h4 := hm.2.1
          omega
    · exact ⟨_, hr, rfl, rfl, hm.2.1, hm.2.2.1, rfl⟩

/-- C3, witness: the answer of contact 1 in the session `exSeeded`. -/
theorem round_advance_condition_witness :
    exSeeded.calledback = false ∧
    (exNode.roundAdvance
        (exNode.MarkResponse exC1 exSeeded SEARCH_CONTACTED []).2.1.nc 0 ↔
      (exNode.HandleIterationStructure exC1 exSeeded 0 SEARCH_CONTACTED []
          false false = none ∨
        ∃ res, exNode.HandleIterationStructure exC1 exSeeded 0 SEARCH_CONTACTED []
            false false = some res ∧
          (res.top_nodes_done = true ∨ res.fna.round = exSeeded.round + 1))) :=
  ⟨by decide,
    (round_advance_condition exNode exC1 exSeeded 0 SEARCH_CONTACTED []
      (by decide)).1⟩

/-- C4, as amended: when `HandleIterationStructure` terminates a lookup and no
live record has the default (all-zero) identifier, the returned list holds the
`K` closest live contacts in ascending distance order. -/
theorem terminated_result_closest (self : NodeImpl) (contact : Contact)
    (fna : FindNodesArgs) (round : Int) (mark : SearchMarking)
    (nodes : List Contact) (res : IterationResult)
    (hc : fna.calledback = false)
    (h : self.HandleIterationStructure contact fna round mark nodes false false
      = some res)
    (hd : res.top_nodes_done = true)
    (hz : ∀ e ∈ res.fna.nc, e.state ≠ kDown → e.contact.node_id ≠ kZeroId) :
    closestLive fna.key res.fna.nc res.nodes := by
  obtain ⟨h1, h2⟩ := his_terminated self contact fna round mark nodes res hc h hd
  have hm := markResponse_calledback self contact fna mark nodes
  have hnc : res.fna.nc = (self.MarkResponse contact fna mark nodes).2.1.nc := by
    rw [h1]
  rw [h2, topNodes_eq_closestK, hm.2.2.2, ← hnc]
  exact closestK_closestLive self fna.key res.fna.nc hz

/-- C4, witness: the last response of the lookup `exParams`. -/
theorem terminated_result_closest_witness :
    closestLive exLast.key exDone.nc [exC1, exC2] :=
  terminated_result_closest exNode exC2 exLast 0 SEARCH_CONTACTED []
    { ret := true, fna := exDone, nodes := [exC1, exC2], top_nodes_done := true,
      calledback := false, nodes_pending := 0 }
    (by decide) (by decide) (by decide) (by decide)

/-- C4, counterexample: the last response of the lookup `exZeroParams` (key
1, contacts 0 and 1) terminates the lookup with the list `[0, 1]`, whose
distances to the key are `[1, 0]`. -/
theorem terminated_result_not_ascending :
    exNode.HandleIterationStructure exC1 exZeroLast 0 SEARCH_CONTACTED [] false false
      = some
        { ret := true
          fna := { exZeroLast with
            nc := [{ contact := exC0, state := kContacted, round := 0 },
                   { contact := exC1, state := kContacted, round := 0 }]
            calledback := true }
          nodes := [exC0, exC1]
          top_nodes_done := true
          calledback := false
          nodes_pending := 0 } ∧
    ¬ closestLive exZeroLast.key
        [{ contact := exC0, state := kContacted, round := 0 },
         { contact := exC1, state := kContacted, round := 0 }] [exC0, exC1] := by
  constructor
  · decide
  · decide

/-- C5: when `HandleIterationStructure` terminates a lookup, the returned list
has `min(K, L)` contacts, `L` being the number of ledger entries that are not
down. -/
theorem terminated_result_length (self : NodeImpl) (contact : Contact)
    (fna : FindNodesArgs) (round : Int) (mark : SearchMarking)
    (nodes : List Contact) (res : IterationResult)
    (hc : fna.calledback = false)
    (h : self.HandleIterationStructure contact fna round mark nodes false false
      = some res)
    (hd : res.top_nodes_done = true) :
    res.nodes.length = min self.K_ (res.fna.nc.countP (fun e => e.state ≠ kDown)) ∧
    res.nodes.length ≤ self.K_ ∧
    (res.fna.nc.countP (fun e => e.state ≠ kDown) < self.K_ →
      res.nodes.length = res.fna.nc.countP (fun e => e.state ≠ kDown)) := by
  obtain ⟨h1, h2⟩ := his_terminated self contact fna round mark nodes res hc h hd
  have hl : res.nodes.length =
      min self.K_ (res.fna.nc.countP (fun e => e.state ≠ kDown)) := by
    rw [h2, h1, topNodes_length]
  refine ⟨hl, ?_, ?_⟩
  · rw [hl]; exact Nat.min_le_left _ _
  · intro hlt; rw [hl]; omega

/-- C5, witness: the answer of contact 2 in the session `exLast` returns two
contacts; three records are not down. -/
theorem terminated_result_length_witness :
    [exC1, exC2].length = min exNode.K_ (exDone.nc.countP (fun e => e.state ≠ kDown)) :=
  (terminated_result_length exNode exC2 exLast 0 SEARCH_CONTACTED []
    { ret := true, fna := exDone, nodes := [exC1, exC2], top_nodes_done := true,
      calledback := false, nodes_pending := 0 }
    (by decide) (by decide) (by decide)).1

/-- C6, as amended: when the round-advance condition holds and the lookup does
not terminate, the next candidates are the first `min(alpha, n)` contacts in
state `kNew` of the sorted top-`K` live list; each of them is then
`kSelectedAlpha` with the incremented round, every other record is as it was
after the marking step; the candidates are in ascending distance order when no
live record has the default (all-zero) identifier.  The call does return such
a result whenever the top-`K` list is not empty and the termination test
fails. -/
theorem next_candidates (self : NodeImpl) (contact : Contact)
    (fna : FindNodesArgs) (round : Int) (mark : SearchMarking)
    (nodes : List Contact)
    (hc : fna.calledback = false) (hu : ncUnique fna.nc)
    (hr : self.roundAdvance (self.MarkResponse contact fna mark nodes).2.1.nc round) :
    (self.closestK fna.key (self.MarkResponse contact fna mark nodes).2.1.nc ≠ [] →
      ¬ converged (self.MarkResponse contact fna mark nodes).2.1
        (self.closestK fna.key (self.MarkResponse contact fna mark nodes).2.1.nc) →
      ∃ res, self.HandleIterationStructure contact fna round mark nodes false false
          = some res ∧ res.top_nodes_done = false) ∧
    ∀ res, self.HandleIterationStructure contact fna round mark nodes false false
        = some res →
      res.top_nodes_done = false →
      res.nodes = self.firstNew (self.MarkResponse contact fna mark nodes).2.1.nc
        (self.closestK fna.key (self.MarkResponse contact fna mark nodes).2.1.nc) ∧
      res.nodes.length = min self.kAlpha
        ((self.closestK fna.key (self.MarkResponse contact fna mark nodes).2.1.nc).countP
          (hasState (self.MarkResponse contact fna mark nodes).2.1.nc kNew)) ∧
      res.fna.round = fna.round + 1 ∧
      res.fna.nc = (self.MarkResponse contact fna mark nodes).2.1.nc.map
        (selectEntry (fna.round + 1) res.nodes) ∧
      (∀ c ∈ res.nodes, ∃ e ∈ res.fna.nc,
        e.contact = c ∧ e.state = kSelectedAlpha ∧ e.round = fna.round + 1) ∧
      ((∀ e ∈ (self.MarkResponse contact fna mark nodes).2.1.nc,
          e.state ≠ kDown → e.contact.node_id ≠ kZeroId) →
        ascending fna.key res.nodes) := by
  have hm := markResponse_calledback self contact fna mark nodes
  have hu1 := markResponse_unique self contact fna mark nodes hu
  have hh := his_not_completed self contact fna round mark nodes false false hc
  rw [if_pos ((roundDone_iff_roundAdvance _ _ _).2 hr)] at hh
  obtain ⟨s1, s2, s3⟩ := nextIteration_spec self
    (self.MarkResponse contact fna mark nodes).1
    (self.MarkResponse contact fna mark nodes).2.1 false false hu1
  rw [hm.2.2.2] at s1 s2 s3
  rw [hm.2.1] at s2
  constructor
  · intro hne hconv
    cases hb : (self.closestK fna.key
        (self.MarkResponse contact fna mark nodes).2.1.nc).getLast? with
    | none => exact absurd (List.getLast?_eq_none_iff.1 hb) hne
    | some back =>
      rw [hh, s2 hconv back hb]
      exact ⟨_, rfl, rfl⟩
  intro res h hd
  rw [hh] at h
  have hsel := selectAlphas_spec self (fna.round + 1)
    (self.closestK fna.key (self.MarkResponse contact fna mark nodes).2.1.nc)
    (self.MarkResponse contact fna mark nodes).2.1.nc 0 [] hu1
    (closestK_ids_nodup self fna.key hu1)
    (fun c hc => by
      obtain ⟨e, he, _, hec⟩ := mem_closestK hc
      exact ⟨e, he, hec⟩)
  simp only [Nat.sub_zero, List.nil_append] at hsel
  have hconv : ¬ converged (self.MarkResponse contact fna mark nodes).2.1
      (self.closestK fna.key (self.MarkResponse contact fna mark nodes).2.1.nc) := by
    intro hconv
    rw [s1 hconv] at h
    simp only [Option.some.injEq] at h
    subst h
    simp at hd
  cases hb : (self.closestK fna.key
      (self.MarkResponse contact fna mark nodes).2.1.nc).getLast? with
  | none => rw [s3 hb] at h; exact absurd h (by simp)
  | some back =>
    rw [s2 hconv back hb, hsel] at h
    simp only [Option.some.injEq] at h
    subst h
    have hsub : ∀ c ∈ self.firstNew (self.MarkResponse contact fna mark nodes).2.1.nc
        (self.closestK fna.key (self.MarkResponse contact fna mark nodes).2.1.nc),
        c ∈ self.closestK fna.key (self.MarkResponse contact fna mark nodes).2.1.nc :=
      fun c hc => List.mem_of_mem_filter (List.mem_of_mem_take hc)
    refine ⟨rfl, ?_, rfl, rfl, ?_, ?_⟩
    · simp only [NodeImpl.firstNew, List.length_take, List.countP_eq_length_filter]
    · intro c hc
      obtain ⟨e, he, _, hec⟩ := mem_closestK (hsub c hc)
      refine ⟨selectEntry (fna.round + 1) _ e, List.mem_map_of_mem _ he, ?_⟩
      simp only [selectEntry, hec, if_pos hc]
      exact ⟨trivial, trivial, trivial⟩
    · intro hz
      have hcl := closestK_closestLive self fna.key _ hz
      exact List.Pairwise.sublist
        ((List.take_sublist _ _).trans (List.filter_sublist _)) hcl.2

/-- C6, witness: in the lookup `exParams`, contact 1 answers with the new
contact 9, which is selected for round 1. -/
theorem next_candidates_witness :
    [exC9] = exNode.firstNew
      (exNode.MarkResponse exC1 exSeeded SEARCH_CONTACTED [exC9]).2.1.nc
      (exNode.closestK exSeeded.key
        (exNode.MarkResponse exC1 exSeeded SEARCH_CONTACTED [exC9]).2.1.nc) :=
  ((next_candidates exNode exC1 exSeeded 0 SEARCH_CONTACTED [exC9]
      (by decide) (by decide) (by decide)).2
    { ret := true
      fna := { exSeeded with
        kth_closest := 1
        round := 1
        nc := [{ contact := exC1, state := kContacted, round := 0 },
               { contact := exC2, state := kSelectedAlpha, round := 0 },
               { contact := exC3, state := kNew, round := -1 },
               { contact := exC9, state := kSelectedAlpha, round := 1 }] }
      nodes := [exC9]
      top_nodes_done := false
      calledback := false
      nodes_pending := 1 }
    (by decide) (by decide)).1

/-- C6, counterexample: in the lookup of the key 1 started from contact 5,
contact 5 answers with the new contacts 0 and 1; the round-advance condition
holds, the lookup does not terminate, and the next candidates are `[0, 1]`,
whose distances to the key are `[1, 0]`. -/
theorem next_candidates_not_ascending :
    exFive.calledback = false ∧
    exNode.roundAdvance
      (exNode.MarkResponse exC5 exFive SEARCH_CONTACTED [exC0, exC1]).2.1.nc 0 ∧
    exNode.HandleIterationStructure exC5 exFive 0 SEARCH_CONTACTED [exC0, exC1]
        false false
      = some
        { ret := true
          fna := { exFive with
            kth_closest := 1
            round := 1
            nc := [{ contact := exC5, state := kContacted, round := 0 },
                   { contact := exC0, state := kSelectedAlpha, round := 1 },
                   { contact := exC1, state := kSelectedAlpha, round := 1 }] }
          nodes := [exC0, exC1]
          top_nodes_done := false
          calledback := false
          nodes_pending := 0 } ∧
    ¬ ascending exFive.key [exC0, exC1] := by
  refine ⟨by decide, by decide, by decide, by decide⟩

/-- C7: for a responding contact that has a record, `MarkResponse` sets the
state of that record to `kContacted` or `kDown` as the mark says, keeps its
round, and leaves every other record that was there as it is. -/
theorem markResponse_present (self : NodeImpl) (contact : Contact)
    (fna : FindNodesArgs) (mark : SearchMarking) (nodes : List Contact)
    (e : NodeContainerTuple) (hu : ncUnique fna.nc) (he : e ∈ fna.nc)
    (hid : e.contact.node_id = contact.node_id) :
    (self.MarkResponse contact fna mark nodes).1 = true ∧
    ({ e with state := markState mark } : NodeContainerTuple) ∈
      (self.MarkResponse contact fna mark nodes).2.1.nc ∧
    (∀ x ∈ fna.nc, x.contact.node_id ≠ contact.node_id →
      x ∈ (self.MarkResponse contact fna mark nodes).2.1.nc) ∧
    ∃ added : NodeContainer,
      (self.MarkResponse contact fna mark nodes).2.1.nc =
        fna.nc.map (fun x =>
          if x.contact.node_id = contact.node_id then
            { x with state := markState mark }
          else x) ++ added ∧
      ∀ a ∈ added, a.state = kNew ∧
        ∀ x ∈ fna.nc, x.contact.node_id ≠ a.contact.node_id := by
  obtain ⟨added, h1, h2, h3, _⟩ := insertResponseNodes_spec self nodes fna.nc
  have hu1 : ncUnique (self.insertResponseNodes fna.nc nodes).1 := by
    rw [h1]; exact h3 hu
  have hs := (markResponse_spec self contact fna mark nodes hu1).1
    ⟨e, by rw [h1]; exact List.mem_append_left _ he, hid⟩
  have hadded : added.map (markEntry contact mark) = added := by
    have : added.map (markEntry contact mark) = added.map id := by
      apply List.map_congr_left
      intro a ha
      unfold markEntry
      rw [if_neg]
      · rfl
      · intro hac
        exact (h2 a ha).2.2.2 e he (hid.trans hac.symm)
    rw [this, List.map_id]
  have hnc : (self.MarkResponse contact fna mark nodes).2.1.nc =
      fna.nc.map (markEntry contact mark) ++ added := by
    rw [hs.2, h1, List.map_append, hadded]
  refine ⟨hs.1, ?_, ?_, added, hnc, fun a ha => ⟨(h2 a ha).1, (h2 a ha).2.2.2⟩⟩
  · rw [hnc]
    apply List.mem_append_left
    rw [List.mem_map]
    exact ⟨e, he, by simp [markEntry, hid]⟩
  · intro x hx hne
    rw [hnc]
    apply List.mem_append_left
    rw [List.mem_map]
    exact ⟨x, hx, by simp [markEntry, hne]⟩

/-- C7, witness: contact 1 of the session `exSeeded` is marked. -/
theorem markResponse_present_witness :
    (exNode.MarkResponse exC1 exSeeded SEARCH_DOWN [exC9]).1 = true ∧
    ({ contact := exC1, state := kDown, round := 0 } : NodeContainerTuple) ∈
      (exNode.MarkResponse exC1 exSeeded SEARCH_DOWN [exC9]).2.1.nc :=
  ⟨(markResponse_present exNode exC1 exSeeded SEARCH_DOWN [exC9]
      { contact := exC1, state := kSelectedAlpha, round := 0 }
      (by decide) (by decide) (by decide)).1,
   (markResponse_present exNode exC1 exSeeded SEARCH_DOWN [exC9]
      { contact := exC1, state := kSelectedAlpha, round := 0 }
      (by decide) (by decide) (by decide)).2.1⟩

/-- C8: inserting the contacts of a response adds a record in state `kNew` for
each contact that has none, leaves the records that are there as they are, and
keeps the contacts of the container distinct. -/
theorem insert_keeps_entries (self : NodeImpl) (contacts : List Contact)
    (fna : FindNodesArgs) (hu : ncUnique fna.nc) :
    (self.AddContactsToContainer contacts fna).nc =
      (self.insertResponseNodes fna.nc contacts).1 ∧
    ncUnique (self.insertResponseNodes fna.nc contacts).1 ∧
    ∃ added : NodeContainer,
      (self.insertResponseNodes fna.nc contacts).1 = fna.nc ++ added ∧
      (∀ a ∈ added, a.state = kNew ∧ a.contact ∈ contacts ∧
        ∀ x ∈ fna.nc, x.contact.node_id ≠ a.contact.node_id) ∧
      (∀ c ∈ contacts, (∀ x ∈ fna.nc, x.contact.node_id ≠ c.node_id) →
        ∃ a ∈ added, a.contact.node_id = c.node_id) ∧
      (∀ c ∈ contacts, (∃ x ∈ fna.nc, x.contact.node_id = c.node_id) →
        ∀ a ∈ added, a.contact.node_id ≠ c.node_id) := by
  obtain ⟨added, h1, h2, h3, h4⟩ := insertResponseNodes_spec self contacts fna.nc
  refine ⟨?_, ?_, added, h1, ?_, ?_, ?_⟩
  · simp [NodeImpl.AddContactsToContainer, addContacts_eq_insert]
  · rw [h1]; exact h3 hu
  · intro a ha
    obtain ⟨q1, _, q3, q4⟩ := h2 a ha
    exact ⟨q1, q3, q4⟩
  · intro c hc hn
    obtain ⟨e, he, hid⟩ := h4 c hc
    rcases List.mem_append.1 he with he | he
    · exact absurd hid (hn e he)
    · exact ⟨e, he, hid⟩
  · rintro c _ ⟨x, hx, hid⟩ a ha hac
    exact (h2 a ha).2.2.2 x hx (hid.trans hac.symm)

/-- C8, witness: the contacts 9 and 1 are inserted into the session
`exSeeded`. -/
theorem insert_keeps_entries_witness :
    ncUnique exSeeded.nc ∧
    ncUnique (exNode.insertResponseNodes exSeeded.nc [exC9, exC1]).1 :=
  ⟨by decide, (insert_keeps_entries exNode [exC9, exC1] exSeeded (by decide)).2.1⟩

/-- C9: on a completed session `HandleIterationStructure` returns
`top_nodes_done = true`, `calledback = true`, an empty list and the number of
`kSelectedAlpha` entries, and leaves the session as it was. -/
theorem completed_session_untouched (self : NodeImpl) (contact : Contact)
    (fna : FindNodesArgs) (round : Int) (mark : SearchMarking)
    (nodes : List Contact) (d c : Bool) (h : fna.calledback = true) :
    self.HandleIterationStructure contact fna round mark nodes d c =
      some { ret := true, fna := fna, nodes := [], top_nodes_done := true,
             calledback := true,
             nodes_pending := fna.nc.countP (fun e => e.state = kSelectedAlpha) } := by
  rw [his_completed self contact fna round mark nodes d c h, NodesPending,
    List.countP_eq_length_filter]

/-- C9, witness: a late answer of contact 3 on the completed session
`exDone`. -/
theorem completed_session_untouched_witness :
    exDone.calledback = true ∧
    exNode.HandleIterationStructure exC3 exDone 1 SEARCH_DOWN [exC9] false false =
      some { ret := true, fna := exDone, nodes := [], top_nodes_done := true,
             calledback := true,
             nodes_pending := exDone.nc.countP (fun e => e.state = kSelectedAlpha) } :=
  ⟨by decide,
    completed_session_untouched exNode exC3 exDone 1 SEARCH_DOWN [exC9] false false
      (by decide)⟩

/-- C10: the lookup `exSingleParams` is seeded with the single contact 1, which
is dispatched in round 0.  When its RPC fails the contact is marked down, the
round-advance condition is false (`sent = 1 <= beta`, `replied = 0`), and the
call returns no candidate and `top_nodes_done = false`: no record is
`kSelectedAlpha`, the lookup is not completed, `IterativeSearch` neither sends
an RPC nor invokes the callback. -/
theorem single_seed_failure_stalls :
    exNode.FindNodes exRoutingTable exSingleParams =
      some (exSingle, [SearchEffect.rpc { contact := exC1, round := 0 }]) ∧
    exNode.HandleIterationStructure exC1 exSingle 0 SEARCH_DOWN [] false false =
      some { ret := true
             fna := { exSingle with
               nc := [{ contact := exC1, state := kDown, round := 0 }] }
             nodes := []
             top_nodes_done := false
             calledback := false
             nodes_pending := 0 } ∧
    exNode.IterativeSearchResponse exSingle false [] { contact := exC1, round := 0 } =
      some ({ exSingle with
               nc := [{ contact := exC1, state := kDown, round := 0 }] }, []) := by
  refine ⟨by decide, by decide, by decide⟩

/-- C11: the lookup `exSingleParams` is seeded with the single contact 1.  The
failure of its RPC, processed through `IterativeSearchResponse`,
`HandleIterationStructure` and `IterativeSearch`, has no effect: the callback
is not invoked, and the session is left not completed with nothing in
flight. -/
theorem single_seed_timeout_no_callback :
    (exNode.FindNodes exRoutingTable exSingleParams).bind
        (fun s => exNode.IterativeSearchResponse s.1 false []
          { contact := exC1, round := 0 }) =
      some ({ exSingle with
               nc := [{ contact := exC1, state := kDown, round := 0 }] }, []) ∧
    (∀ l, SearchEffect.callback l ∉ ([] : List SearchEffect)) ∧
    NodesPending { exSingle with
      nc := [{ contact := exC1, state := kDown, round := 0 }] } = 0 := by
  refine ⟨by decide, by simp, by decide⟩

/-- C12: `FindNodes` on an empty ledger reads `alphas.back()` of the empty
list, which is undefined; and `IterativeSearch`, called as `FindNodes` calls it
with `top_nodes_done = false` and an empty list, returns without invoking the
callback. -/
theorem empty_seed_reads_back :
    exNode.FindNodes exRoutingTable exEmptyParams = none ∧
    SortContactList exEmptyParams.key [] = [] ∧
    IterativeSearch (FindNodesArgs.init exEmptyParams.key) false false [] 0 = [] := by
  refine ⟨by decide, by decide, by decide⟩

/-- C15, as amended: for every target key and every list of contacts with
pairwise distinct identifiers, none of them the default (all-zero) identifier,
the output of `SortContactList` is non-decreasing by XOR distance to the key:
each adjacent pair is in order (and so is every pair; the distances even
increase strictly). -/
theorem sorted_by_distance (key : NodeId) (l : List Contact)
    (hd : (l.map (fun c => c.node_id)).Nodup)
    (hz : ∀ c ∈ l, c.node_id ≠ kZeroId) :
    List.Chain' (fun a b => distance key a.node_id ≤ distance key b.node_id)
      (SortContactList key l) ∧
    ascending key (SortContactList key l) ∧
    (SortContactList key l).Pairwise
      (fun a b => distance key a.node_id < distance key b.node_id) := by
  have hasc := sortContactList_ascending key l hz
  refine ⟨pairwise_chain_le hasc, hasc, ?_⟩
  have hs := sortContactList_strict key l hd
  have hz' : ∀ c ∈ SortContactList key l, c.node_id ≠ kZeroId :=
    fun c hc => hz c ((sortContactList_perm key l).mem_iff.1 hc)
  refine List.Pairwise.imp_of_mem ?_ hs
  intro a b ha hb hab
  simp only [compareRank, if_neg (hz' a ha), if_neg (hz' b hb)] at hab
  omega

/-- C15, witness: the contacts 3, 1, 2 sorted for the key 8. -/
theorem sorted_by_distance_witness :
    List.Chain' (fun a b => distance 8 a.node_id ≤ distance 8 b.node_id)
      (SortContactList 8 [exC3, exC1, exC2]) :=
  (sorted_by_distance 8 [exC3, exC1, exC2] (by decide) (by decide)).1

/-- C15, counterexample: for the key 1 the contacts 0 and 1, which have
distinct identifiers, are returned as `[0, 1]`; their distances to the key are
`[1, 0]`. -/
theorem sorted_zero_first :
    ([exC0, exC1].map (fun c => c.node_id)).Nodup ∧
    SortContactList 1 [exC0, exC1] = [exC0, exC1] ∧
    SortContactList 1 [exC1, exC0] = [exC0, exC1] ∧
    ¬ List.Chain' (fun a b => distance 1 a.node_id ≤ distance 1 b.node_id)
        (SortContactList 1 [exC0, exC1]) := by
  refine ⟨by decide, by decide, by decide, ?_⟩
  rw [show SortContactList 1 [exC0, exC1] = [exC0, exC1] by decide]
  simp [distance, exC0, exC1]

/-- C17: a call of `HandleIterationStructure` leaves the round counter as it is
or increases it by one, and it increases it exactly when the session was not
completed, the round-advance condition held and the call did not terminate the
lookup; over any sequence of calls the counter never decreases. -/
theorem round_counter_monotone (self : NodeImpl) (fna : FindNodesArgs)
    (rs : List Response) :
    (∀ res ∈ self.runResponses fna rs, fna.round ≤ res.fna.round) ∧
    (self.runResponses fna rs).Pairwise (fun a b => a.fna.round ≤ b.fna.round) ∧
    (∀ (contact : Contact) (round : Int) (mark : SearchMarking)
        (nodes : List Contact) (res : IterationResult),
      self.HandleIterationStructure contact fna round mark nodes false false
          = some res →
      (res.fna.round = fna.round ∨ res.fna.round = fna.round + 1) ∧
      (res.fna.round = fna.round + 1 ↔
        (fna.calledback = false ∧
          self.roundAdvance (self.MarkResponse contact fna mark nodes).2.1.nc round ∧
          res.top_nodes_done = false))) :=
  ⟨run_round_ge self rs fna, run_round_pairwise self rs fna,
    fun contact round mark nodes res h =>
      his_round_step self contact fna round mark nodes res h⟩

/-- C16, as amended: over any sequence of responses in which every response
for the contact of a record in state `kDown` is again a failure (in particular
when no further response arrives for it), the record stays as it is; candidate
selection never changes it.  A successful response for the contact itself, on a
session that is not completed, sets the record to `kContacted`. -/
theorem down_stays_down (self : NodeImpl) (rs : List Response)
    (fna : FindNodesArgs) (e : NodeContainerTuple)
    (hu : ncUnique fna.nc) (he : e ∈ fna.nc) (hd : e.state = kDown)
    (hno : ∀ r ∈ rs, r.contact.node_id = e.contact.node_id → r.mark = SEARCH_DOWN) :
    (∀ res ∈ self.runResponses fna rs, e ∈ res.fna.nc) ∧
    (∀ (contact : Contact) (round : Int) (nodes : List Contact)
        (res : IterationResult),
      fna.calledback = false → contact.node_id = e.contact.node_id →
      self.HandleIterationStructure contact fna round SEARCH_CONTACTED nodes
        false false = some res →
      ({ e with state := kContacted } : NodeContainerTuple) ∈ res.fna.nc ∧
      e ∉ res.fna.nc) := by
  refine ⟨?_, fun contact round nodes res hc hid h =>
    down_entry_revived self contact fna round nodes res e hu he hd hc hid h⟩
  induction rs generalizing fna with
  | nil => intro res hres; simp [NodeImpl.runResponses] at hres
  | cons r rs ih =>
    intro res hres
    rw [NodeImpl.runResponses] at hres
    cases h : self.HandleIterationStructure r.contact fna r.round r.mark r.nodes
        false false with
    | none => rw [h] at hres; simp at hres
    | some first =>
      rw [h] at hres
      have hk := down_entry_kept self r.contact fna r.round r.mark r.nodes first e
        hu he hd (hno r (List.mem_cons_self _ _)) h
      have hu' := his_unique self r.contact fna r.round r.mark r.nodes first hu h
      rcases List.mem_cons.1 hres with rfl | hres
      · exact hk
      · exact ih first.fna hu' hk
          (fun r' hr' => hno r' (List.mem_cons_of_mem _ hr')) res hres

/-- C16, witness: a second failure for contact 1, which is down, and no
response at all. -/
theorem down_stays_down_witness :
    (ncUnique exSingleDown.nc ∧
      ({ contact := exC1, state := kDown, round := 0 } : NodeContainerTuple) ∈
        exSingleDown.nc) ∧
    ∀ res ∈ exNode.runResponses exSingleDown
        [{ contact := exC1, round := 0, mark := SEARCH_DOWN, nodes := [] }],
      ({ contact := exC1, state := kDown, round := 0 } : NodeContainerTuple) ∈
        res.fna.nc :=
  ⟨⟨by decide, by decide⟩,
    (down_stays_down exNode
      [{ contact := exC1, round := 0, mark := SEARCH_DOWN, nodes := [] }]
      exSingleDown { contact := exC1, state := kDown, round := 0 }
      (by decide) (by decide) (by decide) (by decide)).1⟩

/-- C16, counterexample: in the session `exSingle` contact 1 fails and is
marked down; a second response for contact 1, a successful one, sets its
record to `kContacted` and terminates the lookup with contact 1 as the
result. -/
theorem down_contact_revived :
    exNode.runResponses exSingle
      [{ contact := exC1, round := 0, mark := SEARCH_DOWN, nodes := [] },
       { contact := exC1, round := 0, mark := SEARCH_CONTACTED, nodes := [] }] =
      [{ ret := true, fna := exSingleDown, nodes := [], top_nodes_done := false,
         calledback := false, nodes_pending := 0 },
       { ret := true
         fna := { exSingleDown with
           nc := [{ contact := exC1, state := kContacted, round := 0 }]
           calledback := true }
         nodes := [exC1]
         top_nodes_done := true
         calledback := false
         nodes_pending := 0 }] := by
  decide

/-- C19: after the seeding part of `FindNodes` the ledger holds exactly the
contacts of the routing-table result (when it is used) and of the start list
that are not excluded, each once; no excluded contact is in the ledger or among
the contacts `FindNodes` dispatches. -/
theorem seeded_ledger (self : NodeImpl)
    (rt : NodeId → Nat → List Contact → List Contact) (fnp : FindNodesParams) :
    ncUnique (self.seedArgs rt fnp).nc ∧
    (∀ c, c ∈ self.seedCandidates rt fnp ↔
      ((fnp.use_routingtable = true ∧ c ∈ rt fnp.key self.K_ []) ∨
        c ∈ fnp.start_nodes)) ∧
    (∀ e ∈ (self.seedArgs rt fnp).nc,
      e.contact ∈ self.seedCandidates rt fnp ∧
      e.contact.node_id ∉ fnp.exclude_nodes.map (fun c => c.node_id)) ∧
    (∀ c ∈ self.seedCandidates rt fnp,
      c.node_id ∉ fnp.exclude_nodes.map (fun c => c.node_id) →
      ∃ e ∈ (self.seedArgs rt fnp).nc, e.contact.node_id = c.node_id) ∧
    (∀ s, self.FindNodes rt fnp = some s →
      s.1.nc.map (fun e => e.contact) =
        (self.seedArgs rt fnp).nc.map (fun e => e.contact) ∧
      ∀ fnrpc, SearchEffect.rpc fnrpc ∈ s.2 →
        fnrpc.contact.node_id ∉ fnp.exclude_nodes.map (fun c => c.node_id) ∧
        ∃ e ∈ s.1.nc, e.contact = fnrpc.contact) := by
  have hmem := seedArgs_mem self rt fnp
  refine ⟨seedArgs_unique self rt fnp, ?_, fun e he => ⟨(hmem.1 e he).2.2.1,
    (hmem.1 e he).2.2.2⟩, hmem.2, ?_⟩
  · intro c
    unfold NodeImpl.seedCandidates
    cases fnp.use_routingtable <;> simp
  · intro s hs
    obtain ⟨f1, f2⟩ := findNodes_spec self rt fnp
    cases hb : (self.closestK fnp.key (self.seedArgs rt fnp).nc).getLast? with
    | none => rw [f1 hb] at hs; exact absurd hs (by simp)
    | some back =>
      rw [f2 back hb] at hs
      simp only [Option.some.injEq] at hs
      subst hs
      have hmap : ((self.seedArgs rt fnp).nc.map
          (selectEntry 0
            ((self.closestK fnp.key (self.seedArgs rt fnp).nc).take self.kAlpha))).map
          (fun e => e.contact) =
          (self.seedArgs rt fnp).nc.map (fun e => e.contact) := by
        rw [List.map_map]
        apply List.map_congr_left
        intro x _
        exact selectEntry_contact _ _ x
      refine ⟨hmap, ?_⟩
      intro fnrpc hin
      rw [iterativeSearch_rpc, List.mem_map] at hin
      obtain ⟨c, hc, heq⟩ := hin
      have hfc : fnrpc.contact = c := by
        cases fnrpc
        simp only [SearchEffect.rpc.injEq, FindNodesRpc.mk.injEq] at heq
        exact heq.1.symm
      rw [hfc]
      obtain ⟨e, he, _, hec⟩ := mem_closestK (List.mem_of_mem_take hc)
      refine ⟨?_, selectEntry 0 _ e, List.mem_map_of_mem _ he, ?_⟩
      · have := (hmem.1 e he).2.2.2
        rw [hec] at this
        exact this
      · rw [selectEntry_contact]; exact hec

/-- C20, as amended: for a non-empty seeded ledger of `n` contacts none of
which has the default (all-zero) identifier, and `K ≥ 1`, `FindNodes` sets the
watermark to the identifier of the `min(n, K)`-th closest seed, marks exactly
the `min(n, K, alpha)` closest seeds `kSelectedAlpha` with the initial round 0,
leaves every other seed `kNew`, and hands exactly the marked contacts, in
ascending distance order, to `IterativeSearch` with `top_nodes_done = false`,
which sends one RPC to each. -/
theorem findNodes_selects_closest (self : NodeImpl)
    (rt : NodeId → Nat → List Contact → List Contact) (fnp : FindNodesParams)
    (hne : (self.seedArgs rt fnp).nc ≠ []) (hK : 0 < self.K_)
    (hz : ∀ e ∈ (self.seedArgs rt fnp).nc, e.contact.node_id ≠ kZeroId) :
    ∃ back fna,
      self.FindNodes rt fnp =
        some (fna, IterativeSearch fna false false
          ((SortContactList fnp.key
            ((self.seedArgs rt fnp).nc.map (fun e => e.contact))).take
              (min self.kAlpha self.K_)) 0) ∧
      (SortContactList fnp.key ((self.seedArgs rt fnp).nc.map (fun e => e.contact)))[
          min (self.seedArgs rt fnp).nc.length self.K_ - 1]? = some back ∧
      fna.kth_closest = back.node_id ∧
      ascending fnp.key
        (SortContactList fnp.key ((self.seedArgs rt fnp).nc.map (fun e => e.contact))) ∧
      (SortContactList fnp.key
          ((self.seedArgs rt fnp).nc.map (fun e => e.contact))).Perm
        ((self.seedArgs rt fnp).nc.map (fun e => e.contact)) ∧
      ((SortContactList fnp.key
          ((self.seedArgs rt fnp).nc.map (fun e => e.contact))).take
            (min self.kAlpha self.K_)).length =
        min (self.seedArgs rt fnp).nc.length (min self.K_ self.kAlpha) ∧
      fna.round = 0 ∧
      fna.nc = (self.seedArgs rt fnp).nc.map
        (selectEntry 0
          ((SortContactList fnp.key
            ((self.seedArgs rt fnp).nc.map (fun e => e.contact))).take
              (min self.kAlpha self.K_))) ∧
      (∀ e ∈ fna.nc,
        (e.contact ∈ (SortContactList fnp.key
            ((self.seedArgs rt fnp).nc.map (fun e => e.contact))).take
              (min self.kAlpha self.K_) →
          e.state = kSelectedAlpha ∧ e.round = 0) ∧
        (e.contact ∉ (SortContactList fnp.key
            ((self.seedArgs rt fnp).nc.map (fun e => e.contact))).take
              (min self.kAlpha self.K_) →
          e.state = kNew)) ∧
      IterativeSearch fna false false
          ((SortContactList fnp.key
            ((self.seedArgs rt fnp).nc.map (fun e => e.contact))).take
              (min self.kAlpha self.K_)) 0 =
        ((SortContactList fnp.key
            ((self.seedArgs rt fnp).nc.map (fun e => e.contact))).take
              (min self.kAlpha self.K_)).map
          (fun c => SearchEffect.rpc { contact := c, round := 0 }) := by
  have hmem := seedArgs_mem self rt fnp
  have hlive := seedArgs_live self rt fnp
  obtain ⟨_, f2⟩ := findNodes_spec self rt fnp
  have hlen : (SortContactList fnp.key
      ((self.seedArgs rt fnp).nc.map (fun e => e.contact))).length =
      (self.seedArgs rt fnp).nc.length := by
    rw [(sortContactList_perm _ _).length_eq, List.length_map]
  have hpos : 0 < (self.seedArgs rt fnp).nc.length :=
    List.length_pos.2 hne
  have hclosest : self.closestK fnp.key (self.seedArgs rt fnp).nc =
      (SortContactList fnp.key
        ((self.seedArgs rt fnp).nc.map (fun e => e.contact))).take self.K_ := by
    rw [NodeImpl.closestK, hlive]
  have hlast := take_getLast_eq (SortContactList fnp.key
      ((self.seedArgs rt fnp).nc.map (fun e => e.contact))) self.K_ hK
  rw [hlen] at hlast
  have hidx : min (self.seedArgs rt fnp).nc.length self.K_ - 1 <
      (SortContactList fnp.key
        ((self.seedArgs rt fnp).nc.map (fun e => e.contact))).length := by
    rw [hlen]; omega
  have hback : (self.closestK fnp.key (self.seedArgs rt fnp).nc).getLast? =
      some ((SortContactList fnp.key
        ((self.seedArgs rt fnp).nc.map (fun e => e.contact)))[
          min (self.seedArgs rt fnp).nc.length self.K_ - 1]) := by
    rw [hclosest, hlast, List.getElem?_eq_getElem hidx]
  have hsel : (self.closestK fnp.key (self.seedArgs rt fnp).nc).take self.kAlpha =
      (SortContactList fnp.key
        ((self.seedArgs rt fnp).nc.map (fun e => e.contact))).take
          (min self.kAlpha self.K_) := by
    rw [hclosest, List.take_take]
  have hf := f2 _ hback
  rw [hsel] at hf
  have hasc : ascending fnp.key (SortContactList fnp.key
      ((self.seedArgs rt fnp).nc.map (fun e => e.contact))) := by
    apply sortContactList_ascending
    intro c hc
    rw [List.mem_map] at hc
    obtain ⟨e, he, rfl⟩ := hc
    exact hz e he
  refine ⟨_, _, hf, List.getElem?_eq_getElem hidx, rfl, hasc,
    sortContactList_perm _ _, ?_, rfl, rfl, ?_, ?_⟩
  · rw [List.length_take, hlen]
    omega
  · intro e he
    rw [List.mem_map] at he
    obtain ⟨x, hx, rfl⟩ := he
    have hxs := (hmem.1 x hx).1
    constructor
    · intro hin
      rw [selectEntry_contact] at hin
      simp [selectEntry, hin]
    · intro hin
      rw [selectEntry_contact] at hin
      simp [selectEntry, hin, hxs]
  · rw [iterativeSearch_rpc]

/-- C20, witness: the lookup `exParams`. -/
theorem findNodes_selects_closest_witness :
    ∃ back fna,
      exNode.FindNodes exRoutingTable exParams =
        some (fna, IterativeSearch fna false false
          ((SortContactList exParams.key
            ((exNode.seedArgs exRoutingTable exParams).nc.map (fun e => e.contact))).take
              (min exNode.kAlpha exNode.K_)) 0) ∧
      (SortContactList exParams.key
          ((exNode.seedArgs exRoutingTable exParams).nc.map (fun e => e.contact)))[
          min (exNode.seedArgs exRoutingTable exParams).nc.length exNode.K_ - 1]? =
        some back ∧
      fna.kth_closest = back.node_id := by
  obtain ⟨back, fna, h1, h2, h3, _⟩ :=
    findNodes_selects_closest exNode exRoutingTable exParams
      (by decide) (by decide) (by decide)
  exact ⟨back, fna, h1, h2, h3⟩

/-- C20, counterexample: for the key 1 and the seeds 0 and 1 `FindNodes`
dispatches `[0, 1]`, whose distances to the key are `[1, 0]`, and sets the
watermark to contact 1, the closest seed, not the second closest.  With
`K = 0` the sorted list is cut to nothing and `alphas.back()` is undefined. -/
theorem findNodes_zero_first :
    exNode.FindNodes exRoutingTable exZeroParams =
      some ({ key := 1, kth_closest := 1,
              nc := [{ contact := exC0, state := kSelectedAlpha, round := 0 },
                     { contact := exC1, state := kSelectedAlpha, round := 0 }],
              calledback := false, round := 0 },
            [SearchEffect.rpc { contact := exC0, round := 0 },
             SearchEffect.rpc { contact := exC1, round := 0 }]) ∧
    ¬ ascending exZeroParams.key [exC0, exC1] ∧
    distance exZeroParams.key exC1.node_id < distance exZeroParams.key exC0.node_id ∧
    NodeImpl.FindNodes { K_ := 0, kAlpha := 2, kBeta := 1, kTupleRound := -1 }
      exRoutingTable exParams = none := by
  refine ⟨by decide, by decide, by decide, by decide⟩

/-- C18, as amended: the watermark is assigned by `FindNodes` and by every call
of `HandleIterationStructure` on a session that is not completed for which the
round-advance condition holds and the lookup does not terminate, and by no
other call; it is assigned the identifier of the last contact of the live list
sorted by `CompareContact` and cut to `K`.  When no live record has the default
identifier, that contact is the `K`-th closest live contact (exactly `K - 1` live
contacts are strictly closer to the key) when there are at least `K` live
contacts, and the farthest live contact when there are at most `K`. -/
theorem watermark_assignment (self : NodeImpl) :
    (∀ (contact : Contact) (fna : FindNodesArgs) (round : Int)
        (mark : SearchMarking) (nodes : List Contact) (res : IterationResult),
      ncUnique fna.nc →
      self.HandleIterationStructure contact fna round mark nodes false false
          = some res →
      (res.fna.kth_closest ≠ fna.kth_closest →
        fna.calledback = false ∧
        self.roundAdvance (self.MarkResponse contact fna mark nodes).2.1.nc round ∧
        res.top_nodes_done = false) ∧
      (fna.calledback = false →
        self.roundAdvance (self.MarkResponse contact fna mark nodes).2.1.nc round →
        res.top_nodes_done = false →
        0 < self.K_ ∧
        ∃ back,
          (SortContactList fna.key
            (liveContacts (self.MarkResponse contact fna mark nodes).2.1.nc))[
              min (liveContacts
                (self.MarkResponse contact fna mark nodes).2.1.nc).length self.K_ - 1]?
            = some back ∧
          res.fna.kth_closest = back.node_id ∧
          ((∀ e ∈ (self.MarkResponse contact fna mark nodes).2.1.nc, e.state ≠ kDown →
              e.contact.node_id ≠ kZeroId) →
            back ∈ liveContacts (self.MarkResponse contact fna mark nodes).2.1.nc ∧
            (self.K_ ≤
                (liveContacts (self.MarkResponse contact fna mark nodes).2.1.nc).length →
              closerCount fna.key
                (liveContacts (self.MarkResponse contact fna mark nodes).2.1.nc) back =
                  self.K_ - 1) ∧
            ((liveContacts (self.MarkResponse contact fna mark nodes).2.1.nc).length ≤
                self.K_ →
              ∀ c ∈ liveContacts (self.MarkResponse contact fna mark nodes).2.1.nc,
                distance fna.key c.node_id ≤ distance fna.key back.node_id)))) ∧
    (∀ (rt : NodeId → Nat → List Contact → List Contact) (fnp : FindNodesParams)
        (s : FindNodesArgs × List SearchEffect),
      self.FindNodes rt fnp = some s →
      0 < self.K_ ∧
      ∃ back,
        (SortContactList fnp.key (liveContacts (self.seedArgs rt fnp).nc))[
            min (liveContacts (self.seedArgs rt fnp).nc).length self.K_ - 1]?
          = some back ∧
        s.1.kth_closest = back.node_id ∧
        ((∀ e ∈ (self.seedArgs rt fnp).nc, e.state ≠ kDown →
            e.contact.node_id ≠ kZeroId) →
          back ∈ liveContacts (self.seedArgs rt fnp).nc ∧
          (self.K_ ≤ (liveContacts (self.seedArgs rt fnp).nc).length →
            closerCount fnp.key (liveContacts (self.seedArgs rt fnp).nc) back =
              self.K_ - 1) ∧
          ((liveContacts (self.seedArgs rt fnp).nc).length ≤ self.K_ →
            ∀ c ∈ liveContacts (self.seedArgs rt fnp).nc,
              distance fnp.key c.node_id ≤ distance fnp.key back.node_id))) := by
  constructor
  · intro contact fna round mark nodes res hu h
    have hm := markResponse_calledback self contact fna mark nodes
    cases hc : fna.calledback with
    | true =>
      rw [his_completed self contact fna round mark nodes false false hc] at h
      simp only [Option.some.injEq] at h
      subst h
      exact ⟨fun hne => absurd rfl hne, fun hf => absurd hf (by simp)⟩
    | false =>
      rcases his_step self contact fna round mark nodes res hc hu h with
        ⟨hq, h2, _, _⟩ | ⟨_, _, h2, _, hd⟩ | ⟨hq, _, ⟨back, hb, hk⟩, _, _, _, _, _, hd⟩
      · constructor
        · intro hne
          rw [h2, hm.2.2.1] at hne
          exact absurd rfl hne
        · intro _ hq' _
          exact absurd hq' hq
      · constructor
        · intro hne
          rw [h2] at hne
          exact absurd hm.2.2.1 hne
        · intro _ _ hd'
          rw [hd] at hd'
          exact absurd hd' (by simp)
      · refine ⟨fun _ => ⟨rfl, hq, hd⟩, fun _ _ _ => ?_⟩
        obtain ⟨hK, hidx⟩ := closestK_getLast self fna.key _ back hb
        exact ⟨hK, back, hidx, hk, fun hz =>
          closestK_back_rank self fna.key _ back
            (markResponse_unique self contact fna mark nodes hu) hz hb⟩
  · intro rt fnp s hs
    obtain ⟨f1, f2⟩ := findNodes_spec self rt fnp
    cases hb : (self.closestK fnp.key (self.seedArgs rt fnp).nc).getLast? with
    | none => rw [f1 hb] at hs; exact absurd hs (by simp)
    | some back =>
      rw [f2 back hb] at hs
      simp only [Option.some.injEq] at hs
      subst hs
      obtain ⟨hK, hidx⟩ := closestK_getLast self fnp.key _ back hb
      exact ⟨hK, back, hidx, rfl, fun hz =>
        closestK_back_rank self fnp.key _ back (seedArgs_unique self rt fnp) hz hb⟩

/-- C18, witness: in the lookup `exParams` the answer of contact 1 with the new
contact 9 moves the watermark from contact 2 to contact 1, the second closest
of the four live contacts. -/
theorem watermark_assignment_witness :
    (0 < exNode.K_ ∧
      ∀ e ∈ (exNode.MarkResponse exC1 exSeeded SEARCH_CONTACTED [exC9]).2.1.nc,
        e.state ≠ kDown → e.contact.node_id ≠ kZeroId) ∧
    ∃ back,
      (SortContactList exSeeded.key
        (liveContacts (exNode.MarkResponse exC1 exSeeded SEARCH_CONTACTED [exC9]).2.1.nc))[
          min (liveContacts
            (exNode.MarkResponse exC1 exSeeded SEARCH_CONTACTED [exC9]).2.1.nc).length
            exNode.K_ - 1]? = some back ∧
      (1 : NodeId) = back.node_id ∧
      back ∈ liveContacts
        (exNode.MarkResponse exC1 exSeeded SEARCH_CONTACTED [exC9]).2.1.nc ∧
      closerCount exSeeded.key
        (liveContacts (exNode.MarkResponse exC1 exSeeded SEARCH_CONTACTED [exC9]).2.1.nc)
        back = exNode.K_ - 1 := by
  obtain ⟨hK, back, h1, h2, h3⟩ :=
    ((watermark_assignment exNode).1 exC1 exSeeded 0 SEARCH_CONTACTED [exC9]
      { ret := true
        fna := { exSeeded with
          kth_closest := 1
          round := 1
          nc := [{ contact := exC1, state := kContacted, round := 0 },
                 { contact := exC2, state := kSelectedAlpha, round := 0 },
                 { contact := exC3, state := kNew, round := -1 },
                 { contact := exC9, state := kSelectedAlpha, round := 1 }] }
        nodes := [exC9]
        top_nodes_done := false
        calledback := false
        nodes_pending := 1 }
      (by decide) (by decide)).2 (by decide) (by decide) (by decide)
  exact ⟨⟨hK, by decide⟩, back, h1, h2, (h3 (by decide)).1,
    (h3 (by decide)).2.1 (by decide)⟩

/-- C18, counterexample: with `K = 3`, in the lookup of the key 1 started from
contact 5, contact 5 answers with the new contact 9.  Two contacts are live,
fewer than `K`, and the call moves the watermark from contact 5 to contact 9;
`FindNodes` itself had set the watermark to contact 5 with one live
contact.  With `K = 2`, for the key 1 and the seeds 0 and 1, `FindNodes` sets the
watermark to contact 1, the closest of the two live contacts: contact 0, which has
the default identifier, is sorted first. -/
theorem watermark_moves_below_k :
    exNode3.FindNodes exRoutingTable
        { key := 1, start_nodes := [exC5], exclude_nodes := [],
          use_routingtable := false } =
      some (exFive, [SearchEffect.rpc { contact := exC5, round := 0 }]) ∧
    exNode3.HandleIterationStructure exC5 exFive 0 SEARCH_CONTACTED [exC9]
        false false =
      some { ret := true
             fna := { exFive with
               kth_closest := 9
               round := 1
               nc := [{ contact := exC5, state := kContacted, round := 0 },
                      { contact := exC9, state := kSelectedAlpha, round := 1 }] }
             nodes := [exC9]
             top_nodes_done := false
             calledback := false
             nodes_pending := 0 } ∧
    (liveContacts
      [{ contact := exC5, state := kContacted, round := 0 },
       { contact := exC9, state := kSelectedAlpha, round := 1 }]).length < exNode3.K_ ∧
    exFive.kth_closest ≠ 9 ∧
    (exNode.FindNodes exRoutingTable exZeroParams).map (fun s => s.1.kth_closest) =
      some exC1.node_id ∧
    closerCount exZeroParams.key [exC0, exC1] exC1 = 0 ∧
    closerCount exZeroParams.key [exC0, exC1] exC0 = 1 := by
  refine ⟨by decide, by decide, by decide, by decide, by decide, by decide, by decide⟩

/-- C14, as amended: on a session that is not completed, with `K ≥ 1` and
`alpha ≤ 5`, a successful response of a contact of the ledger that fulfils the
round-advance condition and delivers five contacts with distinct identifiers,
each closer to the key than every contact of the ledger, no live contact
having the default identifier, increases the round counter by one, returns
only newly discovered contacts as next candidates, and sets the watermark to
the last contact of the sorted live list cut to `K`.  When `K ≤ 5` that is the
`K`-th closest contact of the enlarged live set, one of the new contacts, and
it differs from the previous watermark whenever that was the default
identifier or the identifier of a contact of the ledger. -/
theorem closer_contacts_advance (self : NodeImpl) (contact : Contact)
    (fna : FindNodesArgs) (round : Int) (fresh : List Contact)
    (hc : fna.calledback = false) (hu : ncUnique fna.nc)
    (hresp : ∃ e ∈ fna.nc, e.contact.node_id = contact.node_id)
    (hlen : fresh.length = 5)
    (hdist : (fresh.map (fun c => c.node_id)).Nodup)
    (hcloser : ∀ c ∈ fresh, ∀ e ∈ fna.nc,
      distance fna.key c.node_id < distance fna.key e.contact.node_id)
    (hz : ∀ e ∈ (self.MarkResponse contact fna SEARCH_CONTACTED fresh).2.1.nc,
      e.state ≠ kDown → e.contact.node_id ≠ kZeroId)
    (hr : self.roundAdvance
      (self.MarkResponse contact fna SEARCH_CONTACTED fresh).2.1.nc round)
    (hK : 0 < self.K_) (hα : self.kAlpha ≤ 5) :
    ∃ res back,
      self.HandleIterationStructure contact fna round SEARCH_CONTACTED fresh
        false false = some res ∧
      res.top_nodes_done = false ∧
      res.fna.round = fna.round + 1 ∧
      (∀ c ∈ res.nodes, c ∈ fresh) ∧
      (SortContactList fna.key (liveContacts
        (self.MarkResponse contact fna SEARCH_CONTACTED fresh).2.1.nc))[
          min (liveContacts
            (self.MarkResponse contact fna SEARCH_CONTACTED fresh).2.1.nc).length
            self.K_ - 1]? = some back ∧
      res.fna.kth_closest = back.node_id ∧
      (self.K_ ≤ 5 →
        (SortContactList fna.key (liveContacts
          (self.MarkResponse contact fna SEARCH_CONTACTED fresh).2.1.nc))[
            self.K_ - 1]? = some back ∧
        back ∈ fresh ∧
        (∀ e ∈ fna.nc, e.contact.node_id ≠ back.node_id) ∧
        ((fna.kth_closest = kZeroId ∨
            ∃ e ∈ fna.nc, e.contact.node_id = fna.kth_closest) →
          res.fna.kth_closest ≠ fna.kth_closest)) := by
  obtain ⟨added, hnc1, hadd, hall⟩ :=
    markResponse_ledger self contact fna SEARCH_CONTACTED fresh hu hresp
  have hu1 := markResponse_unique self contact fna SEARCH_CONTACTED fresh hu
  have hnotin : ∀ c ∈ fresh, ∀ e ∈ fna.nc, e.contact.node_id ≠ c.node_id := by
    intro c hc' e he heq
    have := hcloser c hc' e he
    rw [heq] at this
    exact Nat.lt_irrefl _ this
  -- every new contact has a record in state `kNew`
  have hfresh : ∀ c ∈ fresh,
      ∃ e ∈ (self.MarkResponse contact fna SEARCH_CONTACTED fresh).2.1.nc,
        e.contact = c ∧ e.state = kNew := by
    intro c hc'
    obtain ⟨e, he, hid⟩ := hall c hc'
    rcases List.mem_append.1 he with he | he
    · exact absurd hid (hnotin c hc' e he)
    · obtain ⟨q1, _, q3, _⟩ := hadd e he
      refine ⟨e, ?_, List.inj_on_of_nodup_map hdist q3 hc' hid, q1⟩
      rw [hnc1]
      exact List.mem_append_right _ he
  -- every other record carries a contact of the old ledger
  have hold : ∀ e ∈ (self.MarkResponse contact fna SEARCH_CONTACTED fresh).2.1.nc,
      e.contact ∉ fresh → ∃ x ∈ fna.nc, x.contact = e.contact := by
    intro e he hnf
    rw [hnc1] at he
    rcases List.mem_append.1 he with he | he
    · rw [List.mem_map] at he
      obtain ⟨x, hx, rfl⟩ := he
      exact ⟨x, hx, ((markEntry_id contact SEARCH_CONTACTED x).1).symm⟩
    · exact absurd (hadd e he).2.2.1 hnf
  have hzlive : ∀ c ∈ liveContacts
      (self.MarkResponse contact fna SEARCH_CONTACTED fresh).2.1.nc,
      c.node_id ≠ kZeroId := by
    intro c hc'
    obtain ⟨e, he, hs, rfl⟩ := mem_liveContacts.1 hc'
    exact hz e he hs
  have hstrict := sortContactList_dist_strict fna.key
    (liveContacts (self.MarkResponse contact fna SEARCH_CONTACTED fresh).2.1.nc)
    (liveContacts_ids_nodup hu1) hzlive
  have hSmem : ∀ c, c ∈ SortContactList fna.key (liveContacts
      (self.MarkResponse contact fna SEARCH_CONTACTED fresh).2.1.nc) ↔
      c ∈ liveContacts (self.MarkResponse contact fna SEARCH_CONTACTED fresh).2.1.nc :=
    fun c => (sortContactList_perm _ _).mem_iff
  have hsub : ∀ c ∈ fresh, c ∈ SortContactList fna.key (liveContacts
      (self.MarkResponse contact fna SEARCH_CONTACTED fresh).2.1.nc) := by
    intro c hc'
    obtain ⟨e, he, hec, hs⟩ := hfresh c hc'
    rw [hSmem]
    exact mem_liveContacts.2 ⟨e, he, by rw [hs]; decide, hec⟩
  have hclo : ∀ a ∈ fresh, ∀ b ∈ SortContactList fna.key (liveContacts
      (self.MarkResponse contact fna SEARCH_CONTACTED fresh).2.1.nc),
      b ∉ fresh → distance fna.key a.node_id < distance fna.key b.node_id := by
    intro a ha b hb hnf
    obtain ⟨e, he, _, rfl⟩ := mem_liveContacts.1 ((hSmem b).1 hb)
    obtain ⟨x, hx, hxe⟩ := hold e he hnf
    rw [← hxe]
    exact hcloser a ha x hx
  obtain ⟨F, O, hS, hFlen, hF, _⟩ := fresh_first
    (fun c : Contact => distance fna.key c.node_id) _ fresh hstrict
    (List.Nodup.of_map _ hdist) hsub hclo
  rw [hlen] at hFlen
  have hFnew : ∀ c ∈ F,
      hasState (self.MarkResponse contact fna SEARCH_CONTACTED fresh).2.1.nc kNew c
        = true := by
    intro c hc'
    obtain ⟨e, he, hec, hs⟩ := hfresh c (hF c hc')
    exact hasState_iff.2 ⟨e, he, hec, hs⟩
  have htop : self.closestK fna.key
      (self.MarkResponse contact fna SEARCH_CONTACTED fresh).2.1.nc =
      (F ++ O).take self.K_ := by
    rw [NodeImpl.closestK, hS]
  -- the closest contact is a new one, so the lookup does not terminate
  obtain ⟨f, F', hFeq⟩ : ∃ f F', F = f :: F' := by
    cases F with
    | nil => simp at hFlen
    | cons f F' => exact ⟨f, F', rfl⟩
  obtain ⟨K', hK'⟩ : ∃ K', self.K_ = K' + 1 := ⟨self.K_ - 1, by omega⟩
  have hftop : f ∈ self.closestK fna.key
      (self.MarkResponse contact fna SEARCH_CONTACTED fresh).2.1.nc := by
    rw [htop, hFeq, hK']
    simp
  have hconv : ¬ converged (self.MarkResponse contact fna SEARCH_CONTACTED fresh).2.1
      (self.closestK fna.key
        (self.MarkResponse contact fna SEARCH_CONTACTED fresh).2.1.nc) := by
    intro hconv
    have h1 := (hconv.2.1 f hftop).1
    rw [hFnew f (by rw [hFeq]; simp)] at h1
    exact absurd h1 (by simp)
  obtain ⟨back, hback⟩ : ∃ back, (self.closestK fna.key
      (self.MarkResponse contact fna SEARCH_CONTACTED fresh).2.1.nc).getLast?
      = some back := by
    cases hb : (self.closestK fna.key
        (self.MarkResponse contact fna SEARCH_CONTACTED fresh).2.1.nc).getLast? with
    | none =>
      rw [List.getLast?_eq_none_iff] at hb
      rw [hb] at hftop
      simp at hftop
    | some back => exact ⟨back, rfl⟩
  obtain ⟨res, hres, hkth, hround, _, hnodes, hdone⟩ :=
    his_next_round self contact fna round SEARCH_CONTACTED fresh back hc hu hr hconv
      hback
  obtain ⟨_, hidx⟩ := closestK_getLast self fna.key _ back hback
  refine ⟨res, back, hres, hdone, hround, ?_, hidx, hkth, ?_⟩
  · intro c hc'
    rw [hnodes, NodeImpl.firstNew, htop] at hc'
    exact hF c (candidates_in_front _ F O self.K_ self.kAlpha hFnew (by omega) c hc')
  · intro hK5
    have hL : (liveContacts
        (self.MarkResponse contact fna SEARCH_CONTACTED fresh).2.1.nc).length =
        F.length + O.length := by
      rw [← (sortContactList_perm fna.key _).length_eq, hS, List.length_append]
    have hmin : min (liveContacts
        (self.MarkResponse contact fna SEARCH_CONTACTED fresh).2.1.nc).length
        self.K_ = self.K_ := by omega
    rw [hmin] at hidx
    have hbF : back ∈ F := by
      apply getElem_in_front F O (self.K_ - 1) back (by omega)
      rw [← hS]
      exact hidx
    have hbfresh := hF back hbF
    have hbne : ∀ e ∈ fna.nc, e.contact.node_id ≠ back.node_id :=
      hnotin back hbfresh
    refine ⟨hidx, hbfresh, hbne, ?_⟩
    intro hprev
    rw [hkth]
    rcases hprev with h0 | ⟨e, he, hid⟩
    · rw [h0]
      obtain ⟨e, he, hec, hs⟩ := hfresh back hbfresh
      rw [← hec]
      exact hz e he (by rw [hs]; decide)
    · rw [← hid]
      exact fun h => hbne e he h.symm

/-- C14, witness: in the lookup of the key 0 started from contact 100, contact
100 answers with the contacts 1, 2, 3, 5, 9. -/
theorem closer_contacts_advance_witness :
    ∃ res back,
      exNode.HandleIterationStructure exC100 exFar 0 SEARCH_CONTACTED exFresh
        false false = some res ∧
      res.top_nodes_done = false ∧
      res.fna.round = exFar.round + 1 ∧
      (∀ c ∈ res.nodes, c ∈ exFresh) ∧
      (SortContactList exFar.key (liveContacts
        (exNode.MarkResponse exC100 exFar SEARCH_CONTACTED exFresh).2.1.nc))[
          min (liveContacts
            (exNode.MarkResponse exC100 exFar SEARCH_CONTACTED exFresh).2.1.nc).length
            exNode.K_ - 1]? = some back ∧
      res.fna.kth_closest = back.node_id := by
  obtain ⟨res, back, h1, h2, h3, h4, h5, h6, _⟩ :=
    closer_contacts_advance exNode exC100 exFar 0 exFresh
      (by decide) (by decide) (by decide) (by decide) (by decide) (by decide)
      (by decide) (by decide) (by decide) (by decide)
  exact ⟨res, back, h1, h2, h3, h4, h5, h6⟩

/-- C14, counterexample.  With `K = 6`: in the lookup of the key 0 started
from contact 100, contact 100 answers with the five closer contacts 1, 2, 3,
5, 9; the round advances, and the watermark is contact 100 as before.  With
`K = 1` and a seed with the default identifier: in the lookup of the key 8
started from contact 0, contact 0 answers with the five closer contacts 9 to
13; the call terminates the lookup with `[0]`, the round counter and the
watermark are as before. -/
theorem closer_contacts_no_advance :
    exNode6.FindNodes exRoutingTable
        { key := 0, start_nodes := [exC100], exclude_nodes := [],
          use_routingtable := false } =
      some (exFar, [SearchEffect.rpc { contact := exC100, round := 0 }]) ∧
    exNode6.roundAdvance
      (exNode6.MarkResponse exC100 exFar SEARCH_CONTACTED exFresh).2.1.nc 0 ∧
    (exNode6.HandleIterationStructure exC100 exFar 0 SEARCH_CONTACTED exFresh
        false false).map
        (fun r => (r.fna.round, r.fna.kth_closest, r.nodes, r.top_nodes_done)) =
      some (1, exFar.kth_closest, [exC1, exC2, exC3], false) ∧
    exNode1.FindNodes exRoutingTable
        { key := 8, start_nodes := [exC0], exclude_nodes := [],
          use_routingtable := false } =
      some (exZeroSeed, [SearchEffect.rpc { contact := exC0, round := 0 }]) ∧
    (∀ c ∈ exFresh8, distance 8 c.node_id < distance 8 exC0.node_id) ∧
    exNode1.roundAdvance
      (exNode1.MarkResponse exC0 exZeroSeed SEARCH_CONTACTED exFresh8).2.1.nc 0 ∧
    (exNode1.HandleIterationStructure exC0 exZeroSeed 0 SEARCH_CONTACTED exFresh8
        false false).map
        (fun r => (r.fna.round, r.fna.kth_closest, r.nodes, r.top_nodes_done)) =
      some (exZeroSeed.round, exZeroSeed.kth_closest, [exC0], true) := by
  refine ⟨by decide, by decide, by decide, by decide, by decide, by decide,
    by decide⟩

/-- C13, as amended: a lookup with `K = 2`, `alpha = 2`, `beta = 1` is seeded with three
contacts whose identifiers are pairwise distinct and none of which is the default
(all-zero) identifier.  `FindNodes` dispatches two seeds `s1`, `s2`, which are the two
seeds closest to the key, `s1` strictly closer than `s2` and `s2` strictly closer than
the third seed.  When both answer successfully with no new contacts, in either order,
the first response has no effect and leaves the session not completed, and the second
response invokes the callback, once, with the list `[s1, s2]`, and completes the
session. -/
theorem three_seeds_converge (t : Int) (key : NodeId) (a b c : Contact)
    (rt : NodeId → Nat → List Contact → List Contact)
    (hab : a.node_id ≠ b.node_id) (hac : a.node_id ≠ c.node_id)
    (hbc : b.node_id ≠ c.node_id)
    (ha : a.node_id ≠ kZeroId) (hb : b.node_id ≠ kZeroId) (hc : c.node_id ≠ kZeroId) :
    ∃ s1 s2 fna0,
      NodeImpl.FindNodes { K_ := 2, kAlpha := 2, kBeta := 1, kTupleRound := t } rt
          { key := key, start_nodes := [a, b, c], exclude_nodes := [],
            use_routingtable := false } =
        some (fna0, [SearchEffect.rpc { contact := s1, round := 0 },
                     SearchEffect.rpc { contact := s2, round := 0 }]) ∧
      s1 ∈ [a, b, c] ∧ s2 ∈ [a, b, c] ∧
      distance key s1.node_id < distance key s2.node_id ∧
      (∀ u ∈ [a, b, c], u ≠ s1 → u ≠ s2 →
        distance key s2.node_id < distance key u.node_id) ∧
      (∀ first second, (first = s1 ∧ second = s2) ∨ (first = s2 ∧ second = s1) →
        ∃ fna1 fna2,
          NodeImpl.IterativeSearchResponse
              { K_ := 2, kAlpha := 2, kBeta := 1, kTupleRound := t }
              fna0 true [] { contact := first, round := 0 } = some (fna1, []) ∧
          fna1.calledback = false ∧
          NodeImpl.IterativeSearchResponse
              { K_ := 2, kAlpha := 2, kBeta := 1, kTupleRound := t }
              fna1 true [] { contact := second, round := 0 } =
            some (fna2, [SearchEffect.callback [s1, s2]]) ∧
          fna2.calledback = true) := by
  obtain ⟨x, y, z, fna0, hp, hxy, hyz, hfn, hsame⟩ :=
    three_seeds_findNodes t key a b c rt hab hac hbc ha hb hc
  have hmem : ∀ u ∈ [x, y, z], u.node_id ≠ 0 := by
    intro u hu
    have hu2 := hp.subset hu
    simp only [List.mem_cons, List.mem_singleton, List.not_mem_nil, or_false] at hu2
    rcases hu2 with rfl | rfl | rfl <;> assumption
  have hx := hmem x (by simp)
  have hy := hmem y (by simp)
  have hz := hmem z (by simp)
  have hxz : x.node_id ^^^ key < z.node_id ^^^ key := Nat.lt_trans hxy hyz
  have ixy : x.node_id ≠ y.node_id := fun h => by
    rw [h] at hxy; exact Nat.lt_irrefl _ hxy
  have iyz : y.node_id ≠ z.node_id := fun h => by
    rw [h] at hyz; exact Nat.lt_irrefl _ hyz
  have ixz : x.node_id ≠ z.node_id := fun h => by
    rw [h] at hxz; exact Nat.lt_irrefl _ hxz
  obtain ⟨r1, r2, r3, r4⟩ := three_sorted_run t key x y z hx hy hz hxy hyz
  refine ⟨x, y, fna0, hfn, hp.subset (by simp), hp.subset (by simp), hxy, ?_, ?_⟩
  · intro u hu hux huy
    have hu2 := hp.symm.subset hu
    simp only [List.mem_cons, List.mem_singleton, List.not_mem_nil, or_false] at hu2
    rcases hu2 with rfl | rfl | rfl
    · exact absurd rfl hux
    · exact absurd rfl huy
    · exact hyz
  · intro first second hord
    rcases hord with ⟨rfl, rfl⟩ | ⟨rfl, rfl⟩
    · obtain ⟨s, hs, hss, hse⟩ := isr_perm _ _ _ true [] _
        (by simp [ncUnique, ixy, iyz, ixz]) hsame _ r1
      obtain ⟨s2, hs2, hss2, hse2⟩ := isr_perm _ _ _ true [] _
        (by simp [ncUnique, ixy, iyz, ixz]) hss _ r2
      refine ⟨s.1, s2.1, ?_, hss.2.2.1.symm, ?_, hss2.2.2.1.symm⟩
      · rw [hs]
        exact congrArg some (Prod.ext rfl hse.symm)
      · rw [hs2]
        exact congrArg some (Prod.ext rfl hse2.symm)
    · obtain ⟨s, hs, hss, hse⟩ := isr_perm _ _ _ true [] _
        (by simp [ncUnique, ixy, iyz, ixz]) hsame _ r3
      obtain ⟨s2, hs2, hss2, hse2⟩ := isr_perm _ _ _ true [] _
        (by simp [ncUnique, ixy, iyz, ixz]) hss _ r4
      refine ⟨s.1, s2.1, ?_, hss.2.2.1.symm, ?_, hss2.2.2.1.symm⟩
      · rw [hs]
        exact congrArg some (Prod.ext rfl hse.symm)
      · rw [hs2]
        exact congrArg some (Prod.ext rfl hse2.symm)

/-- C13, witness: the seeds 1, 2, 3 and the key 8. -/
theorem three_seeds_converge_witness :
    (exC1.node_id ≠ exC2.node_id ∧ exC1.node_id ≠ exC3.node_id ∧
      exC2.node_id ≠ exC3.node_id ∧ exC1.node_id ≠ kZeroId ∧
      exC2.node_id ≠ kZeroId ∧ exC3.node_id ≠ kZeroId) ∧
    ∃ s1 s2 fna0,
      NodeImpl.FindNodes { K_ := 2, kAlpha := 2, kBeta := 1, kTupleRound := -1 }
          exRoutingTable
          { key := 8, start_nodes := [exC1, exC2, exC3], exclude_nodes := [],
            use_routingtable := false } =
        some (fna0, [SearchEffect.rpc { contact := s1, round := 0 },
                     SearchEffect.rpc { contact := s2, round := 0 }]) ∧
      s1 ∈ [exC1, exC2, exC3] ∧ s2 ∈ [exC1, exC2, exC3] ∧
      distance 8 s1.node_id < distance 8 s2.node_id ∧
      (∀ u ∈ [exC1, exC2, exC3], u ≠ s1 → u ≠ s2 →
        distance 8 s2.node_id < distance 8 u.node_id) ∧
      (∀ first second, (first = s1 ∧ second = s2) ∨ (first = s2 ∧ second = s1) →
        ∃ fna1 fna2,
          NodeImpl.IterativeSearchResponse
              { K_ := 2, kAlpha := 2, kBeta := 1, kTupleRound := -1 }
              fna0 true [] { contact := first, round := 0 } = some (fna1, []) ∧
          fna1.calledback = false ∧
          NodeImpl.IterativeSearchResponse
              { K_ := 2, kAlpha := 2, kBeta := 1, kTupleRound := -1 }
              fna1 true [] { contact := second, round := 0 } =
            some (fna2, [SearchEffect.callback [s1, s2]]) ∧
          fna2.calledback = true) :=
  ⟨by decide,
    three_seeds_converge (-1) 8 exC1 exC2 exC3 exRoutingTable (by decide) (by decide)
      (by decide) (by decide) (by decide) (by decide)⟩

/-- C13, counterexample: the lookup of the key 5 seeded with the three distinct contacts
0, 4, 5.  `FindNodes` dispatches the contacts 0 and 5; both answer successfully with no
new contact, and the second response invokes the callback with `[0, 5]`.  The two seeds
closest to the key are 5 and 4 (distances 0 and 1; contact 0 is at distance 5), and
`[0, 5]` is not in ascending distance order. -/
theorem three_seeds_zero_first :
    (exNode.FindNodes exRoutingTable exZeroThree).map (fun s => s.2) =
      some [SearchEffect.rpc { contact := exC0, round := 0 },
            SearchEffect.rpc { contact := exC5, round := 0 }] ∧
    ((exNode.FindNodes exRoutingTable exZeroThree).bind
      (fun s => (exNode.IterativeSearchResponse s.1 true []
        { contact := exC0, round := 0 }).bind
        (fun s1 => (exNode.IterativeSearchResponse s1.1 true []
          { contact := exC5, round := 0 }).map (fun s2 => (s1.2, s2.2))))) =
      some ([], [SearchEffect.callback [exC0, exC5]]) ∧
    ((exNode.FindNodes exRoutingTable exZeroThree).bind
      (fun s => (exNode.IterativeSearchResponse s.1 true []
        { contact := exC5, round := 0 }).bind
        (fun s1 => (exNode.IterativeSearchResponse s1.1 true []
          { contact := exC0, round := 0 }).map (fun s2 => (s1.2, s2.2))))) =
      some ([], [SearchEffect.callback [exC0, exC5]]) ∧
    exC4 ∈ exZeroThree.start_nodes ∧ exC4 ∉ [exC0, exC5] ∧
    distance exZeroThree.key exC4.node_id < distance exZeroThree.key exC0.node_id ∧
    ¬ ascending exZeroThree.key [exC0, exC5] := by
  refine ⟨by decide, by decide, by decide, by decide, by decide, by decide, by decide⟩

/-- C21: `MarkResponse` returns `true` exactly when the responding contact has a record
in the ledger after the contacts of the response have been inserted; when it returns
`false` the ledger is the old one followed by the inserted records, which are all in
state `kNew`: no record that was there has changed. -/
theorem markResponse_return_value (self : NodeImpl) (contact : Contact)
    (fna : FindNodesArgs) (mark : SearchMarking) (nodes : List Contact) :
    ((self.MarkResponse contact fna mark nodes).1 = true ↔
      ∃ e ∈ (self.insertResponseNodes fna.nc nodes).1,
        e.contact.node_id = contact.node_id) ∧
    ((self.MarkResponse contact fna mark nodes).1 = false →
      (self.MarkResponse contact fna mark nodes).2.1.nc =
        (self.insertResponseNodes fna.nc nodes).1 ∧
      ∃ added : NodeContainer,
        (self.MarkResponse contact fna mark nodes).2.1.nc = fna.nc ++ added ∧
        ∀ a ∈ added, a.state = kNew ∧ a.round = self.kTupleRound ∧
          a.contact ∈ nodes) := by
  obtain ⟨added, hadd, hall, _, _⟩ := insertResponseNodes_spec self nodes fna.nc
  cases hf : ncFind (self.insertResponseNodes fna.nc nodes).1 contact with
  | some it =>
    have h1 : (self.MarkResponse contact fna mark nodes).1 = true := by
      simp [NodeImpl.MarkResponse, hf]
    refine ⟨⟨fun _ => ⟨it, (ncFind_some hf).1, (ncFind_some hf).2⟩, fun _ => h1⟩, ?_⟩
    intro h0
    rw [h1] at h0
    simp at h0
  | none =>
    have h1 : (self.MarkResponse contact fna mark nodes).1 = false := by
      simp [NodeImpl.MarkResponse, hf]
    have h2 : (self.MarkResponse contact fna mark nodes).2.1.nc =
        (self.insertResponseNodes fna.nc nodes).1 := by
      simp [NodeImpl.MarkResponse, hf]
    refine ⟨⟨fun h => ?_, fun ⟨e, he, hid⟩ => ?_⟩, fun _ => ⟨h2, added, ?_, ?_⟩⟩
    · rw [h1] at h
      simp at h
    · exact absurd hid (ncFind_none.1 hf e he)
    · rw [h2, hadd]
    · intro a ha
      exact ⟨(hall a ha).1, (hall a ha).2.1, (hall a ha).2.2.1⟩

/-- C23: `IterativeSearch` invokes the callback exactly when `top_nodes_done` is true and
`calledback` is false, with the given contact list, and dispatches no RPC then; with
`top_nodes_done` true and `calledback` true it does nothing; with `top_nodes_done`
false it invokes no callback and dispatches one RPC per contact of the list, in order,
tagged with the round counter of the session, and nothing for the empty list. -/
theorem iterativeSearch_effects (fna : FindNodesArgs) (contacts : List Contact)
    (np : Nat) :
    IterativeSearch fna true false contacts np = [SearchEffect.callback contacts] ∧
    IterativeSearch fna true true contacts np = [] ∧
    (∀ c : Bool, IterativeSearch fna false c contacts np =
      contacts.map (fun it => SearchEffect.rpc { contact := it, round := fna.round })) ∧
    (∀ c : Bool, (IterativeSearch fna false c contacts np).length = contacts.length) ∧
    (∀ c : Bool, IterativeSearch fna false c [] np = []) ∧
    (∀ (d c : Bool) (l : List Contact),
      SearchEffect.callback l ∈ IterativeSearch fna d c contacts np ↔
        (d = true ∧ c = false ∧ l = contacts)) ∧
    (∀ (c : Bool) (r : FindNodesRpc),
      SearchEffect.rpc r ∉ IterativeSearch fna true c contacts np) := by
  have h3 : ∀ c : Bool, IterativeSearch fna false c contacts np =
      contacts.map (fun it => SearchEffect.rpc { contact := it, round := fna.round }) := by
    intro c
    cases contacts <;> simp [IterativeSearch]
  refine ⟨by simp [IterativeSearch], by simp [IterativeSearch], h3, ?_, ?_, ?_, ?_⟩
  · intro c
    rw [h3 c, List.length_map]
  · intro c
    simp [IterativeSearch]
  · intro d c l
    exact iterativeSearch_callback_iff fna d c contacts np l
  · intro c r
    cases c <;> simp [IterativeSearch]

/-- C29: for every key and every contact list the output of `SortContactList` is a
permutation of the input; it has the same length, every contact occurs in it as often
as in the input, and the empty list is returned as it is. -/
theorem sortContactList_permutation (key : NodeId) (l : List Contact) :
    (SortContactList key l).Perm l ∧
    (SortContactList key l).length = l.length ∧
    (∀ c, (SortContactList key l).count c = l.count c) ∧
    SortContactList key [] = [] :=
  ⟨sortContactList_perm key l, (sortContactList_perm key l).length_eq,
    fun c => (sortContactList_perm key l).count_eq c, rfl⟩

/-- C30: `CompareContact` is `true` whenever its first contact has the default
identifier and `false` when only the second one has it, whatever the key;
`SortContactList` therefore returns a list that starts with a contact with the default
identifier whenever the input holds one, as for the key 1 and the contacts 1 and 0,
where contact 1 is at distance 0; for two contacts with other identifiers
`CompareContact` is `NodeId::CloserToTarget` of the two identifiers and the key. -/
theorem compareContact_default_first :
    (∀ first second : ContactAndTargetKey, first.contact.node_id = kZeroId →
      CompareContact first second = true) ∧
    (∀ first second : ContactAndTargetKey, first.contact.node_id ≠ kZeroId →
      second.contact.node_id = kZeroId → CompareContact first second = false) ∧
    (∀ (key : NodeId) (l : List Contact) (c : Contact), c ∈ l →
      c.node_id = kZeroId →
      ∃ h t, SortContactList key l = h :: t ∧ h.node_id = kZeroId) ∧
    (SortContactList 1 [exC1, exC0] = [exC0, exC1] ∧
      distance 1 exC1.node_id < distance 1 exC0.node_id) ∧
    (∀ first second : ContactAndTargetKey, first.contact.node_id ≠ kZeroId →
      second.contact.node_id ≠ kZeroId →
      CompareContact first second =
        CloserToTarget first.contact.node_id second.contact.node_id
          first.target_key) := by
  refine ⟨?_, ?_, ?_, ⟨by decide, by decide⟩, ?_⟩
  · intro first second h
    simp [CompareContact, h]
  · intro first second h1 h2
    simp [CompareContact, h1, h2]
  · intro key l c hc hz
    exact sortContactList_head_zero key l c hc hz
  · intro first second h1 h2
    simp [CompareContact, h1, h2]

/-- C27: whenever a call of `HandleIterationStructure` terminates a lookup, every contact
of the returned list has a record in state `kContacted` in the ledger, and every record
with the identifier of such a contact is in that state: the list holds no contact whose
record is `kNew`, `kSelectedAlpha` or `kDown`. -/
theorem terminated_all_contacted (self : NodeImpl) (contact : Contact)
    (fna : FindNodesArgs) (round : Int) (mark : SearchMarking)
    (nodes : List Contact) (res : IterationResult)
    (hu : ncUnique fna.nc)
    (h : self.HandleIterationStructure contact fna round mark nodes false false
      = some res)
    (hd : res.top_nodes_done = true) :
    ∀ c ∈ res.nodes,
      (∃ e ∈ res.fna.nc, e.contact = c ∧ e.state = kContacted) ∧
      ∀ e ∈ res.fna.nc, e.contact.node_id = c.node_id → e.state = kContacted := by
  cases hc : fna.calledback with
  | true =>
    rw [his_completed self contact fna round mark nodes false false hc] at h
    simp only [Option.some.injEq] at h
    subst h
    intro c hcm
    simp at hcm
  | false =>
    have hu1 := markResponse_unique self contact fna mark nodes hu
    rcases his_step self contact fna round mark nodes res hc hu h with
      ⟨_, _, _, hnd⟩ | ⟨_, hconv, hfna, hnodes, _⟩ | ⟨_, _, _, _, _, _, _, _, hnd⟩
    · rw [hnd] at hd
      simp at hd
    · have hnc : res.fna.nc = (self.MarkResponse contact fna mark nodes).2.1.nc := by
        rw [hfna]
      intro c hcm
      rw [hnodes] at hcm
      obtain ⟨e, he, hlive, hec⟩ := mem_closestK hcm
      have hnew := (hconv.2.1 c hcm).1
      have hsel := (hconv.2.1 c hcm).2
      have hstate : e.state = kContacted := by
        cases hs : e.state with
        | kNew =>
          have := hasState_iff.2 ⟨e, he, hec, hs⟩
          rw [hnew] at this
          simp at this
        | kSelectedAlpha =>
          have := hasState_iff.2 ⟨e, he, hec, hs⟩
          rw [hsel] at this
          simp at this
        | kContacted => rfl
        | kDown => exact absurd hs hlive
      rw [hnc]
      refine ⟨⟨e, he, hec, hstate⟩, ?_⟩
      intro e2 he2 hid
      have : e2 = e := ncUnique_eq_of_id hu1 he2 he (by rw [hid, hec])
      rw [this]
      exact hstate
    · rw [hnd] at hd
      simp at hd

/-- C27, witness: the answer of contact 2 in the session `exLast` terminates the lookup
with the contacts 1 and 2. -/
theorem terminated_all_contacted_witness :
    (ncUnique exLast.nc ∧
      exNode.HandleIterationStructure exC2 exLast 0 SEARCH_CONTACTED [] false false =
        some exDoneResult ∧
      exDoneResult.top_nodes_done = true) ∧
    ∀ c ∈ exDoneResult.nodes,
      (∃ e ∈ exDoneResult.fna.nc, e.contact = c ∧ e.state = kContacted) ∧
      ∀ e ∈ exDoneResult.fna.nc, e.contact.node_id = c.node_id →
        e.state = kContacted :=
  ⟨⟨by decide, by decide, by decide⟩,
    terminated_all_contacted exNode exC2 exLast 0 SEARCH_CONTACTED [] exDoneResult
      (by decide) (by decide) (by decide)⟩

/-- C25: a contact whose record is in state `kDown` after the marking step of a call of
`HandleIterationStructure` is not in the list the call returns, be it the candidates of
the next round or the final result. -/
theorem down_not_returned (self : NodeImpl) (contact : Contact)
    (fna : FindNodesArgs) (round : Int) (mark : SearchMarking)
    (nodes : List Contact) (res : IterationResult)
    (hu : ncUnique fna.nc)
    (h : self.HandleIterationStructure contact fna round mark nodes false false
      = some res) :
    ∀ e ∈ (self.MarkResponse contact fna mark nodes).2.1.nc, e.state = kDown →
      e.contact ∉ res.nodes ∧ ∀ c ∈ res.nodes, c.node_id ≠ e.contact.node_id := by
  have hu1 := markResponse_unique self contact fna mark nodes hu
  have key : ∀ e ∈ (self.MarkResponse contact fna mark nodes).2.1.nc, e.state = kDown →
      ∀ c ∈ self.closestK fna.key (self.MarkResponse contact fna mark nodes).2.1.nc,
        c.node_id ≠ e.contact.node_id := by
    intro e he hdown c hcm hid
    obtain ⟨e2, he2, hlive, hec⟩ := mem_closestK hcm
    have : e2 = e := ncUnique_eq_of_id hu1 he2 he (by rw [hec, hid])
    rw [this] at hlive
    exact hlive hdown
  have main : ∀ e ∈ (self.MarkResponse contact fna mark nodes).2.1.nc, e.state = kDown →
      ∀ c ∈ res.nodes, c.node_id ≠ e.contact.node_id := by
    cases hc : fna.calledback with
    | true =>
      rw [his_completed self contact fna round mark nodes false false hc] at h
      simp only [Option.some.injEq] at h
      subst h
      intro e _ _ c hcm
      simp at hcm
    | false =>
      rcases his_step self contact fna round mark nodes res hc hu h with
        ⟨_, _, hnodes, _⟩ | ⟨_, _, _, hnodes, _⟩ | ⟨_, _, _, _, _, _, _, hnodes, _⟩
      · intro e _ _ c hcm
        rw [hnodes] at hcm
        simp at hcm
      · intro e he hdown c hcm
        rw [hnodes] at hcm
        exact key e he hdown c hcm
      · intro e he hdown c hcm
        rw [hnodes] at hcm
        exact key e he hdown c (mem_firstNew hcm).1
  intro e he hdown
  exact ⟨fun hmem => main e he hdown e.contact hmem rfl, main e he hdown⟩

/-- C25, witness: with `K = 3`, contact 1 is down and contact 2 answers; the call
returns contact 3 as the candidate of the next round, and contact 1 is not in the
list. -/
theorem down_not_returned_witness :
    (ncUnique exOneDown.nc ∧
      exNode3.HandleIterationStructure exC2 exOneDown 0 SEARCH_CONTACTED [] false false =
        some exOneDownResult) ∧
    ∀ e ∈ (exNode3.MarkResponse exC2 exOneDown SEARCH_CONTACTED []).2.1.nc,
      e.state = kDown →
      e.contact ∉ exOneDownResult.nodes ∧
      ∀ c ∈ exOneDownResult.nodes, c.node_id ≠ e.contact.node_id :=
  ⟨⟨by decide, by decide⟩,
    down_not_returned exNode3 exC2 exOneDown 0 SEARCH_CONTACTED [] exOneDownResult
      (by decide) (by decide)⟩

/-- C28: with `K ≥ 1` and `beta ≥ 1`, when a record of the ledger is tagged with the
round of the response (before or after the marking step) and the round-advance condition
holds, the sorted live list cut to `K` is not empty: it has a last element, and the call
of `HandleIterationStructure` is defined. -/
theorem back_is_defined (self : NodeImpl) (contact : Contact)
    (fna : FindNodesArgs) (round : Int) (mark : SearchMarking) (nodes : List Contact)
    (hK : 0 < self.K_) (hβ : 0 < self.kBeta)
    (hsent : (∃ e ∈ fna.nc, e.round = round) ∨
      ∃ e ∈ (self.MarkResponse contact fna mark nodes).2.1.nc, e.round = round)
    (hr : self.roundAdvance (self.MarkResponse contact fna mark nodes).2.1.nc round) :
    self.topNodes (self.MarkResponse contact fna mark nodes).2.1 [] ≠ [] ∧
    (∃ back, (self.topNodes (self.MarkResponse contact fna mark nodes).2.1
      []).getLast? = some back) ∧
    ∃ res, self.HandleIterationStructure contact fna round mark nodes false false =
      some res := by
  have hsent2 : ∃ e ∈ (self.MarkResponse contact fna mark nodes).2.1.nc,
      e.round = round := by
    rcases hsent with ⟨e, he, her⟩ | h2
    · obtain ⟨added, hrounds⟩ := markResponse_rounds self contact fna mark nodes
      have hmem : round ∈ (fna.nc ++ added).map (fun e => e.round) :=
        List.mem_map.2 ⟨e, List.mem_append_left _ he, her⟩
      rw [← hrounds] at hmem
      obtain ⟨e2, he2, her2⟩ := List.mem_map.1 hmem
      exact ⟨e2, he2, her2⟩
    · exact h2
  obtain ⟨e, he, _, hstate⟩ := roundAdvance_contacted self _ round hβ hsent2 hr
  have hne : self.topNodes (self.MarkResponse contact fna mark nodes).2.1 [] ≠ [] := by
    rw [topNodes_eq_closestK]
    exact closestK_ne_nil self _ _ hK ⟨e, he, by rw [hstate]; decide⟩
  have hback : ∃ back, (self.topNodes (self.MarkResponse contact fna mark nodes).2.1
      []).getLast? = some back := by
    cases hb : (self.topNodes (self.MarkResponse contact fna mark nodes).2.1
        []).getLast? with
    | none => exact absurd (List.getLast?_eq_none_iff.1 hb) hne
    | some back => exact ⟨back, rfl⟩
  refine ⟨hne, hback, ?_⟩
  cases hc : fna.calledback with
  | true =>
    rw [his_completed self contact fna round mark nodes false false hc]
    exact ⟨_, rfl⟩
  | false =>
    obtain ⟨back, hb⟩ := hback
    rw [his_not_completed self contact fna round mark nodes false false hc,
      if_pos ((roundDone_iff_roundAdvance _ _ _).2 hr)]
    unfold NodeImpl.nextIteration
    simp only [hb]
    split <;> exact ⟨_, rfl⟩

/-- C28, witness: the answer of contact 1 in the session `exSeeded`. -/
theorem back_is_defined_witness :
    (0 < exNode.K_ ∧ 0 < exNode.kBeta ∧
      ((∃ e ∈ exSeeded.nc, e.round = 0) ∨
        ∃ e ∈ (exNode.MarkResponse exC1 exSeeded SEARCH_CONTACTED []).2.1.nc,
          e.round = 0) ∧
      exNode.roundAdvance
        (exNode.MarkResponse exC1 exSeeded SEARCH_CONTACTED []).2.1.nc 0) ∧
    (exNode.topNodes (exNode.MarkResponse exC1 exSeeded SEARCH_CONTACTED []).2.1 []
      ≠ [] ∧
    (∃ back, (exNode.topNodes
      (exNode.MarkResponse exC1 exSeeded SEARCH_CONTACTED []).2.1 []).getLast? =
        some back) ∧
    ∃ res, exNode.HandleIterationStructure exC1 exSeeded 0 SEARCH_CONTACTED []
      false false = some res) :=
  ⟨⟨by decide, by decide, by decide, by decide⟩,
    back_is_defined exNode exC1 exSeeded 0 SEARCH_CONTACTED [] (by decide) (by decide)
      (by decide) (by decide)⟩

/-- C22, as amended: on a session that is not completed, a call of
`HandleIterationStructure` for a contact that has no record in the ledger once the
contacts of the response have been inserted returns `false`; the marking step changes no
record: the ledger is the old one followed by the records inserted for the contacts of
the response, in state `kNew` (it is the old one when the response holds no contact).
When the round-advance condition does not hold for the round of the response, the call
returns no candidate and no termination and leaves the round counter, the watermark
and the completed flag as they are. -/
theorem absent_contact_response (self : NodeImpl) (contact : Contact)
    (fna : FindNodesArgs) (round : Int) (mark : SearchMarking) (nodes : List Contact)
    (hc : fna.calledback = false)
    (habs : ∀ e ∈ (self.insertResponseNodes fna.nc nodes).1,
      e.contact.node_id ≠ contact.node_id) :
    (∀ res, self.HandleIterationStructure contact fna round mark nodes false false =
      some res → res.ret = false) ∧
    (self.MarkResponse contact fna mark nodes).2.1.nc =
      (self.insertResponseNodes fna.nc nodes).1 ∧
    (∃ added : NodeContainer,
      (self.insertResponseNodes fna.nc nodes).1 = fna.nc ++ added ∧
      ∀ a ∈ added, a.state = kNew ∧ a.round = self.kTupleRound ∧ a.contact ∈ nodes) ∧
    (nodes = [] → (self.insertResponseNodes fna.nc nodes).1 = fna.nc) ∧
    (¬ self.roundAdvance (self.insertResponseNodes fna.nc nodes).1 round →
      self.HandleIterationStructure contact fna round mark nodes false false =
        some { ret := false
               fna := { key := fna.key
                        kth_closest := fna.kth_closest
                        nc := (self.insertResponseNodes fna.nc nodes).1
                        calledback := false
                        round := fna.round }
               nodes := []
               top_nodes_done := false
               calledback := false
               nodes_pending := (((self.insertResponseNodes fna.nc nodes).1).filter
                 (fun e => e.state = kSelectedAlpha)).length }) := by
  have hf := ncFind_none.2 habs
  have hm : self.MarkResponse contact fna mark nodes =
      (false, { fna with nc := (self.insertResponseNodes fna.nc nodes).1 },
        (self.insertResponseNodes fna.nc nodes).2) := by
    simp [NodeImpl.MarkResponse, hf]
  obtain ⟨added, hadd, hall, _, _⟩ := insertResponseNodes_spec self nodes fna.nc
  refine ⟨?_, by rw [hm], ⟨added, hadd, fun a ha =>
    ⟨(hall a ha).1, (hall a ha).2.1, (hall a ha).2.2.1⟩⟩, ?_, ?_⟩
  · intro res h
    rw [his_ret self contact fna round mark nodes false false res hc h, hm]
  · intro hn
    rw [hn]
    rfl
  · intro hr
    have hr2 : ¬ self.roundAdvance (self.MarkResponse contact fna mark nodes).2.1.nc
        round := by
      rw [hm]
      exact hr
    rw [his_waits_eq self contact fna round mark nodes hc hr2, hm]
    simp [NodesPending, hc]

/-- C22, witness: in the session `exSeeded` a response for contact 9, which is not in
the ledger, tagged with round 0. -/
theorem absent_contact_response_witness :
    (exSeeded.calledback = false ∧
      (∀ e ∈ (exNode.insertResponseNodes exSeeded.nc []).1,
        e.contact.node_id ≠ exC9.node_id) ∧
      ¬ exNode.roundAdvance (exNode.insertResponseNodes exSeeded.nc []).1 0) ∧
    exNode.HandleIterationStructure exC9 exSeeded 0 SEARCH_CONTACTED [] false false =
      some { ret := false
             fna := { key := exSeeded.key
                      kth_closest := exSeeded.kth_closest
                      nc := (exNode.insertResponseNodes exSeeded.nc []).1
                      calledback := false
                      round := exSeeded.round }
             nodes := []
             top_nodes_done := false
             calledback := false
             nodes_pending := (((exNode.insertResponseNodes exSeeded.nc []).1).filter
               (fun e => e.state = kSelectedAlpha)).length } :=
  ⟨⟨by decide, by decide, by decide⟩,
    (absent_contact_response exNode exC9 exSeeded 0 SEARCH_CONTACTED [] (by decide)
      (by decide)).2.2.2.2 (by decide)⟩

/-- C22, counterexample: three responses for contact 9, which is in none of the ledgers.
In the session `exLast` (round counter 1, contact 2 in flight) the response tagged with
round 0 meets the round-advance condition and moves the round counter to 2.  In the
session `exStalled`, reached from `FindNodes` when contact 1 answers and contact 2
fails, it terminates the lookup with the list `[1]` and sets the completed flag.  In
the session `exSeeded` a response that holds contact 5 adds a record for contact 5. -/
theorem absent_contact_not_discarded :
    (∀ e ∈ exLast.nc, e.contact.node_id ≠ exC9.node_id) ∧
    exNode.HandleIterationStructure exC9 exLast 0 SEARCH_CONTACTED [] false false =
      some { ret := false
             fna := { exLast with round := 2 }
             nodes := []
             top_nodes_done := false
             calledback := false
             nodes_pending := 1 } ∧
    ((exNode.FindNodes exRoutingTable
        { key := 8, start_nodes := [exC1, exC2], exclude_nodes := [],
          use_routingtable := false }).bind
      (fun s => (exNode.IterativeSearchResponse s.1 true []
        { contact := exC1, round := 0 }).bind
        (fun s1 => (exNode.IterativeSearchResponse s1.1 false []
          { contact := exC2, round := 0 })))) = some (exStalled, []) ∧
    (∀ e ∈ exStalled.nc, e.contact.node_id ≠ exC9.node_id) ∧
    exNode.HandleIterationStructure exC9 exStalled 0 SEARCH_CONTACTED [] false false =
      some { ret := false
             fna := { exStalled with calledback := true }
             nodes := [exC1]
             top_nodes_done := true
             calledback := false
             nodes_pending := 0 } ∧
    (∀ e ∈ exSeeded.nc, e.contact.node_id ≠ exC9.node_id) ∧
    exNode.HandleIterationStructure exC9 exSeeded 0 SEARCH_CONTACTED [exC5] false false =
      some { ret := false
             fna := { exSeeded with
               nc := exSeeded.nc ++ [{ contact := exC5, state := kNew, round := -1 }] }
             nodes := []
             top_nodes_done := false
             calledback := false
             nodes_pending := 2 } := by
  refine ⟨by decide, by decide, by decide, by decide, by decide, by decide, by decide⟩

/-- C26: in every session reachable from `FindNodes` by calls of
`HandleIterationStructure` for contacts that were dispatched (calls that fulfil
`wasSelected`, as those of `IterativeSearchResponse` do), for every round number `r` at
most `alpha` records are tagged `r` and not in state `kNew`.  Every record not in state
`kNew` is tagged with a round up to the round counter, and a call that starts the next
round returns at most `alpha` contacts and marks each of them `kSelectedAlpha` with the
round counter plus one: a round number no earlier selection used. -/
theorem selected_per_round_bound (self : NodeImpl)
    (rt : NodeId → Nat → List Contact → List Contact) (fnp : FindNodesParams)
    (fna : FindNodesArgs) (h : self.Reached wasSelected rt fnp fna) :
    (∀ r, selectedInRound fna.nc r ≤ self.kAlpha) ∧
    (∀ e ∈ fna.nc, e.state ≠ kNew → e.round ≤ fna.round) ∧
    (∀ (contact : Contact) (round : Int) (mark : SearchMarking)
        (nodes : List Contact) (res : IterationResult),
      self.HandleIterationStructure contact fna round mark nodes false false =
        some res →
      res.top_nodes_done = false →
      res.nodes.length ≤ self.kAlpha ∧
      ∀ c ∈ res.nodes, ∃ e ∈ res.fna.nc, e.contact = c ∧
        e.state = kSelectedAlpha ∧ e.round = fna.round + 1) := by
  obtain ⟨hu, hi, hcnt⟩ := reached_round_bound
    (fun e => decide (e.state ≠ kNew)) self wasSelected rt fnp
    (fun a hs _ => by simp [hs])
    (fun f c mark nodes hfc hu x hx hqx => by
      obtain ⟨e0, he0, hid0, hs0⟩ := hfc
      obtain ⟨added, hadd, _, huniq, _⟩ := insertResponseNodes_spec self nodes f.nc
      by_cases hid : x.contact.node_id = c.node_id
      · have hu2 : ncUnique (self.insertResponseNodes f.nc nodes).1 := by
          rw [hadd]
          exact huniq hu
        have he0' : e0 ∈ (self.insertResponseNodes f.nc nodes).1 := by
          rw [hadd]
          exact List.mem_append_left _ he0
        have : x = e0 := ncUnique_eq_of_id hu2 hx he0' (by rw [hid, hid0])
        rw [this]
        simpa using hs0
      · simp only [markEntry, if_neg hid] at hqx
        exact hqx)
    fna h
  refine ⟨?_, ?_, ?_⟩
  · intro r
    refine Nat.le_trans (Nat.le_of_eq ?_) (hcnt r)
    unfold selectedInRound
    apply List.countP_congr
    intro x _
    simp
  · intro e he hne
    exact hi e he (by simpa using hne)
  · intro contact round mark nodes res hres hd
    cases hc : fna.calledback with
    | true =>
      rw [his_completed self contact fna round mark nodes false false hc] at hres
      simp only [Option.some.injEq] at hres
      subst hres
      simp at hd
    | false =>
      rcases his_step self contact fna round mark nodes res hc hu hres with
        ⟨_, _, hnodes, _⟩ | ⟨_, _, _, _, hd2⟩ | ⟨_, _, _, _, _, _, hnc, hnodes, _⟩
      · rw [hnodes]
        exact ⟨Nat.zero_le _, fun c hcm => by simp at hcm⟩
      · rw [hd2] at hd
        simp at hd
      · rw [hnodes]
        refine ⟨?_, ?_⟩
        · unfold NodeImpl.firstNew
          exact List.length_take_le _ _
        · intro c hcm
          obtain ⟨_, e, he, hec, hs⟩ := mem_firstNew hcm
          refine ⟨selectEntry (fna.round + 1)
            (self.firstNew (self.MarkResponse contact fna mark nodes).2.1.nc
              (self.closestK fna.key
                (self.MarkResponse contact fna mark nodes).2.1.nc)) e, ?_, ?_⟩
          · rw [hnc]
            exact List.mem_map.2 ⟨e, he, rfl⟩
          · have hin : e.contact ∈ self.firstNew
                (self.MarkResponse contact fna mark nodes).2.1.nc
                (self.closestK fna.key
                  (self.MarkResponse contact fna mark nodes).2.1.nc) := by
              rw [hec]
              exact hcm
            unfold selectEntry
            rw [if_pos hin]
            exact ⟨hec, rfl, rfl⟩

/-- C26, witness: the session `exLast`, reached from `FindNodes` by the answer of
contact 1, which `FindNodes` had selected. -/
theorem selected_per_round_bound_witness :
    exNode.Reached wasSelected exRoutingTable exParams exLast ∧
    (∀ r, selectedInRound exLast.nc r ≤ exNode.kAlpha) ∧
    (∀ e ∈ exLast.nc, e.state ≠ kNew → e.round ≤ exLast.round) ∧
    (∀ (contact : Contact) (round : Int) (mark : SearchMarking)
        (nodes : List Contact) (res : IterationResult),
      exNode.HandleIterationStructure contact exLast round mark nodes false false =
        some res →
      res.top_nodes_done = false →
      res.nodes.length ≤ exNode.kAlpha ∧
      ∀ c ∈ res.nodes, ∃ e ∈ res.fna.nc, e.contact = c ∧
        e.state = kSelectedAlpha ∧ e.round = exLast.round + 1) :=
  ⟨NodeImpl.Reached.response exSeeded exC1 0 SEARCH_CONTACTED []
      { ret := true, fna := exLast, nodes := [], top_nodes_done := false,
        calledback := false, nodes_pending := 1 }
      (NodeImpl.Reached.seed exSeeded _ example_sessions_reached.1)
      (by unfold wasSelected; decide) (by decide),
    selected_per_round_bound exNode exRoutingTable exParams exLast
      (NodeImpl.Reached.response exSeeded exC1 0 SEARCH_CONTACTED []
        { ret := true, fna := exLast, nodes := [], top_nodes_done := false,
          calledback := false, nodes_pending := 1 }
        (NodeImpl.Reached.seed exSeeded _ example_sessions_reached.1)
        (by unfold wasSelected; decide) (by decide))⟩

end kademlia

namespace rudp

open ReturnCode

/-! ## The claims on `Transport` -/

/-- The sequence of calls of the test `BEH_TRANS_StartStopListening`
(transportapitest.h 327-342) on the example multiplexer `exOpen`. -/
theorem start_stop_listening_test :
    (Transport.init false : Transport Bool).listening_port = 0 ∧
    (Transport.StartListening exOpen (Transport.init false) { ip := 1, port := 0 }).1 =
      kInvalidPort ∧
    Transport.StartListening exOpen (Transport.init false) { ip := 1, port := 2277 } =
      (kSuccess, exListening) ∧
    Transport.StartListening exOpen exListening { ip := 1, port := 2277 } =
      (kAlreadyStarted, exListening) ∧
    Transport.StartListening exOpen exListening { ip := 1, port := 55123 } =
      (kAlreadyStarted, exListening) ∧
    (Transport.StopListening false exListening).1.listening_port = 0 ∧
    (Transport.StartListening exOpen (Transport.StopListening false exListening).1
      { ip := 1, port := 55123 }).1 = kSuccess ∧
    (Transport.StartListening exOpen (Transport.StopListening false exListening).1
      { ip := 1, port := 55123 }).2.listening_port = 55123 := by
  refine ⟨by decide, by decide, by decide, by decide, by decide, by decide, by decide,
    by decide⟩

/-- C24: for a transport that is listening (its listening port is not 0),
`StartListening` with any endpoint returns `kAlreadyStarted` and changes nothing, the
listening port included; after `StopListening` the listening port is 0, and a following
`StartListening` returns what `Multiplexer::Open` returns on the new multiplexer: when
that is `kSuccess` it succeeds and the listening port is the port of the endpoint. -/
theorem startListening_when_listening {M : Type}
    (Open : M → Endpoint → ReturnCode × M) (fresh : M) (t : Transport M)
    (h : t.listening_port ≠ 0) :
    (∀ endpoint, Transport.StartListening Open t endpoint = (kAlreadyStarted, t)) ∧
    (∀ endpoint,
      (Transport.StartListening Open t endpoint).2.listening_port = t.listening_port) ∧
    (Transport.StopListening fresh t).1.listening_port = 0 ∧
    (∀ endpoint,
      (Transport.StartListening Open (Transport.StopListening fresh t).1 endpoint).1 =
        (Open fresh endpoint).1) ∧
    (∀ endpoint, (Open fresh endpoint).1 = kSuccess →
      (Transport.StartListening Open (Transport.StopListening fresh t).1 endpoint).1 =
        kSuccess ∧
      (Transport.StartListening Open (Transport.StopListening fresh t).1
        endpoint).2.listening_port = endpoint.port) := by
  have h1 : ∀ endpoint, Transport.StartListening Open t endpoint = (kAlreadyStarted, t) := by
    intro endpoint
    simp [Transport.StartListening, h]
  refine ⟨h1, fun endpoint => by rw [h1], rfl, ?_, ?_⟩
  · intro endpoint
    by_cases ho : (Open fresh endpoint).1 = kSuccess
    · simp [Transport.StartListening, Transport.StopListening, ho]
    · simp [Transport.StartListening, Transport.StopListening, ho]
  · intro endpoint ho
    simp [Transport.StartListening, Transport.StopListening, ho]

/-- C24, witness: the example transport listening on port 2277, with the example
multiplexer. -/
theorem startListening_when_listening_witness :
    exListening.listening_port ≠ 0 ∧
    (∀ endpoint,
      Transport.StartListening exOpen exListening endpoint =
        (kAlreadyStarted, exListening)) ∧
    (∀ endpoint,
      (Transport.StartListening exOpen exListening endpoint).2.listening_port =
        exListening.listening_port) ∧
    (Transport.StopListening false exListening).1.listening_port = 0 ∧
    (∀ endpoint,
      (Transport.StartListening exOpen (Transport.StopListening false exListening).1
        endpoint).1 = (exOpen false endpoint).1) ∧
    (∀ endpoint, (exOpen false endpoint).1 = kSuccess →
      (Transport.StartListening exOpen (Transport.StopListening false exListening).1
        endpoint).1 = kSuccess ∧
      (Transport.StartListening exOpen (Transport.StopListening false exListening).1
        endpoint).2.listening_port = endpoint.port) :=
  ⟨by decide, startListening_when_listening exOpen false exListening (by decide)⟩

/-- C31: after `DoRemoveConnection` the connection is not in the connection set of the
transport, which is the old set without it, and `ConnectionsCount` is the size of that
set; `RemoveTransport` is called exactly when a `ManagedConnections` is attached and the
set is empty after the erasure, and nothing is called when none is attached;
`DoInsertConnection` makes the set the old one with the connection added, so that for a
connection already in the set `ConnectionsCount` stays as it is. -/
theorem connection_set_bookkeeping (RemoteEndpoint : ConnectionPtr → Endpoint)
    (t : TransportConnections) (connection : ConnectionPtr) :
    connection ∉ (Transport.DoRemoveConnection RemoteEndpoint t connection).1.connections ∧
    (Transport.DoRemoveConnection RemoteEndpoint t connection).1.connections =
      t.connections.erase connection ∧
    Transport.ConnectionsCount
        (Transport.DoRemoveConnection RemoteEndpoint t connection).1 =
      ((Transport.DoRemoveConnection RemoteEndpoint t connection).1.connections).card ∧
    Transport.ConnectionsCount
        (Transport.DoRemoveConnection RemoteEndpoint t connection).1 =
      (if connection ∈ t.connections then Transport.ConnectionsCount t - 1
        else Transport.ConnectionsCount t) ∧
    (ManagedCall.RemoveTransport ∈
        (Transport.DoRemoveConnection RemoteEndpoint t connection).2 ↔
      (t.managed_connections = true ∧
        (Transport.DoRemoveConnection RemoteEndpoint t connection).1.connections = ∅)) ∧
    (t.managed_connections = false →
      (Transport.DoRemoveConnection RemoteEndpoint t connection).2 = []) ∧
    (Transport.DoInsertConnection RemoteEndpoint t connection).1.connections =
      insert connection t.connections ∧
    (connection ∈ t.connections →
      Transport.ConnectionsCount
          (Transport.DoInsertConnection RemoteEndpoint t connection).1 =
        Transport.ConnectionsCount t ∧
      (Transport.DoInsertConnection RemoteEndpoint t connection).1 = t) := by
  have hrem : (Transport.DoRemoveConnection RemoteEndpoint t connection).1.connections =
      t.connections.erase connection := by
    unfold Transport.DoRemoveConnection
    simp only
    split <;> rfl
  have hins : (Transport.DoInsertConnection RemoteEndpoint t connection).1 =
      { t with connections := insert connection t.connections } := by
    unfold Transport.DoInsertConnection
    simp only
    split <;> rfl
  refine ⟨?_, hrem, rfl, ?_, ?_, ?_, by rw [hins], ?_⟩
  · rw [hrem]
    exact Finset.not_mem_erase connection t.connections
  · unfold Transport.ConnectionsCount
    rw [hrem]
    by_cases hm : connection ∈ t.connections
    · rw [if_pos hm, Finset.card_erase_of_mem hm]
    · rw [if_neg hm, Finset.erase_eq_of_not_mem hm]
  · rw [hrem]
    cases hmc : t.managed_connections with
    | true =>
      by_cases he : t.connections.erase connection = ∅
      · simp [Transport.DoRemoveConnection, hmc, he]
      · simp [Transport.DoRemoveConnection, hmc, he]
    | false => simp [Transport.DoRemoveConnection, hmc]
  · intro hmc
    simp [Transport.DoRemoveConnection, hmc]
  · intro hm
    have hsame : (Transport.DoInsertConnection RemoteEndpoint t connection).1 = t := by
      rw [hins, Finset.insert_eq_of_mem hm]
    exact ⟨by rw [hsame], hsame⟩

/-- C31, witness: the example transport with the connections 7 and 9.  Removing 7 and
then 9 empties the set and deregisters the transport with the second removal only;
inserting 7 again leaves two connections. -/
theorem connection_set_bookkeeping_witness :
    (7 ∈ exTwoConnections.connections ∧
      Transport.ConnectionsCount exTwoConnections = 2 ∧
      Transport.DoRemoveConnection exRemote exTwoConnections 7 =
        ({ connections := {9}, managed_connections := true },
          [ManagedCall.RemoveEndpoint { ip := 1, port := 5007 }]) ∧
      Transport.DoRemoveConnection exRemote
          (Transport.DoRemoveConnection exRemote exTwoConnections 7).1 9 =
        ({ connections := ∅, managed_connections := true },
          [ManagedCall.RemoveEndpoint { ip := 1, port := 5009 },
           ManagedCall.RemoveTransport])) ∧
    (Transport.ConnectionsCount
        (Transport.DoInsertConnection exRemote exTwoConnections 7).1 =
      Transport.ConnectionsCount exTwoConnections ∧
    (Transport.DoInsertConnection exRemote exTwoConnections 7).1 = exTwoConnections) :=
  ⟨⟨by decide, by decide, by decide, by decide⟩,
    (connection_set_bookkeeping exRemote exTwoConnections 7).2.2.2.2.2.2.2 (by decide)⟩

end rudp
